import Mathlib

/-!
Shallow embedding of the sale transaction workflow of the shop backend
(`shop/services/sale_service.py`, `shop/serializers.py`, `shop/views/sale_views.py`).

Money is modelled in integer cents, record identifiers as natural numbers,
timestamps as natural numbers.  Each Django ORM write (`.save()`,
`objects.create`, `.delete()`) is an explicit transformation of an in-memory
database value; `transaction.atomic` is modelled by the commit wrappers at the
bottom: a body that raises returns the caller's original database.
-/

namespace Shop

structure User where
  uid : Nat
  company_id : Option Nat
deriving DecidableEq

structure Product where
  pid : Nat
  company : Nat
  name : String
  buying_price : Int
  current_stock : Int
deriving DecidableEq

structure Customer where
  cid : Nat
  company : Nat
  name : String
  phone : String
  total_purchases : Int
  total_transactions : Int
  last_purchase_date : Option Nat
deriving DecidableEq

structure Sale where
  sid : Nat
  company : Nat
  customer_id : Option Nat
  customer_name : Option String
  customer_phone : Option String
  payment_method : String
  total_amount : Int
  total_cost : Int
  total_profit : Int
  created_by : Nat
  sale_date : Nat
deriving DecidableEq

structure SaleItem where
  sale_id : Nat
  product_id : Nat
  product_name : String
  quantity : Int
  unit_buying_price : Int
  unit_selling_price : Int
  total_amount : Int
  total_cost : Int
  total_profit : Int
deriving DecidableEq

structure ProductHistory where
  product_id : Nat
  transaction_type : String
  quantity_changed : Int
  stock_before : Int
  stock_after : Int
  unit_price : Int
  total_value : Int
  notes : String
  created_by : Nat
  company : Nat
deriving DecidableEq

structure DB where
  products : List Product
  customers : List Customer
  sales : List Sale
  sale_items : List SaleItem
  history : List ProductHistory
  next_sale_id : Nat
  now : Nat
deriving DecidableEq

structure ItemReq where
  product_id : Nat
  quantity : Int
  unit_selling_price : Int
deriving DecidableEq

structure SaleReq where
  items : List ItemReq
  customer_id : Option Nat
  customer_name : Option String
  customer_phone : Option String
  payment_method : Option String
deriving DecidableEq

/-- Python truthiness of an optional integer (`None` and `0` are falsy). -/
def idT : Option Nat → Bool
  | none => false
  | some n => n != 0

/-- Python truthiness of an optional string (`None` and the empty string are falsy). -/
def strT : Option String → Bool
  | none => false
  | some s => s != ""

/-- Python `a or b` on optional strings. -/
def pyOrStr (a b : Option String) : Option String :=
  if strT a then a else b

/-- Python `a or b` where the fallback is a plain string. -/
def pyOrStrD (a : Option String) (b : String) : String :=
  if strT a then a.getD b else b

/-- Python `a or b` on optional identifiers. -/
def pyOrId (a b : Option Nat) : Option Nat :=
  if idT a then a else b

/-- `Product.objects.filter(pk=pid, company_id=company).first()`. -/
def findProduct (db : DB) (pid company : Nat) : Option Product :=
  db.products.find? (fun p => p.pid == pid && p.company == company)

/-- `Product.objects.filter(pk=pid).first()` — the bare-pk lookup used by the
reversal loops of `update_sale` and `delete_sale`. -/
def findProductByPk (db : DB) (pid : Nat) : Option Product :=
  db.products.find? (fun p => p.pid == pid)

/-- `Customer.objects.filter(pk=cid, company_id=company).first()`. -/
def findCustomer (db : DB) (cid company : Nat) : Option Customer :=
  db.customers.find? (fun c => c.cid == cid && c.company == company)

/-- `Sale.objects.filter(pk=sid, company_id=company).first()`. -/
def findSale (db : DB) (sid company : Nat) : Option Sale :=
  db.sales.find? (fun s => s.sid == sid && s.company == company)

/-- Write a product row's `current_stock` by primary key
(`product.save(update_fields=["current_stock"])`). -/
def updStock (pid : Nat) (v : Int) (l : List Product) : List Product :=
  l.map (fun p => if p.pid == pid then { p with current_stock := v } else p)

def saveProductStock (db : DB) (pid : Nat) (v : Int) : DB :=
  { db with products := updStock pid v db.products }

/-- `customer.save(...)`: overwrite the row with the given primary key. -/
def saveCustomer (db : DB) (c : Customer) : DB :=
  { db with customers := db.customers.map (fun c0 => if c0.cid == c.cid then c else c0) }

/-- `sale.save()`: overwrite the row with the given primary key. -/
def saveSale (db : DB) (s : Sale) : DB :=
  { db with sales := db.sales.map (fun s0 => if s0.sid == s.sid then s else s0) }

/-- `ProductHistory.objects.create(...)`: append a row to the audit ledger. -/
def addHistory (db : DB) (h : ProductHistory) : DB :=
  { db with history := db.history ++ [h] }

inductive SaleErr where
  | permissionDenied
  | productNotFound (pid : Nat)
  | insufficientStock (name : String)
  | integrityError
deriving DecidableEq

/-- Snapshot collected for one requested item during the `create_sale` loop
(the `sale_items_data` entries of the source). -/
structure ItemData where
  product_id : Nat
  product_name : String
  quantity : Int
  unit_buying_price : Int
  unit_selling_price : Int
  total_amount : Int
  total_cost : Int
  total_profit : Int
deriving DecidableEq

/-- Accumulator of the `create_sale` item loop: running totals, the
`sale_items_data` list and the `product_updates` list of in-memory product
objects (pid paired with the object's unsaved `current_stock`). -/
structure CreateAcc where
  total_amount : Int
  total_cost : Int
  items_data : List ItemData
  product_updates : List (Nat × Int)
deriving DecidableEq

/-- The item loop of `create_sale` (lines 29–75).  Each iteration re-fetches
the product from the database (the decrement is only on the in-memory object;
`save` is deferred to the end of the transaction), writes the history row
immediately, and records the in-memory object in `product_updates`. -/
def createItemsLoop (company : Nat) (u : User) :
    List ItemReq → DB → CreateAcc → Except SaleErr (DB × CreateAcc)
  | [], db, acc => .ok (db, acc)
  | i :: rest, db, acc =>
    match findProduct db i.product_id company with
    | none => .error (.productNotFound i.product_id)
    | some product =>
      if product.current_stock < i.quantity then
        .error (.insufficientStock product.name)
      else
        let qty := i.quantity
        let unit_buying := product.buying_price
        let unit_selling := i.unit_selling_price
        let item_total := qty * unit_selling
        let item_cost := qty * unit_buying
        let stock_before := product.current_stock
        let new_stock := product.current_stock - qty
        let db1 := addHistory db
          { product_id := product.pid
            transaction_type := "Sale"
            quantity_changed := -qty
            stock_before := stock_before
            stock_after := new_stock
            unit_price := unit_selling
            total_value := item_total
            notes := "Sale of " ++ toString qty ++ " units"
            created_by := u.uid
            company := company }
        createItemsLoop company u rest db1
          { total_amount := acc.total_amount + item_total
            total_cost := acc.total_cost + item_cost
            items_data := acc.items_data ++
              [{ product_id := product.pid
                 product_name := product.name
                 quantity := qty
                 unit_buying_price := unit_buying
                 unit_selling_price := unit_selling
                 total_amount := item_total
                 total_cost := item_cost
                 total_profit := item_total - item_cost }]
            product_updates := acc.product_updates ++ [(product.pid, new_stock)] }

/-- The customer fetch of lines 78–83 (performed only for a truthy id). -/
def createResolved (req : SaleReq) (company : Nat) (db : DB) : Option Customer :=
  if idT req.customer_id then
    findCustomer db ((req.customer_id).getD 0) company
  else none

/-- The sale header written at line 92, with the denormalized customer
snapshot fallbacks of lines 94–95. -/
def mkSaleHeader (req : SaleReq) (company : Nat) (u : User) (db : DB)
    (acc : CreateAcc) : Sale :=
  let resolved := createResolved req company db
  { sid := db.next_sale_id
    company := company
    customer_id := if idT req.customer_id then req.customer_id else none
    customer_name := pyOrStr req.customer_name (resolved.map (fun c => c.name))
    customer_phone := pyOrStr req.customer_phone (resolved.map (fun c => c.phone))
    payment_method := (req.payment_method).getD "cash"
    total_amount := acc.total_amount
    total_cost := acc.total_cost
    total_profit := acc.total_amount - acc.total_cost
    created_by := u.uid
    sale_date := db.now }

/-- One `SaleItem` row written at lines 104–115 from a collected snapshot. -/
def itemOfData (sid : Nat) (d : ItemData) : SaleItem where
  sale_id := sid
  product_id := d.product_id
  product_name := d.product_name
  quantity := d.quantity
  unit_buying_price := d.unit_buying_price
  unit_selling_price := d.unit_selling_price
  total_amount := d.total_amount
  total_cost := d.total_cost
  total_profit := d.total_profit

/-- Steps 77–118 of `create_sale`: customer-aggregate bump, sale header
creation, sale item creation, then the deferred product saves. -/
def createCommit (req : SaleReq) (company : Nat) (u : User) (db : DB)
    (acc : CreateAcc) : DB × Nat :=
  let resolved := createResolved req company db
  let db2 :=
    match resolved with
    | some c =>
      saveCustomer db
        { c with
          total_purchases := c.total_purchases + acc.total_amount
          total_transactions := c.total_transactions + 1
          last_purchase_date := some db.now }
    | none => db
  let sale := mkSaleHeader req company u db acc
  let db3 := { db2 with sales := db2.sales ++ [sale], next_sale_id := db2.next_sale_id + 1 }
  let db4 := { db3 with sale_items := db3.sale_items ++ acc.items_data.map (itemOfData sale.sid) }
  let db5 := acc.product_updates.foldl (fun d pu => saveProductStock d pu.1 pu.2) db4
  (db5, sale.sid)

/-- The MySQL/InnoDB foreign-key constraint on `sales.customer_id`
(`models.ForeignKey(Customer, ...)`): a non-null customer id written to a
sale row must exist somewhere in the customer table — in any tenant, since
the constraint knows nothing of `company_id`.  An INSERT violating it
raises `IntegrityError`. -/
def fkCustomerOk (db : DB) : Option Nat → Bool
  | none => true
  | some cid => db.customers.any (fun c => c.cid == cid)

/-- Body of `create_sale` inside `transaction.atomic`.  The final
`Sale.objects.create` INSERT is subject to the database's foreign-key
check on `customer_id`: a truthy id that exists nowhere in the customer
table raises `IntegrityError` out of the atomic block. -/
def createSaleBody (req : SaleReq) (company : Nat) (u : User) (db : DB) :
    Except SaleErr (DB × Nat) :=
  match createItemsLoop company u req.items db
      { total_amount := 0, total_cost := 0, items_data := [], product_updates := [] } with
  | .error e => .error e
  | .ok (db1, acc) =>
    if fkCustomerOk db1 (mkSaleHeader req company u db1 acc).customer_id then
      .ok (createCommit req company u db1 acc)
    else .error .integrityError

/-- `SaleService.create_sale`.  The result pairs the outcome with the
committed database: an exception escaping `transaction.atomic` rolls every
write back, so the error branches return the caller's database unchanged. -/
def create_sale (req : SaleReq) (u : User) (db : DB) : Except SaleErr Nat × DB :=
  if idT u.company_id then
    match createSaleBody req (u.company_id.getD 0) u db with
    | .error e => (.error e, db)
    | .ok (db', sid) => (.ok sid, db')
  else (.error .permissionDenied, db)

/-- Shared shape of the two stock-restoring loops (lines 136–155 and 283–302):
fetch the product by bare pk — no company filter —, credit the quantity back,
save immediately, and append a history row with the given tag. -/
def creditLoop (tag notePre : String) (company : Nat) (u : User) :
    List SaleItem → DB → DB
  | [], db => db
  | i :: rest, db =>
    match findProductByPk db i.product_id with
    | none => creditLoop tag notePre company u rest db
    | some product =>
      let stock_before := product.current_stock
      let new_stock := product.current_stock + i.quantity
      let db1 := saveProductStock db product.pid new_stock
      let db2 := addHistory db1
        { product_id := product.pid
          transaction_type := tag
          quantity_changed := i.quantity
          stock_before := stock_before
          stock_after := new_stock
          unit_price := i.unit_selling_price
          total_value := i.total_amount
          notes := notePre ++ toString i.quantity ++ " units"
          created_by := u.uid
          company := company }
      creditLoop tag notePre company u rest db2

/-- Lines 136–155 of `update_sale`: restore stock for every existing item. -/
def reversalLoop : Nat → User → List SaleItem → DB → DB :=
  creditLoop "Sale Update (Reversal)" "Reversal before sale update - restored "

/-- Lines 162–209 of `update_sale`: the new item list.  Unlike `create_sale`,
the sale item row is created and the product stock saved immediately inside
the loop. -/
def updateItemsLoop (company : Nat) (u : User) (sid : Nat) :
    List ItemReq → DB → Int → Int → Except SaleErr (DB × Int × Int)
  | [], db, newTotal, newCost => .ok (db, newTotal, newCost)
  | i :: rest, db, newTotal, newCost =>
    match findProduct db i.product_id company with
    | none => .error (.productNotFound i.product_id)
    | some product =>
      if product.current_stock < i.quantity then
        .error (.insufficientStock product.name)
      else
        let qty := i.quantity
        let unit_buying := product.buying_price
        let unit_selling := i.unit_selling_price
        let item_total := qty * unit_selling
        let item_cost := qty * unit_buying
        let db1 := { db with
          sale_items := db.sale_items ++
            [{ sale_id := sid
               product_id := product.pid
               product_name := product.name
               quantity := qty
               unit_buying_price := unit_buying
               unit_selling_price := unit_selling
               total_amount := item_total
               total_cost := item_cost
               total_profit := item_total - item_cost }] }
        let stock_before := product.current_stock
        let new_stock := product.current_stock - qty
        let db2 := saveProductStock db1 product.pid new_stock
        let db3 := addHistory db2
          { product_id := product.pid
            transaction_type := "Sale Update"
            quantity_changed := -qty
            stock_before := stock_before
            stock_after := new_stock
            unit_price := unit_selling
            total_value := item_total
            notes := "Sale update - sold " ++ toString qty ++ " units"
            created_by := u.uid
            company := company }
        updateItemsLoop company u sid rest db3 (newTotal + item_total) (newCost + item_cost)

/-- `SaleItem.objects.filter(sale=sale)`. -/
def itemsOf (db : DB) (sid : Nat) : List SaleItem :=
  db.sale_items.filter (fun i => i.sale_id == sid)

/-- `SaleItem.objects.filter(sale=sale).delete()`. -/
def deleteItemsDB (db : DB) (sid : Nat) : DB :=
  { db with sale_items := db.sale_items.filter (fun i => !(i.sale_id == sid)) }

/-- Lines 211–251 of `update_sale`: customer-aggregate reconciliation and the
header overwrite. -/
def updateCommit (sale : Sale) (previous_total : Int) (req : SaleReq)
    (company : Nat) (db : DB) (new_total new_cost : Int) : DB :=
  let db1 :=
    if idT sale.customer_id then
      match findCustomer db (sale.customer_id.getD 0) company with
      | some old_customer =>
        saveCustomer db
          { old_customer with
            total_purchases := old_customer.total_purchases - previous_total + new_total
            last_purchase_date := some db.now }
      | none => db
    else db
  let new_customer_id := req.customer_id
  let db2 :=
    if idT new_customer_id && new_customer_id != sale.customer_id then
      let dbA :=
        if idT sale.customer_id then
          match findCustomer db1 (sale.customer_id.getD 0) company with
          | some old_cust =>
            saveCustomer db1
              { old_cust with
                total_purchases := old_cust.total_purchases - new_total
                total_transactions := old_cust.total_transactions - 1 }
          | none => db1
        else db1
      match findCustomer dbA (new_customer_id.getD 0) company with
      | some new_cust =>
        saveCustomer dbA
          { new_cust with
            total_purchases := new_cust.total_purchases + new_total
            total_transactions := new_cust.total_transactions + 1
            last_purchase_date := some dbA.now }
      | none => dbA
    else db1
  let sale' :=
    { sale with
      customer_id := pyOrId req.customer_id sale.customer_id
      customer_name := pyOrStr req.customer_name sale.customer_name
      customer_phone := pyOrStr req.customer_phone sale.customer_phone
      payment_method := pyOrStrD req.payment_method sale.payment_method
      total_amount := new_total
      total_cost := new_cost
      total_profit := new_total - new_cost }
  saveSale db2 sale'

/-- Body of `update_sale` inside `transaction.atomic`; `ok none` is the
"sale not found" early return. -/
def updateSaleBody (sale_id : Nat) (req : SaleReq) (company : Nat) (u : User)
    (db : DB) : Except SaleErr (DB × Option Nat) :=
  match findSale db sale_id company with
  | none => .ok (db, none)
  | some sale =>
    let existing_items := itemsOf db sale.sid
    let previous_total := sale.total_amount
    let db1 := reversalLoop company u existing_items db
    let db2 := deleteItemsDB db1 sale.sid
    match updateItemsLoop company u sale.sid req.items db2 0 0 with
    | .error e => .error e
    | .ok (db3, new_total, new_cost) =>
      .ok (updateCommit sale previous_total req company db3 new_total new_cost, some sale.sid)

/-- `SaleService.update_sale` with the atomic-rollback wrapper. -/
def update_sale (sale_id : Nat) (req : SaleReq) (u : User) (db : DB) :
    Except SaleErr (Option Nat) × DB :=
  if idT u.company_id then
    match updateSaleBody sale_id req (u.company_id.getD 0) u db with
    | .error e => (.error e, db)
    | .ok (db', r) => (.ok r, db')
  else (.error .permissionDenied, db)

/-- Lines 283–302 of `delete_sale`: credit every item's quantity back.  The
product fetch is again by bare pk, with no company filter. -/
def cancelLoop : Nat → User → List SaleItem → DB → DB :=
  creditLoop "Sale Cancellation" "Sale cancellation - restored "

/-- `sale.delete()`: remove the sale row. -/
def deleteSaleRow (db : DB) (sid : Nat) : DB :=
  { db with sales := db.sales.filter (fun s => !(s.sid == sid)) }

/-- Lines 304–311 of `delete_sale`: decrement the linked customer's
aggregates when the customer resolves within the tenant. -/
def deleteCustomerStage (sale : Sale) (company : Nat) (db : DB) : DB :=
  if idT sale.customer_id then
    match findCustomer db ((sale.customer_id).getD 0) company with
    | some customer =>
      saveCustomer db
        { customer with
          total_purchases := customer.total_purchases - sale.total_amount
          total_transactions := customer.total_transactions - 1 }
    | none => db
  else db

/-- `SaleService.delete_sale`. -/
def delete_sale (sale_id : Nat) (u : User) (db : DB) : Except SaleErr Bool × DB :=
  if idT u.company_id then
    let company := (u.company_id).getD 0
    match findSale db sale_id company with
    | none => (.ok false, db)
    | some sale =>
      let items := itemsOf db sale.sid
      let db1 := cancelLoop company u items db
      let db2 := deleteCustomerStage sale company db1
      let db3 := deleteItemsDB db2 sale.sid
      let db4 := deleteSaleRow db3 sale.sid
      (.ok true, db4)
  else (.error .permissionDenied, db)

/-- Ordering used by `order_by("-sale_date")`: most recent first. -/
def saleDateGe (a b : Sale) : Prop := b.sale_date ≤ a.sale_date

instance : DecidableRel saleDateGe := fun a b => Nat.decLe b.sale_date a.sale_date

instance : IsTotal Sale saleDateGe :=
  ⟨fun a b => (Nat.le_total b.sale_date a.sale_date).imp id id⟩

instance : IsTrans Sale saleDateGe :=
  ⟨fun _ _ _ h1 h2 => Nat.le_trans h2 h1⟩

/-- `SaleService.get_sales`: tenant filter, optional inclusive date bounds,
ordered most-recent-first by sale date. -/
def get_sales (db : DB) (company : Nat) (start_date end_date : Option Nat) : List Sale :=
  let qs := db.sales.filter (fun s => s.company == company)
  let qs1 := match start_date with
    | some d => qs.filter (fun s => decide (d ≤ s.sale_date))
    | none => qs
  let qs2 := match end_date with
    | some d => qs1.filter (fun s => decide (s.sale_date ≤ d))
    | none => qs1
  List.insertionSort saleDateGe qs2

/-- DRF validation of one requested item (`SaleItemRequestSerializer`):
`quantity` has `min_value=1` and `unit_selling_price` has `min_value=0.01`
(one cent). -/
def itemValid (i : ItemReq) : Bool :=
  decide (1 ≤ i.quantity) && decide (1 ≤ i.unit_selling_price)

/-- DRF validation of `SaleCreateSerializer`: each item is validated; the
`items` list field was declared with `many=True` and therefore accepts an
empty list (`allow_empty` defaults to true); the customer fields are optional. -/
def saleCreateValid (req : SaleReq) : Bool :=
  req.items.all itemValid

inductive ApiResult where
  | created (sid : Nat)
  | badRequest
  | unauthorized
  | serverError
deriving DecidableEq

/-- The `create_sale` view: serializer validation (400 on failure), then the
service call with `ValueError` mapped to 400, `PermissionError` to 401, and
any other exception — such as a database `IntegrityError` escaping the
atomic block — caught by the generic handler and surfaced as 500. -/
def api_create_sale (req : SaleReq) (u : User) (db : DB) : ApiResult × DB :=
  if !saleCreateValid req then (.badRequest, db)
  else
    match create_sale req u db with
    | (.error .permissionDenied, db') => (.unauthorized, db')
    | (.error .integrityError, db') => (.serverError, db')
    | (.error _, db') => (.badRequest, db')
    | (.ok sid, db') => (.created sid, db')

/-- A committed operation of the sale transaction engine. -/
inductive Op where
  | create (u : User) (req : SaleReq)
  | update (u : User) (sale_id : Nat) (req : SaleReq)
  | delete (u : User) (sale_id : Nat)

/-- The committed database after one operation (failed calls leave it unchanged). -/
def applyOp (db : DB) : Op → DB
  | .create u req => (create_sale req u db).2
  | .update u sid req => (update_sale sid req u db).2
  | .delete u sid => (delete_sale sid u db).2

def applyOps (db : DB) : List Op → DB
  | [] => db
  | op :: rest => applyOps (applyOp db op) rest

/-- Current stock of the product row with the given primary key (0 if absent). -/
def stockOf (db : DB) (pid : Nat) : Int :=
  match findProductByPk db pid with
  | some p => p.current_stock
  | none => 0

/-- Signed sum of `quantity_changed` over a ledger fragment, restricted to one product. -/
def histSum (rows : List ProductHistory) (pid : Nat) : Int :=
  ((rows.filter (fun r => r.product_id == pid)).map (fun r => r.quantity_changed)).sum

/-- The committed history rows of one product, in commit order. -/
def rowsFor (db : DB) (pid : Nat) : List ProductHistory :=
  db.history.filter (fun r => r.product_id == pid)

/-- `stock_after = stock_before + quantity_changed` for a single ledger row. -/
def rowSelfOk (r : ProductHistory) : Prop :=
  r.stock_after = r.stock_before + r.quantity_changed

/-- The before/after chain condition along a list of ledger rows. -/
def chainB : List ProductHistory → Bool
  | [] => true
  | [_] => true
  | a :: b :: rest => (b.stock_before == a.stock_after) && chainB (b :: rest)

/-- A sale sequence's worth of a customer: the currently-existing sales linked
to the given customer id. -/
def salesOf (db : DB) (cid : Nat) : List Sale :=
  db.sales.filter (fun s => s.customer_id == some cid)

/-- The customer-aggregate invariant of the spec: denormalized totals equal
the sum and count over that customer's currently-existing sales. -/
def AggConsistent (db : DB) : Prop :=
  ∀ c ∈ db.customers,
    c.total_purchases = ((salesOf db c.cid).map (fun s => s.total_amount)).sum ∧
    c.total_transactions = (salesOf db c.cid).length

instance (db : DB) : Decidable (AggConsistent db) := by
  unfold AggConsistent; infer_instance

instance {ε α : Type} [DecidableEq ε] [DecidableEq α] : DecidableEq (Except ε α) :=
  fun a b =>
    match a, b with
    | .error e1, .error e2 =>
      if h : e1 = e2 then isTrue (by rw [h])
      else isFalse (fun hc => h (by cases hc; rfl))
    | .error _, .ok _ => isFalse (fun hc => Except.noConfusion hc)
    | .ok _, .error _ => isFalse (fun hc => Except.noConfusion hc)
    | .ok a1, .ok a2 =>
      if h : a1 = a2 then isTrue (by rw [h])
      else isFalse (fun hc => h (by cases hc; rfl))

/-- Well-formedness: product primary keys are unique. -/
def PidsNodup (db : DB) : Prop := (db.products.map (fun p => p.pid)).Nodup

instance (db : DB) : Decidable (PidsNodup db) := by
  unfold PidsNodup; infer_instance

/-- An operation whose `create_sale` item list names each product at most once
(`update_sale` and `delete_sale` are unrestricted). -/
def GoodOp : Op → Prop
  | .create _ req => (req.items.map (fun i => i.product_id)).Nodup
  | .update _ _ _ => True
  | .delete _ _ => True

instance : DecidablePred GoodOp := fun op =>
  match op with
  | .create _ req =>
    (inferInstance : Decidable ((req.items.map (fun i => i.product_id)).Nodup))
  | .update _ _ _ => (inferInstance : Decidable True)
  | .delete _ _ => (inferInstance : Decidable True)

/-- The history rows committed after `db`, i.e. during a later sequence. -/
def newRows (db db' : DB) : List ProductHistory := db'.history.drop db.history.length

/-- Name of the product row with the given primary key. -/
def prodNameOf (db : DB) (pid : Nat) : String :=
  match findProductByPk db pid with
  | some p => p.name
  | none => ""

/-- Buying price of the product row with the given primary key. -/
def prodBuyOf (db : DB) (pid : Nat) : Int :=
  match findProductByPk db pid with
  | some p => p.buying_price
  | none => 0

/-- The history row the `create_sale` loop writes for one requested item,
expressed against the database at loop entry (the loop defers product saves,
so every fetch sees the stocks from loop entry). -/
def mkCreateRow (db : DB) (company : Nat) (u : User) (i : ItemReq) : ProductHistory where
  product_id := i.product_id
  transaction_type := "Sale"
  quantity_changed := -i.quantity
  stock_before := stockOf db i.product_id
  stock_after := stockOf db i.product_id - i.quantity
  unit_price := i.unit_selling_price
  total_value := i.quantity * i.unit_selling_price
  notes := "Sale of " ++ toString i.quantity ++ " units"
  created_by := u.uid
  company := company

/-- The `sale_items_data` snapshot the `create_sale` loop collects for one item. -/
def mkItemData (db : DB) (i : ItemReq) : ItemData where
  product_id := i.product_id
  product_name := prodNameOf db i.product_id
  quantity := i.quantity
  unit_buying_price := prodBuyOf db i.product_id
  unit_selling_price := i.unit_selling_price
  total_amount := i.quantity * i.unit_selling_price
  total_cost := i.quantity * prodBuyOf db i.product_id
  total_profit := i.quantity * i.unit_selling_price - i.quantity * prodBuyOf db i.product_id

/-- Tenant of the first product row carrying the given primary key. -/
def companyOfPid (l : List Product) (pid : Nat) : Option Nat :=
  (l.find? (fun p => p.pid == pid)).map (fun p => p.company)

/-- The history chain of one product ends at the product's current stock. -/
def tipOk (db : DB) (pid : Nat) : Prop :=
  match (rowsFor db pid).getLast? with
  | some r => r.stock_after = stockOf db pid
  | none => True

/-- Invariant tying the per-product history chains to the live stock values. -/
def HistInv (db : DB) : Prop :=
  ∀ pid, chainB (rowsFor db pid) = true ∧ tipOk db pid

/-- Ledger bookkeeping of one committed step: product rows keep their keys and
tenants, the history grows by self-consistent rows whose per-product sums
account exactly for every stock change, and the per-product history chains are
extended consistently. -/
structure LedgerStep (db db' : DB) : Prop where
  prodSig : db'.products.map (fun p => (p.pid, p.company)) = db.products.map (fun p => (p.pid, p.company))
  hist : ∃ rows, db'.history = db.history ++ rows ∧
    (∀ r ∈ rows, r.stock_after = r.stock_before + r.quantity_changed) ∧
    (∀ pid, stockOf db' pid = stockOf db pid + histSum rows pid)
  inv : HistInv db → HistInv db'

/-- Tenant isolation of one committed step performed for tenant `t`: rows of
other tenants survive untouched and all new ledger rows carry tenant `t`. -/
structure TenantStep (t : Nat) (db db' : DB) : Prop where
  prodSig : db'.products.map (fun p => (p.pid, p.company)) = db.products.map (fun p => (p.pid, p.company))
  custSig : db'.customers.map (fun c => (c.cid, c.company)) = db.customers.map (fun c => (c.cid, c.company))
  otherProducts : ∀ p ∈ db.products, p.company ≠ t → p ∈ db'.products
  otherCustomers : ∀ c ∈ db.customers, c.company ≠ t → c ∈ db'.customers
  otherSales : ∀ s ∈ db.sales, s.company ≠ t → s ∈ db'.sales
  hist : ∃ rows, db'.history = db.history ++ rows ∧ ∀ r ∈ rows, r.company = t

/-- Well-formedness: customer primary keys are unique. -/
def CidsNodup (db : DB) : Prop := (db.customers.map (fun c => c.cid)).Nodup

instance (db : DB) : Decidable (CidsNodup db) := by
  unfold CidsNodup; infer_instance

/-- Customer primary keys are nonzero (Django primary keys are truthy). -/
def CidsNonzero (db : DB) : Prop := ∀ c ∈ db.customers, c.cid ≠ 0

instance (db : DB) : Decidable (CidsNonzero db) := by
  unfold CidsNonzero; infer_instance

/-- Well-formedness: sale primary keys are unique. -/
def SidsNodup (db : DB) : Prop := (db.sales.map (fun s => s.sid)).Nodup

instance (db : DB) : Decidable (SidsNodup db) := by
  unfold SidsNodup; infer_instance

/-- Well-formedness: sale primary keys stay below the id counter. -/
def SidsBounded (db : DB) : Prop := ∀ s ∈ db.sales, s.sid < db.next_sale_id

instance (db : DB) : Decidable (SidsBounded db) := by
  unfold SidsBounded; infer_instance

/-- The (primary key, tenant) signature of the customer table. -/
def CustSig (db : DB) : List (Nat × Nat) := db.customers.map (fun c => (c.cid, c.company))

/-- Every sale's customer reference resolves to a nonzero customer key within
the sale's own tenant. -/
def RefsResolve (db : DB) : Prop :=
  ∀ s ∈ db.sales, ∀ cid, s.customer_id = some cid → cid ≠ 0 ∧ (cid, s.company) ∈ CustSig db

instance optForallSomeDec (o : Option Nat) (P : Nat → Prop) [DecidablePred P] :
    Decidable (∀ cid, o = some cid → P cid) :=
  match o with
  | none => isTrue (fun _ h => nomatch h)
  | some c =>
    if h : P c then isTrue (fun cid hc => by cases hc; exact h)
    else isFalse (fun hall => h (hall c rfl))

instance (db : DB) : Decidable (RefsResolve db) := by
  unfold RefsResolve; infer_instance

/-- Invariant bundle under which the customer aggregates stay consistent. -/
structure AggInv (db : DB) : Prop where
  cnd : CidsNodup db
  cnz : CidsNonzero db
  snd : SidsNodup db
  sbd : SidsBounded db
  res : RefsResolve db
  agg : AggConsistent db

/-- An operation whose supplied customer reference (if any) resolves within
the acting user's tenant, read against the customer signature of `db`. -/
def CustOk (db : DB) : Op → Prop
  | .create u req => idT req.customer_id = true →
      ∃ cid, req.customer_id = some cid ∧
        ∃ comp, u.company_id = some comp ∧ (cid, comp) ∈ CustSig db
  | .update u _ req => idT req.customer_id = true →
      ∃ cid, req.customer_id = some cid ∧
        ∃ comp, u.company_id = some comp ∧ (cid, comp) ∈ CustSig db
  | .delete _ _ => True

instance (db : DB) : DecidablePred (CustOk db) := fun op =>
  match op with
  | .create u req => by unfold CustOk; infer_instance
  | .update u sid req => by unfold CustOk; infer_instance
  | .delete u sid => by unfold CustOk; infer_instance

/-- The (primary key, tenant) signature of the product table. -/
def ProdSig (db : DB) : List (Nat × Nat) := db.products.map (fun p => (p.pid, p.company))

/-- Every sale item references a product of its parent sale's tenant. -/
def ItemsSameTenant (db : DB) : Prop :=
  ∀ i ∈ db.sale_items, ∀ s ∈ db.sales, s.sid = i.sale_id →
    ∀ pc ∈ ProdSig db, pc.1 = i.product_id → pc.2 = s.company

instance (db : DB) : Decidable (ItemsSameTenant db) := by
  unfold ItemsSameTenant; infer_instance

/-- Well-formedness bundle for the tenant-isolation analysis. -/
structure TenantInv (db : DB) : Prop where
  pnd : PidsNodup db
  snd : SidsNodup db
  cnd : CidsNodup db
  sbd : SidsBounded db
  ist : ItemsSameTenant db

/-! Concrete instances used by the counterexamples and witnesses. -/

/-- An actor of tenant 1. -/
def actor1 : User where
  uid := 1
  company_id := some 1

/-- One product of tenant 1 with stock 2. -/
def dbC1 : DB where
  products := [{ pid := 1, company := 1, name := "P", buying_price := 500, current_stock := 2 }]
  customers := []
  sales := []
  sale_items := []
  history := []
  next_sale_id := 1
  now := 0

/-- A request naming the same product in two items of one call. -/
def reqC1 : SaleReq where
  items := [{ product_id := 1, quantity := 1, unit_selling_price := 800 },
            { product_id := 1, quantity := 1, unit_selling_price := 800 }]
  customer_id := none
  customer_name := none
  customer_phone := none
  payment_method := none

def opsC1 : List Op := [.create actor1 reqC1]

def dbC1w : DB where
  products := [{ pid := 1, company := 1, name := "P", buying_price := 500, current_stock := 9 }]
  customers := []
  sales := []
  sale_items := []
  history := []
  next_sale_id := 1
  now := 0

def reqC1w : SaleReq where
  items := [{ product_id := 1, quantity := 4, unit_selling_price := 700 }]
  customer_id := none
  customer_name := none
  customer_phone := none
  payment_method := none

def opsC1w : List Op := [.create actor1 reqC1w, .update actor1 1 reqC1w, .delete actor1 1]

def dbC2 : DB := dbC1
def reqC2 : SaleReq := reqC1
def opsC2 : List Op := [.create actor1 reqC2]

def dbC2w : DB := dbC1w
def opsC2w : List Op := [.create actor1 reqC1w, .update actor1 1 reqC1w]

/-- Tenant 1 product next to a customer of tenant 2. -/
def dbC3 : DB where
  products := [{ pid := 1, company := 1, name := "P", buying_price := 500, current_stock := 5 }]
  customers := [{ cid := 7, company := 2, name := "D", phone := "p", total_purchases := 0,
                  total_transactions := 0, last_purchase_date := none }]
  sales := []
  sale_items := []
  history := []
  next_sale_id := 1
  now := 0

/-- A create request pointing at the other tenant's customer. -/
def reqC3 : SaleReq where
  items := [{ product_id := 1, quantity := 1, unit_selling_price := 800 }]
  customer_id := some 7
  customer_name := none
  customer_phone := none
  payment_method := none

def opsC3 : List Op := [.create actor1 reqC3]

def dbC3w : DB where
  products := [{ pid := 1, company := 1, name := "P", buying_price := 500, current_stock := 9 }]
  customers := [{ cid := 4, company := 1, name := "C", phone := "p", total_purchases := 0,
                  total_transactions := 0, last_purchase_date := none },
                { cid := 5, company := 1, name := "E", phone := "q", total_purchases := 0,
                  total_transactions := 0, last_purchase_date := none }]
  sales := []
  sale_items := []
  history := []
  next_sale_id := 1
  now := 0

def reqC3wa : SaleReq where
  items := [{ product_id := 1, quantity := 2, unit_selling_price := 800 }]
  customer_id := some 4
  customer_name := none
  customer_phone := none
  payment_method := none

def reqC3wb : SaleReq where
  items := [{ product_id := 1, quantity := 1, unit_selling_price := 600 }]
  customer_id := some 5
  customer_name := none
  customer_phone := none
  payment_method := none

def opsC3w : List Op := [.create actor1 reqC3wa, .update actor1 1 reqC3wb, .delete actor1 1]

def dbC4 : DB where
  products := [{ pid := 1, company := 1, name := "P", buying_price := 500, current_stock := 10 }]
  customers := []
  sales := []
  sale_items := []
  history := []
  next_sale_id := 1
  now := 0

/-- First item in stock, second item over stock. -/
def reqC4 : SaleReq where
  items := [{ product_id := 1, quantity := 1, unit_selling_price := 800 },
            { product_id := 1, quantity := 100, unit_selling_price := 800 }]
  customer_id := none
  customer_name := none
  customer_phone := none
  payment_method := none

def reqC4a : SaleReq where
  items := [{ product_id := 1, quantity := 3, unit_selling_price := 800 }]
  customer_id := none
  customer_name := none
  customer_phone := none
  payment_method := none

/-- The database after a successful three-unit sale, target of the failing update. -/
def dbC4b : DB := (create_sale reqC4a actor1 dbC4).2

def dbC5 : DB where
  products := [{ pid := 1, company := 1, name := "P", buying_price := 500, current_stock := 10 }]
  customers := []
  sales := []
  sale_items := []
  history := []
  next_sale_id := 1
  now := 0

def reqC5a : SaleReq where
  items := [{ product_id := 1, quantity := 3, unit_selling_price := 800 }]
  customer_id := none
  customer_name := none
  customer_phone := none
  payment_method := none

def reqC5b : SaleReq where
  items := [{ product_id := 1, quantity := 1, unit_selling_price := 800 }]
  customer_id := none
  customer_name := none
  customer_phone := none
  payment_method := none

def dbC5a : DB := (create_sale reqC5a actor1 dbC5).2
def dbC5b : DB := (update_sale 1 reqC5b actor1 dbC5a).2
def dbC5c : DB := (delete_sale 1 actor1 dbC5b).2

def dbC6 : DB where
  products := [{ pid := 1, company := 1, name := "P", buying_price := 500, current_stock := 10 }]
  customers := []
  sales := []
  sale_items := []
  history := []
  next_sale_id := 1
  now := 0

/-- The empty item list. -/
def reqC6 : SaleReq where
  items := []
  customer_id := none
  customer_name := none
  customer_phone := none
  payment_method := none

def dbC7 : DB where
  products := [{ pid := 1, company := 1, name := "P", buying_price := 500, current_stock := 5 }]
  customers := [{ cid := 7, company := 2, name := "D", phone := "p", total_purchases := 0,
                  total_transactions := 0, last_purchase_date := none }]
  sales := []
  sale_items := []
  history := []
  next_sale_id := 1
  now := 3

/-- Supplies a customer id that exists only in another tenant. -/
def reqC7 : SaleReq where
  items := [{ product_id := 1, quantity := 1, unit_selling_price := 800 }]
  customer_id := some 7
  customer_name := none
  customer_phone := none
  payment_method := none

/-- A tenant-1 sale whose item references a tenant-2 product — representable
in the data model because `SaleItem.product` carries no tenant constraint. -/
def dbC8 : DB where
  products := [{ pid := 9, company := 2, name := "Q", buying_price := 100, current_stock := 5 }]
  customers := []
  sales := [{ sid := 1, company := 1, customer_id := none, customer_name := none,
              customer_phone := none, payment_method := "cash", total_amount := 800,
              total_cost := 200, total_profit := 600, created_by := 1, sale_date := 0 }]
  sale_items := [{ sale_id := 1, product_id := 9, product_name := "Q", quantity := 2,
                   unit_buying_price := 100, unit_selling_price := 400, total_amount := 800,
                   total_cost := 200, total_profit := 600 }]
  history := []
  next_sale_id := 2
  now := 0

def dbC8w : DB where
  products := [{ pid := 1, company := 1, name := "P", buying_price := 500, current_stock := 6 },
               { pid := 2, company := 2, name := "R", buying_price := 300, current_stock := 4 }]
  customers := [{ cid := 3, company := 2, name := "Z", phone := "z", total_purchases := 0,
                  total_transactions := 0, last_purchase_date := none }]
  sales := []
  sale_items := []
  history := []
  next_sale_id := 1
  now := 0

def reqC8w : SaleReq where
  items := [{ product_id := 1, quantity := 2, unit_selling_price := 900 }]
  customer_id := none
  customer_name := none
  customer_phone := none
  payment_method := none

def dbC9w : DB where
  products := []
  customers := []
  sales := [{ sid := 1, company := 1, customer_id := none, customer_name := none,
              customer_phone := none, payment_method := "cash", total_amount := 100,
              total_cost := 50, total_profit := 50, created_by := 1, sale_date := 3 },
            { sid := 2, company := 1, customer_id := none, customer_name := none,
              customer_phone := none, payment_method := "cash", total_amount := 200,
              total_cost := 80, total_profit := 120, created_by := 1, sale_date := 7 },
            { sid := 3, company := 2, customer_id := none, customer_name := none,
              customer_phone := none, payment_method := "cash", total_amount := 300,
              total_cost := 90, total_profit := 210, created_by := 2, sale_date := 5 }]
  sale_items := []
  history := []
  next_sale_id := 4
  now := 9

/-- A sale of tenant 1 linked to customer 7 with recorded snapshot fields. -/
def dbC10 : DB where
  products := []
  customers := [{ cid := 7, company := 1, name := "Old", phone := "x", total_purchases := 800,
                  total_transactions := 1, last_purchase_date := none }]
  sales := [{ sid := 1, company := 1, customer_id := some 7, customer_name := some "Old",
              customer_phone := some "123", payment_method := "cash", total_amount := 800,
              total_cost := 500, total_profit := 300, created_by := 1, sale_date := 0 }]
  sale_items := []
  history := []
  next_sale_id := 2
  now := 0

/-- Supplies no customer id but a fresh customer name. -/
def reqC10 : SaleReq where
  items := []
  customer_id := none
  customer_name := some "New"
  customer_phone := none
  payment_method := none

/-- Supplies none of the customer fields. -/
def reqC10w : SaleReq where
  items := []
  customer_id := none
  customer_name := none
  customer_phone := none
  payment_method := none

/-- Supplies a truthy customer id (the already-linked customer). -/
def reqC10t : SaleReq where
  items := []
  customer_id := some 7
  customer_name := none
  customer_phone := none
  payment_method := none

end Shop

namespace Shop

/-! Lookup and write lemmas at the level of the table lists. -/

theorem updStock_sig (pid : Nat) (v : Int) (l : List Product) :
    (updStock pid v l).map (fun p => (p.pid, p.company))
      = l.map (fun p => (p.pid, p.company)) := by
  unfold updStock
  rw [List.map_map]
  apply List.map_congr_left
  intro p _
  simp only [Function.comp_apply]
  split <;> rfl

theorem updStock_cons (pid : Nat) (v : Int) (p : Product) (l : List Product) :
    updStock pid v (p :: l)
      = (if p.pid == pid then { p with current_stock := v } else p) :: updStock pid v l := rfl

theorem find?_updStock_self (pid : Nat) (v : Int) (l : List Product) :
    (updStock pid v l).find? (fun p => p.pid == pid)
      = (l.find? (fun p => p.pid == pid)).map (fun p => { p with current_stock := v }) := by
  induction l with
  | nil => rfl
  | cons p l ih =>
    rw [updStock_cons]
    by_cases h : (p.pid == pid) = true
    · rw [if_pos h]
      simp [List.find?, h]
    · have hf : (p.pid == pid) = false := by simpa using h
      rw [if_neg h]
      simp [List.find?, hf, ih]

theorem find?_updStock_other (pid : Nat) (v : Int) (q : Nat) (hq : q ≠ pid)
    (l : List Product) :
    (updStock pid v l).find? (fun p => p.pid == q)
      = l.find? (fun p => p.pid == q) := by
  induction l with
  | nil => rfl
  | cons p l ih =>
    rw [updStock_cons]
    by_cases h : (p.pid == pid) = true
    · rw [if_pos h]
      have hpid : p.pid = pid := by simpa using h
      have hpq : (p.pid == q) = false := by simp [hpid]; omega
      simp [List.find?, hpq, ih]
    · rw [if_neg h]
      by_cases h2 : (p.pid == q) = true
      · simp [List.find?, h2]
      · have hf : (p.pid == q) = false := by simpa using h2
        simp [List.find?, hf, ih]

theorem stockOf_congr (db db' : DB) (h : db'.products = db.products) :
    stockOf db' = stockOf db := by
  funext pid
  simp [stockOf, findProductByPk, h]

theorem stockOf_save_self (db : DB) (pid : Nat) (v : Int) (q : Product)
    (h : findProductByPk db pid = some q) :
    stockOf (saveProductStock db pid v) pid = v := by
  unfold stockOf findProductByPk saveProductStock at *
  rw [show (updStock pid v db.products).find? (fun p => p.pid == pid)
        = (db.products.find? (fun p => p.pid == pid)).map
            (fun p => { p with current_stock := v }) from find?_updStock_self pid v db.products,
      h]
  rfl

theorem stockOf_save_other (db : DB) (pid : Nat) (v : Int) (q : Nat) (hq : q ≠ pid) :
    stockOf (saveProductStock db pid v) q = stockOf db q := by
  unfold stockOf findProductByPk saveProductStock
  simp only [find?_updStock_other pid v q hq]

theorem find_company_pk {l : List Product} {pid c : Nat} {q : Product}
    (hnd : (l.map (fun p => p.pid)).Nodup)
    (h : l.find? (fun p => p.pid == pid && p.company == c) = some q) :
    l.find? (fun p => p.pid == pid) = some q := by
  induction l with
  | nil => simp at h
  | cons p l ih =>
    simp only [List.map_cons, List.nodup_cons] at hnd
    by_cases hp : p.pid = pid
    · rw [List.find?_cons_of_pos _ (by simp [hp])]
      by_cases hc : p.company = c
      · rw [List.find?_cons_of_pos _ (by simp [hp, hc])] at h
        exact h
      · rw [List.find?_cons_of_neg _ (by simp [hc])] at h
        exfalso
        have hq := List.find?_some h
        have hqm := List.mem_of_find?_eq_some h
        simp only [Bool.and_eq_true, beq_iff_eq] at hq
        exact hnd.1 (by rw [hp, ← hq.1]; exact List.mem_map_of_mem _ hqm)
    · rw [List.find?_cons_of_neg _ (by simp [hp])]
      rw [List.find?_cons_of_neg _ (by simp [hp])] at h
      exact ih hnd.2 h

theorem companyOfPid_updStock (pid : Nat) (v : Int) (q : Nat) (l : List Product) :
    companyOfPid (updStock pid v l) q = companyOfPid l q := by
  by_cases hq : q = pid
  · subst hq
    unfold companyOfPid
    rw [find?_updStock_self]
    cases l.find? (fun p => p.pid == q) <;> rfl
  · unfold companyOfPid
    rw [find?_updStock_other pid v q hq]

theorem histSum_nil (pid : Nat) : histSum [] pid = 0 := rfl

theorem histSum_append (a b : List ProductHistory) (pid : Nat) :
    histSum (a ++ b) pid = histSum a pid + histSum b pid := by
  simp [histSum, List.filter_append]

theorem histSum_single_self (r : ProductHistory) (pid : Nat) (h : r.product_id = pid) :
    histSum [r] pid = r.quantity_changed := by
  simp [histSum, List.filter, h]

theorem histSum_single_other (r : ProductHistory) (pid : Nat) (h : r.product_id ≠ pid) :
    histSum [r] pid = 0 := by
  have hb : (r.product_id == pid) = false := by simp [h]
  simp [histSum, List.filter, hb]

end Shop

namespace Shop

/-! LedgerStep infrastructure: stock conservation composes along the
micro-steps of the sale operations. -/

theorem stockOf_addHistory (db : DB) (h : ProductHistory) :
    stockOf (addHistory db h) = stockOf db :=
  stockOf_congr _ _ rfl

theorem stockOf_of_find (db : DB) (p : Product) (pid : Nat)
    (h : findProductByPk db pid = some p) : stockOf db pid = p.current_stock := by
  simp [stockOf, h]

theorem rowsFor_congr {db db' : DB} (hh : db'.history = db.history) :
    rowsFor db' = rowsFor db := by
  funext pid
  unfold rowsFor
  rw [hh]

theorem rowsFor_addHistory_self (db : DB) (r : ProductHistory) (pid : Nat)
    (h : r.product_id = pid) :
    rowsFor (addHistory db r) pid = rowsFor db pid ++ [r] := by
  unfold rowsFor addHistory
  have hb : (r.product_id == pid) = true := by simp [h]
  simp [List.filter_append, List.filter, hb]

theorem rowsFor_addHistory_other (db : DB) (r : ProductHistory) (pid : Nat)
    (h : r.product_id ≠ pid) :
    rowsFor (addHistory db r) pid = rowsFor db pid := by
  unfold rowsFor addHistory
  have hb : (r.product_id == pid) = false := by simp [h]
  simp [List.filter_append, List.filter, hb]

theorem chainB_append_single (l : List ProductHistory) (r : ProductHistory) :
    chainB (l ++ [r]) = true ↔
      (chainB l = true ∧ ∀ x, l.getLast? = some x → r.stock_before = x.stock_after) := by
  induction l with
  | nil => simp [chainB]
  | cons a l ih =>
    cases l with
    | nil =>
      constructor
      · intro hc
        refine ⟨rfl, ?_⟩
        intro x hx
        have hx2 : x = a := by simpa using hx.symm
        subst hx2
        have hbeq : (r.stock_before == x.stock_after) = true := by
          simpa [chainB] using hc
        simpa using hbeq
      · rintro ⟨_, hlast⟩
        have he : r.stock_before = a.stock_after := hlast a rfl
        show ((r.stock_before == a.stock_after) && chainB [r]) = true
        simp [he, chainB]
    | cons b l2 =>
      have hstep : chainB ((a :: b :: l2) ++ [r])
          = ((b.stock_before == a.stock_after) && chainB ((b :: l2) ++ [r])) := rfl
      have hstep2 : chainB (a :: b :: l2)
          = ((b.stock_before == a.stock_after) && chainB (b :: l2)) := rfl
      rw [hstep, Bool.and_eq_true, ih, hstep2]
      constructor
      · rintro ⟨hbeq, hch, hlast⟩
        refine ⟨by rw [Bool.and_eq_true]; exact ⟨hbeq, hch⟩, ?_⟩
        intro x hx
        apply hlast
        rwa [List.getLast?_cons_cons] at hx
      · rintro ⟨hand, hlast⟩
        rw [Bool.and_eq_true] at hand
        exact ⟨hand.1, hand.2, fun x hx => hlast x (by rwa [List.getLast?_cons_cons])⟩

theorem histInv_congr {db db' : DB} (hp : db'.products = db.products)
    (hh : db'.history = db.history) (hinv : HistInv db) : HistInv db' := by
  intro pid
  constructor
  · rw [show rowsFor db' = rowsFor db from rowsFor_congr hh]
    exact (hinv pid).1
  · have h1 := (hinv pid).2
    unfold tipOk at *
    rw [show rowsFor db' = rowsFor db from rowsFor_congr hh]
    simp only [congrFun (stockOf_congr db db' hp) pid]
    exact h1

theorem histInv_save_add (db : DB) (product : Product) (d v : Int)
    (row : ProductHistory)
    (hp : findProductByPk db product.pid = some product)
    (hv : v = product.current_stock + d)
    (h1 : row.product_id = product.pid)
    (h3 : row.stock_before = product.current_stock)
    (h4 : row.stock_after = v)
    (hinv : HistInv db) :
    HistInv (addHistory (saveProductStock db product.pid v) row) := by
  intro pid
  by_cases hpp : pid = product.pid
  · subst hpp
    have hrf : rowsFor (addHistory (saveProductStock db row.product_id v) row) row.product_id
        = rowsFor db row.product_id ++ [row] := by
      rw [rowsFor_addHistory_self _ row row.product_id rfl,
        show rowsFor (saveProductStock db row.product_id v) = rowsFor db from rowsFor_congr rfl]
    rw [← h1]
    constructor
    · rw [hrf]
      refine (chainB_append_single _ _).mpr ⟨(hinv row.product_id).1, ?_⟩
      intro x hx
      have htip := (hinv row.product_id).2
      unfold tipOk at htip
      rw [hx] at htip
      rw [h3, ← stockOf_of_find db product product.pid hp, ← h1]
      exact htip.symm
    · unfold tipOk
      rw [hrf, List.getLast?_concat]
      show row.stock_after
        = stockOf (addHistory (saveProductStock db row.product_id v) row) row.product_id
      rw [h4, congrFun (stockOf_addHistory _ row) row.product_id, h1,
        stockOf_save_self db product.pid v product hp]
  · have hrf : rowsFor (addHistory (saveProductStock db product.pid v) row) pid
        = rowsFor db pid := by
      rw [rowsFor_addHistory_other _ row pid (by rw [h1]; omega),
        show rowsFor (saveProductStock db product.pid v) = rowsFor db from rowsFor_congr rfl]
    constructor
    · rw [hrf]
      exact (hinv pid).1
    · have htip := (hinv pid).2
      unfold tipOk at *
      rw [hrf]
      simp only [congrFun (stockOf_addHistory (saveProductStock db product.pid v) row) pid,
        stockOf_save_other db product.pid v pid hpp]
      exact htip

theorem ledgerStep_refl (db : DB) : LedgerStep db db :=
  ⟨rfl, ⟨[], by simp, by simp, fun pid => by simp [histSum]⟩, id⟩

theorem ledgerStep_trans {db1 db2 db3 : DB}
    (a : LedgerStep db1 db2) (b : LedgerStep db2 db3) : LedgerStep db1 db3 := by
  obtain ⟨sig1, ⟨r1, happ1, hok1, heq1⟩, hi1⟩ := a
  obtain ⟨sig2, ⟨r2, happ2, hok2, heq2⟩, hi2⟩ := b
  refine ⟨sig2.trans sig1, ⟨r1 ++ r2, ?_, ?_, ?_⟩, fun h => hi2 (hi1 h)⟩
  · rw [happ2, happ1, List.append_assoc]
  · intro r hr
    rcases List.mem_append.mp hr with h | h
    · exact hok1 r h
    · exact hok2 r h
  · intro pid
    rw [heq2 pid, heq1 pid, histSum_append]
    ring

theorem ledgerStep_of_eq {db db' : DB} (hp : db'.products = db.products)
    (hh : db'.history = db.history) : LedgerStep db db' :=
  ⟨by rw [hp], ⟨[], by simp [hh], by simp,
    fun pid => by rw [congrFun (stockOf_congr db db' hp) pid]; simp [histSum]⟩,
    histInv_congr hp hh⟩

/-- The basic posting step: save a product's stock as `current + d` and append
a history row recording exactly that change. -/
theorem ledgerStep_save_add (db : DB) (product : Product) (d v : Int)
    (row : ProductHistory)
    (hp : findProductByPk db product.pid = some product)
    (hv : v = product.current_stock + d)
    (h1 : row.product_id = product.pid)
    (h2 : row.quantity_changed = d)
    (h3 : row.stock_before = product.current_stock)
    (h4 : row.stock_after = v) :
    LedgerStep db (addHistory (saveProductStock db product.pid v) row) := by
  refine ⟨?_, ⟨[row], ?_, ?_, ?_⟩, histInv_save_add db product d v row hp hv h1 h3 h4⟩
  · exact updStock_sig product.pid v db.products
  · rfl
  · intro r hr
    simp only [List.mem_singleton] at hr
    subst hr
    rw [h4, h3, h2, hv]
  · intro pid
    rw [congrFun (stockOf_addHistory (saveProductStock db product.pid v) row) pid]
    by_cases hpp : pid = product.pid
    · subst hpp
      rw [stockOf_save_self db product.pid v product hp,
          stockOf_of_find db product product.pid hp,
          histSum_single_self row product.pid (by rw [h1]), h2, hv]
    · rw [stockOf_save_other db product.pid v pid hpp,
          histSum_single_other row pid (by rw [h1]; omega)]
      ring

theorem creditLoop_ledger (tag pre : String) (company : Nat) (u : User)
    (items : List SaleItem) :
    ∀ db : DB, LedgerStep db (creditLoop tag pre company u items db) := by
  induction items with
  | nil => intro db; exact ledgerStep_refl db
  | cons i rest ih =>
    intro db
    cases hf : findProductByPk db i.product_id with
    | none =>
      simp only [creditLoop, hf]
      exact ih db
    | some product =>
      simp only [creditLoop, hf]
      have hpe : product.pid = i.product_id := by simpa using List.find?_some hf
      have hp2 : findProductByPk db product.pid = some product := by rw [hpe]; exact hf
      exact ledgerStep_trans
        (ledgerStep_save_add db product i.quantity _ _ hp2 rfl rfl rfl rfl rfl) (ih _)

theorem creditLoop_frame (tag pre : String) (company : Nat) (u : User)
    (items : List SaleItem) :
    ∀ db : DB,
      (creditLoop tag pre company u items db).customers = db.customers ∧
      (creditLoop tag pre company u items db).sales = db.sales ∧
      (creditLoop tag pre company u items db).sale_items = db.sale_items ∧
      (creditLoop tag pre company u items db).next_sale_id = db.next_sale_id ∧
      (creditLoop tag pre company u items db).now = db.now := by
  induction items with
  | nil => intro db; exact ⟨rfl, rfl, rfl, rfl, rfl⟩
  | cons i rest ih =>
    intro db
    cases hf : findProductByPk db i.product_id with
    | none =>
      simp only [creditLoop, hf]
      exact ih db
    | some product =>
      simp only [creditLoop, hf]
      exact ih _

end Shop

namespace Shop

theorem updStock_map_pid (pid : Nat) (v : Int) (l : List Product) :
    (updStock pid v l).map (fun p => p.pid) = l.map (fun p => p.pid) := by
  have h := congrArg (List.map Prod.fst) (updStock_sig pid v l)
  simpa [List.map_map, Function.comp] using h

theorem companyOfPid_of_find {db : DB} {pid company : Nat} {product : Product}
    (hnd : (db.products.map (fun p => p.pid)).Nodup)
    (hf : findProduct db pid company = some product) :
    companyOfPid db.products pid = some company := by
  have hpk : db.products.find? (fun p => p.pid == pid) = some product :=
    find_company_pk hnd hf
  have hq := List.find?_some hf
  simp only [Bool.and_eq_true, beq_iff_eq] at hq
  simp [companyOfPid, hpk, hq.2]

/-- Effects of the new-item loop of `update_sale`: stock conservation, frames
on the customer/sale tables, and the shape of the created sale items. -/
theorem updateItemsLoop_spec (company : Nat) (u : User) (sid : Nat)
    (items : List ItemReq) :
    ∀ (db : DB) (t c : Int) (out : DB × Int × Int),
      (db.products.map (fun p => p.pid)).Nodup →
      updateItemsLoop company u sid items db t c = .ok out →
      LedgerStep db out.1 ∧
      out.1.customers = db.customers ∧
      out.1.sales = db.sales ∧
      out.1.next_sale_id = db.next_sale_id ∧
      out.1.now = db.now ∧
      ∃ its, out.1.sale_items = db.sale_items ++ its ∧
        ∀ it ∈ its, it.sale_id = sid ∧
          companyOfPid db.products it.product_id = some company := by
  induction items with
  | nil =>
    intro db t c out hnd h
    simp only [updateItemsLoop] at h
    cases h
    exact ⟨ledgerStep_refl db, rfl, rfl, rfl, rfl, [], by simp, by simp⟩
  | cons i rest ih =>
    intro db t c out hnd h
    simp only [updateItemsLoop] at h
    cases hf : findProduct db i.product_id company with
    | none => rw [hf] at h; exact absurd h (by simp)
    | some product =>
      simp only [hf] at h
      by_cases hs : product.current_stock < i.quantity
      · rw [if_pos hs] at h; exact absurd h (by simp)
      · rw [if_neg hs] at h
        have hpe : product.pid = i.product_id := by
          have hq := List.find?_some hf
          simp only [Bool.and_eq_true, beq_iff_eq] at hq
          exact hq.1
        have hpk : findProductByPk db product.pid = some product := by
          rw [hpe]; exact find_company_pk hnd hf
        obtain ⟨hled, hcu, hsa, hni, hno, its, hits, hprop⟩ :=
          ih _ _ _ out
            (by simp only [addHistory, saveProductStock, updStock_map_pid]; exact hnd) h
        set newItem : SaleItem :=
          { sale_id := sid
            product_id := product.pid
            product_name := product.name
            quantity := i.quantity
            unit_buying_price := product.buying_price
            unit_selling_price := i.unit_selling_price
            total_amount := i.quantity * i.unit_selling_price
            total_cost := i.quantity * product.buying_price
            total_profit := i.quantity * i.unit_selling_price - i.quantity * product.buying_price }
          with hnew
        set db1 : DB := { db with sale_items := db.sale_items ++ [newItem] } with hdb1
        have hpk1 : findProductByPk db1 product.pid = some product := hpk
        have step1 : LedgerStep db db1 := ledgerStep_of_eq rfl rfl
        have step2 : LedgerStep db1
            (addHistory (saveProductStock db1 product.pid (product.current_stock - i.quantity))
              { product_id := product.pid
                transaction_type := "Sale Update"
                quantity_changed := -i.quantity
                stock_before := product.current_stock
                stock_after := product.current_stock - i.quantity
                unit_price := i.unit_selling_price
                total_value := i.quantity * i.unit_selling_price
                notes := "Sale update - sold " ++ toString i.quantity ++ " units"
                created_by := u.uid
                company := company }) :=
          ledgerStep_save_add db1 product (-i.quantity) _ _ hpk1 (by ring) rfl rfl rfl rfl
        refine ⟨ledgerStep_trans (ledgerStep_trans step1 step2) hled, hcu, hsa, hni, hno,
          newItem :: its, ?_, ?_⟩
        · have hsi : out.1.sale_items = (db.sale_items ++ [newItem]) ++ its := hits
          rw [hsi, List.append_assoc]
          rfl
        · intro it hit
          rcases List.mem_cons.mp hit with hh | hh
          · subst hh
            refine ⟨rfl, ?_⟩
            show companyOfPid db.products product.pid = some company
            rw [hpe]
            exact companyOfPid_of_find hnd hf
          · refine ⟨(hprop it hh).1, ?_⟩
            rw [← companyOfPid_updStock product.pid (product.current_stock - i.quantity)
              it.product_id db.products]
            exact (hprop it hh).2

end Shop

namespace Shop

theorem findProductByPk_congr {db db' : DB} (h : db'.products = db.products) :
    findProductByPk db' = findProductByPk db := by
  funext pid
  unfold findProductByPk
  rw [h]

theorem mkCreateRow_congr {db db' : DB} (h : db'.products = db.products)
    (company : Nat) (u : User) (i : ItemReq) :
    mkCreateRow db' company u i = mkCreateRow db company u i := by
  unfold mkCreateRow
  rw [show stockOf db' i.product_id = stockOf db i.product_id from
    congrFun (stockOf_congr db db' h) i.product_id]

theorem mkItemData_congr {db db' : DB} (h : db'.products = db.products) (i : ItemReq) :
    mkItemData db' i = mkItemData db i := by
  unfold mkItemData prodNameOf prodBuyOf
  rw [findProductByPk_congr h]

theorem mkCreateRow_addHistory (db : DB) (r : ProductHistory) (company : Nat) (u : User) :
    mkCreateRow (addHistory db r) company u = mkCreateRow db company u :=
  funext (fun j => mkCreateRow_congr rfl company u j)

theorem mkItemData_addHistory (db : DB) (r : ProductHistory) :
    mkItemData (addHistory db r) = mkItemData db :=
  funext (fun j => mkItemData_congr rfl j)

/-- Exact characterization of the `create_sale` item loop: the database is
unchanged except for the appended history rows, all of which are computed
against the stocks at loop entry (the product saves being deferred), and the
accumulator collects one snapshot and one in-memory update per item. -/
theorem createItemsLoop_spec (company : Nat) (u : User) (items : List ItemReq) :
    ∀ (db : DB) (acc : CreateAcc) (out : DB × CreateAcc),
      (db.products.map (fun p => p.pid)).Nodup →
      createItemsLoop company u items db acc = .ok out →
      out.1.products = db.products ∧
      out.1.customers = db.customers ∧
      out.1.sales = db.sales ∧
      out.1.sale_items = db.sale_items ∧
      out.1.next_sale_id = db.next_sale_id ∧
      out.1.now = db.now ∧
      out.1.history = db.history ++ items.map (mkCreateRow db company u) ∧
      out.2.items_data = acc.items_data ++ items.map (mkItemData db) ∧
      out.2.product_updates = acc.product_updates
        ++ items.map (fun i => (i.product_id, stockOf db i.product_id - i.quantity)) ∧
      (∀ i ∈ items, companyOfPid db.products i.product_id = some company) := by
  induction items with
  | nil =>
    intro db acc out hnd h
    simp only [createItemsLoop] at h
    cases h
    refine ⟨rfl, rfl, rfl, rfl, rfl, rfl, by simp, by simp, by simp, by simp⟩
  | cons i rest ih =>
    intro db acc out hnd h
    simp only [createItemsLoop] at h
    cases hf : findProduct db i.product_id company with
    | none => rw [hf] at h; exact absurd h (by simp)
    | some product =>
      simp only [hf] at h
      by_cases hs : product.current_stock < i.quantity
      · rw [if_pos hs] at h; exact absurd h (by simp)
      · rw [if_neg hs] at h
        have hpe : product.pid = i.product_id := by
          have hq := List.find?_some hf
          simp only [Bool.and_eq_true, beq_iff_eq] at hq
          exact hq.1
        have hpk : findProductByPk db i.product_id = some product := by
          exact find_company_pk hnd hf
        have hstock : stockOf db i.product_id = product.current_stock :=
          stockOf_of_find db product i.product_id hpk
        obtain ⟨hpr, hcu, hsa, hsi, hni, hno, hhist, hdata, hupd, hcomp⟩ :=
          ih _ _ out (by simpa [addHistory] using hnd) h
        have hrow : ({ product_id := product.pid
                       transaction_type := "Sale"
                       quantity_changed := -i.quantity
                       stock_before := product.current_stock
                       stock_after := product.current_stock - i.quantity
                       unit_price := i.unit_selling_price
                       total_value := i.quantity * i.unit_selling_price
                       notes := "Sale of " ++ toString i.quantity ++ " units"
                       created_by := u.uid
                       company := company } : ProductHistory)
            = mkCreateRow db company u i := by
          unfold mkCreateRow
          rw [hstock, hpe]
        have hid : ({ product_id := product.pid
                      product_name := product.name
                      quantity := i.quantity
                      unit_buying_price := product.buying_price
                      unit_selling_price := i.unit_selling_price
                      total_amount := i.quantity * i.unit_selling_price
                      total_cost := i.quantity * product.buying_price
                      total_profit := i.quantity * i.unit_selling_price
                        - i.quantity * product.buying_price } : ItemData)
            = mkItemData db i := by
          unfold mkItemData prodNameOf prodBuyOf
          rw [hpk, hpe]
        refine ⟨hpr, hcu, hsa, hsi, hni, hno, ?_, ?_, ?_, ?_⟩
        · rw [hhist, mkCreateRow_addHistory]
          show (db.history ++ [_]) ++ _ = _
          rw [List.append_assoc, hrow]
          rfl
        · rw [hdata, mkItemData_addHistory]
          show (acc.items_data ++ [_]) ++ _ = _
          rw [List.append_assoc, hid]
          rfl
        · rw [hupd]
          simp only [stockOf_addHistory]
          show (acc.product_updates ++ [_]) ++ _ = _
          rw [List.append_assoc]
          rw [show (product.pid, product.current_stock - i.quantity)
            = (i.product_id, stockOf db i.product_id - i.quantity) by rw [hstock, hpe]]
          rfl
        · intro j hj
          rcases List.mem_cons.mp hj with hh | hh
          · subst hh
            exact companyOfPid_of_find hnd hf
          · exact hcomp j hh

end Shop

namespace Shop

theorem foldl_save_components (U : List (Nat × Int)) :
    ∀ db : DB,
      (U.foldl (fun d pu => saveProductStock d pu.1 pu.2) db).customers = db.customers ∧
      (U.foldl (fun d pu => saveProductStock d pu.1 pu.2) db).sales = db.sales ∧
      (U.foldl (fun d pu => saveProductStock d pu.1 pu.2) db).sale_items = db.sale_items ∧
      (U.foldl (fun d pu => saveProductStock d pu.1 pu.2) db).history = db.history ∧
      (U.foldl (fun d pu => saveProductStock d pu.1 pu.2) db).next_sale_id = db.next_sale_id ∧
      (U.foldl (fun d pu => saveProductStock d pu.1 pu.2) db).now = db.now := by
  induction U with
  | nil => intro db; exact ⟨rfl, rfl, rfl, rfl, rfl, rfl⟩
  | cons pu rest ih => intro db; exact ih (saveProductStock db pu.1 pu.2)

theorem foldl_save_sig (U : List (Nat × Int)) :
    ∀ db : DB,
      (U.foldl (fun d pu => saveProductStock d pu.1 pu.2) db).products.map
          (fun p => (p.pid, p.company))
        = db.products.map (fun p => (p.pid, p.company)) := by
  induction U with
  | nil => intro db; rfl
  | cons pu rest ih =>
    intro db
    calc (List.foldl (fun d pu => saveProductStock d pu.1 pu.2)
            (saveProductStock db pu.1 pu.2) rest).products.map (fun p => (p.pid, p.company))
        = (saveProductStock db pu.1 pu.2).products.map (fun p => (p.pid, p.company)) :=
          ih (saveProductStock db pu.1 pu.2)
      _ = db.products.map (fun p => (p.pid, p.company)) := updStock_sig pu.1 pu.2 db.products

theorem presence_iff_mem_pid (db : DB) (pid : Nat) :
    (findProductByPk db pid).isSome ↔ pid ∈ db.products.map (fun p => p.pid) := by
  unfold findProductByPk
  rw [List.find?_isSome]
  constructor
  · rintro ⟨p, hm, hp⟩
    exact List.mem_map.mpr ⟨p, hm, by simpa using hp⟩
  · rintro h
    rcases List.mem_map.mp h with ⟨p, hm, hp⟩
    exact ⟨p, hm, by simpa using hp⟩

theorem foldl_save_stock_not_mem (U : List (Nat × Int)) :
    ∀ (db : DB) (pid : Nat), pid ∉ U.map Prod.fst →
      stockOf (U.foldl (fun d pu => saveProductStock d pu.1 pu.2) db) pid = stockOf db pid := by
  induction U with
  | nil => intro db pid _; rfl
  | cons pu rest ih =>
    intro db pid hmem
    simp only [List.map_cons, List.mem_cons] at hmem
    push_neg at hmem
    calc stockOf (List.foldl (fun d pu => saveProductStock d pu.1 pu.2)
            (saveProductStock db pu.1 pu.2) rest) pid
        = stockOf (saveProductStock db pu.1 pu.2) pid := ih _ pid hmem.2
      _ = stockOf db pid := stockOf_save_other db pu.1 pu.2 pid (by omega)

theorem foldl_save_stock_mem (U : List (Nat × Int))
    (hnd : (U.map Prod.fst).Nodup) :
    ∀ (db : DB) (pid : Nat) (v : Int), (pid, v) ∈ U →
      (findProductByPk db pid).isSome →
      stockOf (U.foldl (fun d pu => saveProductStock d pu.1 pu.2) db) pid = v := by
  induction U with
  | nil => intro db pid v hm; simp at hm
  | cons pu rest ih =>
    intro db pid v hm hpres
    simp only [List.map_cons, List.nodup_cons] at hnd
    rcases List.mem_cons.mp hm with he | hm2
    · subst he
      have hnot : (pid, v).1 ∉ rest.map Prod.fst := hnd.1
      obtain ⟨q, hq⟩ := Option.isSome_iff_exists.mp hpres
      calc stockOf (List.foldl (fun d pu => saveProductStock d pu.1 pu.2)
              (saveProductStock db (pid, v).1 (pid, v).2) rest) (pid, v).1
          = stockOf (saveProductStock db (pid, v).1 (pid, v).2) (pid, v).1 :=
            foldl_save_stock_not_mem rest _ _ hnot
        _ = v := stockOf_save_self db pid v q hq
    · have hne : pu.1 ≠ pid := by
        intro hc
        exact hnd.1 (hc ▸ List.mem_map.mpr ⟨(pid, v), hm2, rfl⟩)
      have hpres2 : (findProductByPk (saveProductStock db pu.1 pu.2) pid).isSome := by
        rw [presence_iff_mem_pid] at hpres ⊢
        show pid ∈ (updStock pu.1 pu.2 db.products).map (fun p => p.pid)
        rwa [updStock_map_pid]
      exact ih hnd.2 _ pid v hm2 hpres2

theorem histSum_cons (r : ProductHistory) (rows : List ProductHistory) (pid : Nat) :
    histSum (r :: rows) pid
      = (if r.product_id = pid then r.quantity_changed else 0) + histSum rows pid := by
  by_cases h : r.product_id = pid
  · have hb : (r.product_id == pid) = true := by simp [h]
    simp [histSum, List.filter, hb, h]
  · have hb : (r.product_id == pid) = false := by simp [h]
    simp [histSum, List.filter, hb, h]

theorem histSum_rows_not_mem (db : DB) (company : Nat) (u : User)
    (items : List ItemReq) (pid : Nat)
    (h : pid ∉ items.map (fun i => i.product_id)) :
    histSum (items.map (mkCreateRow db company u)) pid = 0 := by
  induction items with
  | nil => rfl
  | cons j rest ih =>
    simp only [List.map_cons, List.mem_cons] at h
    push_neg at h
    rw [List.map_cons, histSum_cons]
    rw [if_neg (show ¬ (mkCreateRow db company u j).product_id = pid from fun hc => h.1 hc.symm)]
    rw [ih h.2]
    ring

theorem histSum_rows_mem (db : DB) (company : Nat) (u : User)
    (items : List ItemReq) (pid : Nat) (j : ItemReq)
    (hnd : (items.map (fun i => i.product_id)).Nodup)
    (hj : j ∈ items) (hpid : j.product_id = pid) :
    histSum (items.map (mkCreateRow db company u)) pid = -j.quantity := by
  induction items with
  | nil => simp at hj
  | cons a rest ih =>
    simp only [List.map_cons, List.nodup_cons] at hnd
    rcases List.mem_cons.mp hj with he | hm
    · subst he
      rw [List.map_cons, histSum_cons,
        if_pos (show (mkCreateRow db company u j).product_id = pid from hpid),
        histSum_rows_not_mem db company u rest pid (by rw [← hpid]; exact hnd.1)]
      show -j.quantity + 0 = -j.quantity
      ring
    · have hne : a.product_id ≠ pid := by
        intro hc
        exact hnd.1 (by rw [hc, ← hpid]; exact List.mem_map.mpr ⟨j, hm, hpid ▸ rfl⟩)
      rw [List.map_cons, histSum_cons, if_neg (show ¬ (mkCreateRow db company u a).product_id = pid from hne)]
      rw [ih hnd.2 hm]
      ring

end Shop

namespace Shop

theorem createCommit_sid (req : SaleReq) (company : Nat) (u : User) (db : DB)
    (acc : CreateAcc) : (createCommit req company u db acc).2 = db.next_sale_id := rfl

theorem createCommit_history (req : SaleReq) (company : Nat) (u : User) (db : DB)
    (acc : CreateAcc) : (createCommit req company u db acc).1.history = db.history := by
  simp only [createCommit]
  cases hres : createResolved req company db with
  | none =>
    simp only [hres]
    rw [(foldl_save_components acc.product_updates _).2.2.2.1]
  | some c =>
    simp only [hres]
    rw [(foldl_save_components acc.product_updates _).2.2.2.1]
    rfl

theorem createCommit_now (req : SaleReq) (company : Nat) (u : User) (db : DB)
    (acc : CreateAcc) : (createCommit req company u db acc).1.now = db.now := by
  simp only [createCommit]
  cases hres : createResolved req company db with
  | none =>
    simp only [hres]
    rw [(foldl_save_components acc.product_updates _).2.2.2.2.2]
  | some c =>
    simp only [hres]
    rw [(foldl_save_components acc.product_updates _).2.2.2.2.2]
    rfl

theorem createCommit_next (req : SaleReq) (company : Nat) (u : User) (db : DB)
    (acc : CreateAcc) :
    (createCommit req company u db acc).1.next_sale_id = db.next_sale_id + 1 := by
  simp only [createCommit]
  cases hres : createResolved req company db with
  | none =>
    simp only [hres]
    rw [(foldl_save_components acc.product_updates _).2.2.2.2.1]
  | some c =>
    simp only [hres]
    rw [(foldl_save_components acc.product_updates _).2.2.2.2.1]
    rfl

theorem createCommit_sale_items (req : SaleReq) (company : Nat) (u : User) (db : DB)
    (acc : CreateAcc) :
    (createCommit req company u db acc).1.sale_items
      = db.sale_items ++ acc.items_data.map (itemOfData db.next_sale_id) := by
  simp only [createCommit]
  cases hres : createResolved req company db with
  | none =>
    simp only [hres]
    rw [(foldl_save_components acc.product_updates _).2.2.1]
    rfl
  | some c =>
    simp only [hres]
    rw [(foldl_save_components acc.product_updates _).2.2.1]
    rfl

theorem createCommit_sales (req : SaleReq) (company : Nat) (u : User) (db : DB)
    (acc : CreateAcc) :
    (createCommit req company u db acc).1.sales
      = db.sales ++ [mkSaleHeader req company u db acc] := by
  simp only [createCommit]
  cases hres : createResolved req company db with
  | none =>
    simp only [hres]
    rw [(foldl_save_components acc.product_updates _).2.1]
  | some c =>
    simp only [hres]
    rw [(foldl_save_components acc.product_updates _).2.1]
    rfl

theorem createCommit_customers (req : SaleReq) (company : Nat) (u : User) (db : DB)
    (acc : CreateAcc) :
    (createCommit req company u db acc).1.customers
      = (match createResolved req company db with
        | some c => db.customers.map (fun c0 => if c0.cid == c.cid then
            { c with
              total_purchases := c.total_purchases + acc.total_amount
              total_transactions := c.total_transactions + 1
              last_purchase_date := some db.now } else c0)
        | none => db.customers) := by
  simp only [createCommit]
  cases hres : createResolved req company db with
  | none =>
    simp only [hres]
    rw [(foldl_save_components acc.product_updates _).1]
  | some c =>
    simp only [hres]
    rw [(foldl_save_components acc.product_updates _).1]
    rfl

theorem createCommit_products_sig (req : SaleReq) (company : Nat) (u : User) (db : DB)
    (acc : CreateAcc) :
    (createCommit req company u db acc).1.products.map (fun p => (p.pid, p.company))
      = db.products.map (fun p => (p.pid, p.company)) := by
  simp only [createCommit]
  cases hres : createResolved req company db with
  | none =>
    simp only [hres]
    rw [foldl_save_sig]
  | some c =>
    simp only [hres]
    rw [foldl_save_sig]
    rfl

theorem createCommit_stock (req : SaleReq) (company : Nat) (u : User) (db : DB)
    (acc : CreateAcc) (pid : Nat)
    (hnd : (acc.product_updates.map Prod.fst).Nodup) :
    stockOf (createCommit req company u db acc).1 pid
      = (match acc.product_updates.find? (fun pu => pu.1 == pid) with
        | some pu => if (findProductByPk db pid).isSome then pu.2 else stockOf db pid
        | none => stockOf db pid) := by
  have hbase : ∀ db4 : DB, db4.products = db.products →
      stockOf (acc.product_updates.foldl (fun d pu => saveProductStock d pu.1 pu.2) db4) pid
        = (match acc.product_updates.find? (fun pu => pu.1 == pid) with
          | some pu => if (findProductByPk db pid).isSome then pu.2 else stockOf db pid
          | none => stockOf db pid) := by
    intro db4 hp
    cases hfind : acc.product_updates.find? (fun pu => pu.1 == pid) with
    | none =>
      have hnm : pid ∉ acc.product_updates.map Prod.fst := by
        intro hc
        rcases List.mem_map.mp hc with ⟨pu, hpu, he⟩
        have := List.find?_eq_none.mp hfind pu hpu
        simp [he] at this
      rw [foldl_save_stock_not_mem acc.product_updates db4 pid hnm,
        congrFun (stockOf_congr db db4 hp) pid]
    | some pu =>
      show stockOf (List.foldl (fun d pu => saveProductStock d pu.1 pu.2) db4 acc.product_updates) pid
          = if (findProductByPk db pid).isSome then pu.2 else stockOf db pid
      have hpu : pu ∈ acc.product_updates := List.mem_of_find?_eq_some hfind
      have hpe : pu.1 = pid := by simpa using List.find?_some hfind
      by_cases hpres : (findProductByPk db pid).isSome
      · rw [if_pos hpres]
        have hpres4 : (findProductByPk db4 pid).isSome := by
          have h1 := (presence_iff_mem_pid db pid).mp hpres
          exact (presence_iff_mem_pid db4 pid).mpr (by rw [hp]; exact h1)
        exact foldl_save_stock_mem acc.product_updates hnd db4 pid pu.2
          (by rw [← hpe]; exact hpu) hpres4
      · rw [if_neg hpres]
        have hnm : pid ∉ db4.products.map (fun p => p.pid) := by
          rw [hp]
          intro hc
          exact hpres ((presence_iff_mem_pid db pid).mpr hc)
        have hstock4 : stockOf db4 pid = stockOf db pid :=
          congrFun (stockOf_congr db db4 hp) pid
        have hnone : ∀ dbx : DB, dbx.products.map (fun p => p.pid) = db4.products.map (fun p => p.pid) →
            stockOf dbx pid = 0 := by
          intro dbx hsig
          have : findProductByPk dbx pid = none := by
            rcases hopt : findProductByPk dbx pid with _ | q
            · rfl
            · exfalso
              apply hnm
              rw [← hsig]
              rw [← presence_iff_mem_pid]
              simp [hopt]
          simp [stockOf, this]
        have h4 : stockOf db4 pid = 0 := hnone db4 rfl
        have h5 : stockOf (acc.product_updates.foldl (fun d pu => saveProductStock d pu.1 pu.2) db4) pid = 0 := by
          apply hnone
          have := foldl_save_sig acc.product_updates db4
          have hmap := congrArg (List.map Prod.fst) this
          simpa [List.map_map, Function.comp] using hmap
        rw [h5, ← hstock4, h4]
  simp only [createCommit]
  cases hres : createResolved req company db with
  | none =>
    simp only [hres]
    exact hbase _ rfl
  | some c =>
    simp only [hres]
    exact hbase _ rfl

end Shop

namespace Shop

theorem saveSale_products (db : DB) (s : Sale) : (saveSale db s).products = db.products := rfl

theorem saveSale_history (db : DB) (s : Sale) : (saveSale db s).history = db.history := rfl

theorem saveCustomer_products (db : DB) (c : Customer) :
    (saveCustomer db c).products = db.products := rfl

theorem saveCustomer_history (db : DB) (c : Customer) :
    (saveCustomer db c).history = db.history := rfl

theorem updateCommit_products (sale : Sale) (prev : Int) (req : SaleReq)
    (company : Nat) (db : DB) (t c : Int) :
    (updateCommit sale prev req company db t c).products = db.products := by
  simp only [updateCommit]
  rw [saveSale_products]
  repeat' split
  all_goals simp [saveCustomer]

theorem updateCommit_history (sale : Sale) (prev : Int) (req : SaleReq)
    (company : Nat) (db : DB) (t c : Int) :
    (updateCommit sale prev req company db t c).history = db.history := by
  simp only [updateCommit]
  rw [saveSale_history]
  repeat' split
  all_goals simp [saveCustomer]

theorem pids_of_sig {l1 l2 : List Product}
    (h : l1.map (fun p => (p.pid, p.company)) = l2.map (fun p => (p.pid, p.company))) :
    l1.map (fun p => p.pid) = l2.map (fun p => p.pid) := by
  have hm := congrArg (List.map Prod.fst) h
  simpa [List.map_map, Function.comp] using hm

theorem ledgerStep_pidsNodup {db db' : DB} (h : LedgerStep db db')
    (hnd : PidsNodup db) : PidsNodup db' := by
  unfold PidsNodup at *
  rw [pids_of_sig h.prodSig]
  exact hnd

theorem deleteCustomerStage_products (sale : Sale) (company : Nat) (db : DB) :
    (deleteCustomerStage sale company db).products = db.products := by
  unfold deleteCustomerStage
  repeat' split
  all_goals rfl

theorem deleteCustomerStage_history (sale : Sale) (company : Nat) (db : DB) :
    (deleteCustomerStage sale company db).history = db.history := by
  unfold deleteCustomerStage
  repeat' split
  all_goals rfl

theorem createRows_filter_not_mem (db : DB) (company : Nat) (u : User)
    (items : List ItemReq) (pid : Nat)
    (h : pid ∉ items.map (fun i => i.product_id)) :
    (items.map (mkCreateRow db company u)).filter (fun r => r.product_id == pid) = [] := by
  induction items with
  | nil => rfl
  | cons j rest ih =>
    simp only [List.map_cons, List.mem_cons] at h
    push_neg at h
    have hb : ((mkCreateRow db company u j).product_id == pid) = false := by
      show (j.product_id == pid) = false
      simp
      omega
    simp only [List.map_cons, List.filter_cons, hb, if_false, Bool.false_eq_true]
    exact ih h.2

theorem createRows_filter_mem (db : DB) (company : Nat) (u : User)
    (items : List ItemReq) (pid : Nat) (j : ItemReq)
    (hnd : (items.map (fun i => i.product_id)).Nodup)
    (hj : j ∈ items) (hjp : j.product_id = pid) :
    (items.map (mkCreateRow db company u)).filter (fun r => r.product_id == pid)
      = [mkCreateRow db company u j] := by
  induction items with
  | nil => simp at hj
  | cons a rest ih =>
    simp only [List.map_cons, List.nodup_cons] at hnd
    rcases List.mem_cons.mp hj with he | hm
    · subst he
      have hb : ((mkCreateRow db company u j).product_id == pid) = true := by
        show (j.product_id == pid) = true
        simp [hjp]
      simp only [List.map_cons, List.filter_cons, hb, if_true]
      rw [createRows_filter_not_mem db company u rest pid (by rw [← hjp]; exact hnd.1)]
    · have hne : a.product_id ≠ pid := by
        intro hc
        exact hnd.1 (by rw [hc, ← hjp]; exact List.mem_map.mpr ⟨j, hm, hjp ▸ rfl⟩)
      have hb : ((mkCreateRow db company u a).product_id == pid) = false := by
        show (a.product_id == pid) = false
        simp [hne]
      simp only [List.map_cons, List.filter_cons, hb, if_false, Bool.false_eq_true]
      exact ih hnd.2 hm

/-- The chain invariant survives a duplicate-free `create_sale` commit. -/
theorem histInv_create (db dbF : DB) (company : Nat) (u : User)
    (items : List ItemReq)
    (hgood : (items.map (fun i => i.product_id)).Nodup)
    (hhist : dbF.history = db.history ++ items.map (mkCreateRow db company u))
    (hstock : ∀ pid, stockOf dbF pid
      = stockOf db pid + histSum (items.map (mkCreateRow db company u)) pid)
    (hinv : HistInv db) :
    HistInv dbF := by
  intro pid
  have hrf : rowsFor dbF pid = rowsFor db pid
      ++ (items.map (mkCreateRow db company u)).filter (fun r => r.product_id == pid) := by
    unfold rowsFor
    rw [hhist, List.filter_append]
  cases hfi : items.find? (fun i => i.product_id == pid) with
  | none =>
    have hnm : pid ∉ items.map (fun i => i.product_id) := by
      intro hcmem
      rcases List.mem_map.mp hcmem with ⟨i, hi, he⟩
      have := List.find?_eq_none.mp hfi i hi
      simp [he] at this
    have hfil := createRows_filter_not_mem db company u items pid hnm
    have hsum := histSum_rows_not_mem db company u items pid hnm
    constructor
    · rw [hrf, hfil, List.append_nil]
      exact (hinv pid).1
    · have htip := (hinv pid).2
      unfold tipOk at *
      rw [hrf, hfil, List.append_nil]
      simp only [hstock pid, hsum]
      simpa using htip
  | some j =>
    have hj : j ∈ items := List.mem_of_find?_eq_some hfi
    have hjp : j.product_id = pid := by simpa using List.find?_some hfi
    have hfil := createRows_filter_mem db company u items pid j hgood hj hjp
    have hsum := histSum_rows_mem db company u items pid j hgood hj hjp
    constructor
    · rw [hrf, hfil]
      refine (chainB_append_single _ _).mpr ⟨(hinv pid).1, ?_⟩
      intro x hx
      have htip := (hinv pid).2
      unfold tipOk at htip
      rw [hx] at htip
      show stockOf db j.product_id = x.stock_after
      rw [hjp]
      exact htip.symm
    · unfold tipOk
      rw [hrf, hfil, List.getLast?_concat]
      show stockOf db j.product_id - j.quantity = stockOf dbF pid
      rw [hstock pid, hsum, hjp]
      ring

/-- `update_sale` conserves stock against its own history rows. -/
theorem update_sale_ledger (sale_id : Nat) (req : SaleReq) (u : User) (db : DB)
    (hnd : PidsNodup db) : LedgerStep db (update_sale sale_id req u db).2 := by
  unfold update_sale
  by_cases hc : idT u.company_id
  · rw [if_pos hc]
    cases hb : updateSaleBody sale_id req ((u.company_id).getD 0) u db with
    | error e => simp only []; exact ledgerStep_refl db
    | ok r =>
      obtain ⟨db', res⟩ := r
      simp only []
      show LedgerStep db db'
      unfold updateSaleBody at hb
      cases hsale : findSale db sale_id ((u.company_id).getD 0) with
      | none =>
        rw [hsale] at hb
        simp only [Except.ok.injEq, Prod.mk.injEq] at hb
        rw [← hb.1]
        exact ledgerStep_refl db
      | some sale =>
        simp only [hsale] at hb
        cases hloop : updateItemsLoop ((u.company_id).getD 0) u sale.sid req.items
            (deleteItemsDB (reversalLoop ((u.company_id).getD 0) u
              (itemsOf db sale.sid) db) sale.sid) 0 0 with
        | error e => rw [hloop] at hb; exact absurd hb (by simp)
        | ok out =>
          obtain ⟨db3, nt, nc⟩ := out
          rw [hloop] at hb
          simp only [Except.ok.injEq, Prod.mk.injEq] at hb
          have step1 : LedgerStep db
              (reversalLoop ((u.company_id).getD 0) u (itemsOf db sale.sid) db) :=
            creditLoop_ledger _ _ _ u _ db
          have step2 : LedgerStep
              (reversalLoop ((u.company_id).getD 0) u (itemsOf db sale.sid) db)
              (deleteItemsDB (reversalLoop ((u.company_id).getD 0) u
                (itemsOf db sale.sid) db) sale.sid) :=
            ledgerStep_of_eq rfl rfl
          have hnd2 : PidsNodup (deleteItemsDB (reversalLoop ((u.company_id).getD 0) u
              (itemsOf db sale.sid) db) sale.sid) :=
            ledgerStep_pidsNodup (ledgerStep_trans step1 step2) hnd
          obtain ⟨step3, _, _, _, _, _⟩ :=
            updateItemsLoop_spec ((u.company_id).getD 0) u sale.sid req.items _ 0 0
              (db3, nt, nc) hnd2 hloop
          have step4 : LedgerStep db3
              (updateCommit sale sale.total_amount req ((u.company_id).getD 0) db3 nt nc) :=
            ledgerStep_of_eq (updateCommit_products _ _ _ _ _ _ _)
              (updateCommit_history _ _ _ _ _ _ _)
          rw [← hb.1]
          exact ledgerStep_trans (ledgerStep_trans (ledgerStep_trans step1 step2) step3) step4
  · rw [if_neg hc]
    exact ledgerStep_refl db

/-- `delete_sale` conserves stock against its own history rows. -/
theorem delete_sale_ledger (sale_id : Nat) (u : User) (db : DB) :
    LedgerStep db (delete_sale sale_id u db).2 := by
  unfold delete_sale
  by_cases hc : idT u.company_id
  · rw [if_pos hc]
    cases hsale : findSale db sale_id ((u.company_id).getD 0) with
    | none =>
      simp only [hsale]
      exact ledgerStep_refl db
    | some sale =>
      simp only [hsale]
      have step1 : LedgerStep db (cancelLoop ((u.company_id).getD 0) u
          (itemsOf db sale.sid) db) :=
        creditLoop_ledger _ _ _ u _ db
      refine ledgerStep_trans step1 ?_
      apply ledgerStep_of_eq
      · show (deleteSaleRow (deleteItemsDB (deleteCustomerStage sale ((u.company_id).getD 0)
            (cancelLoop ((u.company_id).getD 0) u (itemsOf db sale.sid) db))
              sale.sid) sale.sid).products = _
        rw [show ∀ dbx : DB, (deleteSaleRow dbx sale.sid).products = dbx.products
          from fun dbx => rfl]
        rw [show ∀ dbx : DB, (deleteItemsDB dbx sale.sid).products = dbx.products
          from fun dbx => rfl]
        exact deleteCustomerStage_products _ _ _
      · show (deleteSaleRow (deleteItemsDB (deleteCustomerStage sale ((u.company_id).getD 0)
            (cancelLoop ((u.company_id).getD 0) u (itemsOf db sale.sid) db))
              sale.sid) sale.sid).history = _
        rw [show ∀ dbx : DB, (deleteSaleRow dbx sale.sid).history = dbx.history
          from fun dbx => rfl]
        rw [show ∀ dbx : DB, (deleteItemsDB dbx sale.sid).history = dbx.history
          from fun dbx => rfl]
        exact deleteCustomerStage_history _ _ _
  · rw [if_neg hc]
    exact ledgerStep_refl db

theorem presence_of_companyOfPid {db : DB} {pid comp : Nat}
    (h : companyOfPid db.products pid = some comp) :
    (findProductByPk db pid).isSome := by
  unfold companyOfPid at h
  unfold findProductByPk
  cases hf : db.products.find? (fun p => p.pid == pid) with
  | none => rw [hf] at h; simp at h
  | some q => rfl

theorem mkCreateRow_selfOk (db : DB) (company : Nat) (u : User) (i : ItemReq) :
    (mkCreateRow db company u i).stock_after
      = (mkCreateRow db company u i).stock_before + (mkCreateRow db company u i).quantity_changed := by
  show stockOf db i.product_id - i.quantity = stockOf db i.product_id + -i.quantity
  ring

/-- `create_sale` conserves stock against its own history rows when the item
list names each product at most once. -/
theorem create_sale_ledger (req : SaleReq) (u : User) (db : DB)
    (hnd : PidsNodup db)
    (hgood : (req.items.map (fun i => i.product_id)).Nodup) :
    LedgerStep db (create_sale req u db).2 := by
  unfold create_sale
  by_cases hc : idT u.company_id
  · rw [if_pos hc]
    cases hb : createSaleBody req ((u.company_id).getD 0) u db with
    | error e => simp only []; exact ledgerStep_refl db
    | ok r =>
      obtain ⟨db', sid⟩ := r
      simp only []
      show LedgerStep db db'
      unfold createSaleBody at hb
      cases hloop : createItemsLoop ((u.company_id).getD 0) u req.items db
          { total_amount := 0, total_cost := 0, items_data := [], product_updates := [] } with
      | error e => rw [hloop] at hb; exact absurd hb (by simp)
      | ok lr =>
        obtain ⟨db1, acc⟩ := lr
        simp only [hloop] at hb
        by_cases hfk : fkCustomerOk db1
            (mkSaleHeader req ((u.company_id).getD 0) u db1 acc).customer_id = true
        case neg => rw [if_neg hfk] at hb; exact absurd hb (by simp)
        rw [if_pos hfk] at hb
        simp only [Except.ok.injEq] at hb
        obtain ⟨hpr, hcu, hsa, hsi, hni, hno, hhist, hdata, hupd, hcomp⟩ :=
          createItemsLoop_spec ((u.company_id).getD 0) u req.items db _ (db1, acc) hnd hloop
        have hdb' : db' = (createCommit req ((u.company_id).getD 0) u db1 acc).1 := by
          rw [hb]
        have hupd2 : acc.product_updates
            = req.items.map (fun i => (i.product_id, stockOf db i.product_id - i.quantity)) := by
          rw [hupd]
          rfl
        have hndu : (acc.product_updates.map Prod.fst).Nodup := by
          rw [hupd2, List.map_map]
          simpa [Function.comp] using hgood
        have hhistEq : db'.history
            = db.history ++ req.items.map (mkCreateRow db ((u.company_id).getD 0) u) := by
          rw [hdb', createCommit_history]
          rw [hhist]
        have hstockEq : ∀ pid, stockOf db' pid
            = stockOf db pid
              + histSum (req.items.map (mkCreateRow db ((u.company_id).getD 0) u)) pid := by
          intro pid
          rw [hdb', createCommit_stock _ _ _ _ _ _ hndu]
          rw [hupd2]
          have hsc : (req.items.map
                (fun i => (i.product_id, stockOf db i.product_id - i.quantity))).find?
                  (fun pu => pu.1 == pid)
              = (req.items.find? (fun i => i.product_id == pid)).map
                  (fun i => (i.product_id, stockOf db i.product_id - i.quantity)) := by
            rw [List.find?_map]
            congr 1
          rw [hsc]
          cases hfi : req.items.find? (fun i => i.product_id == pid) with
          | none =>
            simp only [Option.map_none']
            have hnm : pid ∉ req.items.map (fun i => i.product_id) := by
              intro hcmem
              rcases List.mem_map.mp hcmem with ⟨i, hi, he⟩
              have := List.find?_eq_none.mp hfi i hi
              simp [he] at this
            rw [histSum_rows_not_mem db _ u req.items pid hnm]
            rw [congrFun (stockOf_congr db db1 hpr) pid]
            ring
          | some j =>
            simp only [Option.map_some']
            have hj : j ∈ req.items := List.mem_of_find?_eq_some hfi
            have hjp : j.product_id = pid := by simpa using List.find?_some hfi
            have hpres : (findProductByPk db1 pid).isSome := by
              have h1 : (findProductByPk db pid).isSome := by
                apply presence_of_companyOfPid
                rw [← hjp]
                exact hcomp j hj
              rw [presence_iff_mem_pid] at h1 ⊢
              rw [show db1.products = db.products from hpr]
              exact h1
            rw [if_pos hpres]
            rw [histSum_rows_mem db _ u req.items pid j hgood hj hjp, hjp]
            ring
        refine ⟨?_, ⟨req.items.map (mkCreateRow db ((u.company_id).getD 0) u),
          hhistEq, ?_, hstockEq⟩,
          histInv_create db db' ((u.company_id).getD 0) u req.items hgood hhistEq hstockEq⟩
        · rw [hdb', createCommit_products_sig]
          rw [show db1.products = db.products from hpr]
        · intro r hr
          rcases List.mem_map.mp hr with ⟨i, _, he⟩
          rw [← he]
          exact mkCreateRow_selfOk db _ u i
  · rw [if_neg hc]
    exact ledgerStep_refl db

theorem applyOp_ledger (db : DB) (op : Op) (hnd : PidsNodup db) (hgood : GoodOp op) :
    LedgerStep db (applyOp db op) := by
  cases op with
  | create u req => exact create_sale_ledger req u db hnd hgood
  | update u sid req => exact update_sale_ledger sid req u db hnd
  | delete u sid => exact delete_sale_ledger sid u db

theorem applyOps_ledger (ops : List Op) :
    ∀ db : DB, PidsNodup db → (∀ op ∈ ops, GoodOp op) →
      LedgerStep db (applyOps db ops) := by
  induction ops with
  | nil => intro db _ _; exact ledgerStep_refl db
  | cons op rest ih =>
    intro db hnd hgood
    have h1 : LedgerStep db (applyOp db op) :=
      applyOp_ledger db op hnd (hgood op (List.mem_cons_self op rest))
    exact ledgerStep_trans h1
      (ih (applyOp db op) (ledgerStep_pidsNodup h1 hnd)
        (fun o ho => hgood o (List.mem_cons_of_mem op ho)))

end Shop

namespace Shop

theorem histInv_of_empty (db : DB) (h : db.history = []) : HistInv db := by
  intro pid
  have hr : rowsFor db pid = [] := by
    unfold rowsFor
    rw [h]
    rfl
  constructor
  · rw [hr]
    rfl
  · unfold tipOk
    rw [hr]
    trivial

theorem newRows_of_append {db db' : DB} {rows : List ProductHistory}
    (h : db'.history = db.history ++ rows) : newRows db db' = rows := by
  unfold newRows
  rw [h]
  exact List.drop_left _ _

/-- C1: the claim as stated is false — a single `create_sale` whose item list
names the same product twice loses the first decrement (the loop re-fetches
the unmodified row and the deferred saves overwrite each other), so the final
stock does not equal the initial stock plus the signed sum of the committed
`quantity_changed` values. -/
theorem C1_counterexample :
    ¬ (stockOf (applyOps dbC1 opsC1) 1
        = stockOf dbC1 1 + histSum (newRows dbC1 (applyOps dbC1 opsC1)) 1) := by
  decide

/-- C1 (amended): for every well-formed database and every sequence of
committed `create_sale` / `update_sale` / `delete_sale` operations in which no
`create_sale` call names the same product in two items (update and delete are
unrestricted), each product's final `current_stock` equals its initial stock
plus the signed sum of the `quantity_changed` values of the history rows
committed during the sequence. -/
theorem C1_stock_conservation (db : DB) (ops : List Op)
    (hnd : PidsNodup db) (hgood : ∀ op ∈ ops, GoodOp op) (pid : Nat) :
    stockOf (applyOps db ops) pid
      = stockOf db pid + histSum (newRows db (applyOps db ops)) pid := by
  obtain ⟨sig, ⟨rows, happ, hok, heq⟩, hinv⟩ := applyOps_ledger ops db hnd hgood
  rw [newRows_of_append happ]
  exact heq pid

/-- Witness: a create, a full update, and a delete on a nine-unit product. -/
theorem C1_stock_conservation_witness :
    stockOf (applyOps dbC1w opsC1w) 1
      = stockOf dbC1w 1 + histSum (newRows dbC1w (applyOps dbC1w opsC1w)) 1 :=
  C1_stock_conservation dbC1w opsC1w (by decide) (by decide) 1

/-- C2: the claim as stated is false — after a single `create_sale` naming the
same product twice, the product's two committed history rows read
(stock_before 2, stock_after 1) twice, so the second row's `stock_before`
differs from the first row's `stock_after`. -/
theorem C2_counterexample :
    ¬ (chainB (rowsFor (applyOps dbC2 opsC2) 1) = true) := by
  decide

theorem createItemsLoop_rows (company : Nat) (u : User) (items : List ItemReq) :
    ∀ (db : DB) (acc : CreateAcc) (out : DB × CreateAcc),
      createItemsLoop company u items db acc = .ok out →
      ∃ rows, out.1.history = db.history ++ rows ∧ ∀ r ∈ rows, rowSelfOk r := by
  induction items with
  | nil =>
    intro db acc out h
    simp only [createItemsLoop] at h
    cases h
    exact ⟨[], by simp, by simp⟩
  | cons i rest ih =>
    intro db acc out h
    simp only [createItemsLoop] at h
    cases hf : findProduct db i.product_id company with
    | none => rw [hf] at h; exact absurd h (by simp)
    | some product =>
      simp only [hf] at h
      by_cases hs : product.current_stock < i.quantity
      · rw [if_pos hs] at h; exact absurd h (by simp)
      · rw [if_neg hs] at h
        obtain ⟨rows', h1, h2⟩ := ih _ _ out h
        refine ⟨{ product_id := product.pid
                  transaction_type := "Sale"
                  quantity_changed := -i.quantity
                  stock_before := product.current_stock
                  stock_after := product.current_stock - i.quantity
                  unit_price := i.unit_selling_price
                  total_value := i.quantity * i.unit_selling_price
                  notes := "Sale of " ++ toString i.quantity ++ " units"
                  created_by := u.uid
                  company := company } :: rows', ?_, ?_⟩
        · rw [h1]
          simp [addHistory, List.append_assoc]
        · intro r hr
          rcases List.mem_cons.mp hr with hr1 | hr2
          · subst hr1
            show (product.current_stock - i.quantity : Int)
              = product.current_stock + -i.quantity
            omega
          · exact h2 r hr2

theorem updateItemsLoop_rows (company : Nat) (u : User) (sid : Nat)
    (items : List ItemReq) :
    ∀ (db : DB) (nt nc : Int) (out : DB × Int × Int),
      updateItemsLoop company u sid items db nt nc = .ok out →
      ∃ rows, out.1.history = db.history ++ rows ∧ ∀ r ∈ rows, rowSelfOk r := by
  induction items with
  | nil =>
    intro db nt nc out h
    simp only [updateItemsLoop] at h
    cases h
    exact ⟨[], by simp, by simp⟩
  | cons i rest ih =>
    intro db nt nc out h
    simp only [updateItemsLoop] at h
    cases hf : findProduct db i.product_id company with
    | none => rw [hf] at h; exact absurd h (by simp)
    | some product =>
      simp only [hf] at h
      by_cases hs : product.current_stock < i.quantity
      · rw [if_pos hs] at h; exact absurd h (by simp)
      · rw [if_neg hs] at h
        obtain ⟨rows', h1, h2⟩ := ih _ _ _ out h
        refine ⟨{ product_id := product.pid
                  transaction_type := "Sale Update"
                  quantity_changed := -i.quantity
                  stock_before := product.current_stock
                  stock_after := product.current_stock - i.quantity
                  unit_price := i.unit_selling_price
                  total_value := i.quantity * i.unit_selling_price
                  notes := "Sale update - sold " ++ toString i.quantity ++ " units"
                  created_by := u.uid
                  company := company } :: rows', ?_, ?_⟩
        · rw [h1]
          simp [addHistory, saveProductStock, List.append_assoc]
        · intro r hr
          rcases List.mem_cons.mp hr with hr1 | hr2
          · subst hr1
            show (product.current_stock - i.quantity : Int)
              = product.current_stock + -i.quantity
            omega
          · exact h2 r hr2

theorem applyOp_rows (db : DB) (op : Op) :
    ∃ rows, (applyOp db op).history = db.history ++ rows ∧
      ∀ r ∈ rows, rowSelfOk r := by
  cases op with
  | create u req =>
    simp only [applyOp]
    unfold create_sale
    by_cases hc : idT u.company_id
    case neg =>
      rw [if_neg hc]
      exact ⟨[], by simp, by simp⟩
    rw [if_pos hc]
    cases hb : createSaleBody req ((u.company_id).getD 0) u db with
    | error e =>
      simp only [hb]
      exact ⟨[], by simp, by simp⟩
    | ok out =>
      obtain ⟨db', sid⟩ := out
      simp only [hb]
      unfold createSaleBody at hb
      cases hloop : createItemsLoop ((u.company_id).getD 0) u req.items db
          { total_amount := 0, total_cost := 0, items_data := [],
            product_updates := [] } with
      | error e =>
        simp only [hloop] at hb
        exact absurd hb (by simp)
      | ok lr =>
        obtain ⟨db1, acc⟩ := lr
        simp only [hloop] at hb
        by_cases hfk : fkCustomerOk db1
            (mkSaleHeader req ((u.company_id).getD 0) u db1 acc).customer_id = true
        case neg => rw [if_neg hfk] at hb; exact absurd hb (by simp)
        rw [if_pos hfk] at hb
        simp only [Except.ok.injEq] at hb
        have hdb' : db' = (createCommit req ((u.company_id).getD 0) u db1 acc).1 :=
          (congrArg Prod.fst hb).symm
        obtain ⟨rows, h1, h2⟩ := createItemsLoop_rows ((u.company_id).getD 0) u
          req.items db _ (db1, acc) hloop
        refine ⟨rows, ?_, h2⟩
        rw [hdb', createCommit_history]
        exact h1
  | update u sid req =>
    simp only [applyOp]
    unfold update_sale
    by_cases hc : idT u.company_id
    case neg =>
      rw [if_neg hc]
      exact ⟨[], by simp, by simp⟩
    rw [if_pos hc]
    cases hb : updateSaleBody sid req ((u.company_id).getD 0) u db with
    | error e =>
      simp only [hb]
      exact ⟨[], by simp, by simp⟩
    | ok out =>
      obtain ⟨db', r0⟩ := out
      simp only [hb]
      unfold updateSaleBody at hb
      cases hsale : findSale db sid ((u.company_id).getD 0) with
      | none =>
        rw [hsale] at hb
        simp only [Except.ok.injEq, Prod.mk.injEq] at hb
        exact ⟨[], by rw [← hb.1]; simp, by simp⟩
      | some sale =>
        simp only [hsale] at hb
        cases hloop : updateItemsLoop ((u.company_id).getD 0) u sale.sid req.items
            (deleteItemsDB (reversalLoop ((u.company_id).getD 0) u
              (itemsOf db sale.sid) db) sale.sid) 0 0 with
        | error e => rw [hloop] at hb; exact absurd hb (by simp)
        | ok lr =>
          obtain ⟨db3, nt, nc⟩ := lr
          rw [hloop] at hb
          simp only [Except.ok.injEq, Prod.mk.injEq] at hb
          obtain ⟨rows1, hh1, hs1, _⟩ :=
            (creditLoop_ledger "Sale Update (Reversal)"
              "Reversal before sale update - restored " ((u.company_id).getD 0) u
              (itemsOf db sale.sid) db).hist
          have hh1b : (deleteItemsDB (reversalLoop ((u.company_id).getD 0) u
              (itemsOf db sale.sid) db) sale.sid).history = db.history ++ rows1 := hh1
          obtain ⟨rows2, hh2, hs2⟩ := updateItemsLoop_rows ((u.company_id).getD 0) u
            sale.sid req.items _ 0 0 (db3, nt, nc) hloop
          refine ⟨rows1 ++ rows2, ?_, ?_⟩
          · rw [← hb.1, updateCommit_history]
            rw [hh2, hh1b, List.append_assoc]
          · intro r hr
            rcases List.mem_append.mp hr with h | h
            · exact hs1 r h
            · exact hs2 r h
  | delete u sid =>
    simp only [applyOp]
    unfold delete_sale
    by_cases hc : idT u.company_id
    case neg =>
      rw [if_neg hc]
      exact ⟨[], by simp, by simp⟩
    rw [if_pos hc]
    cases hsale : findSale db sid ((u.company_id).getD 0) with
    | none =>
      simp only [hsale]
      exact ⟨[], by simp, by simp⟩
    | some sale =>
      simp only [hsale]
      obtain ⟨rows1, hh1, hs1, _⟩ :=
        (creditLoop_ledger "Sale Cancellation" "Sale cancellation - restored "
          ((u.company_id).getD 0) u (itemsOf db sale.sid) db).hist
      refine ⟨rows1, ?_, fun r hr => hs1 r hr⟩
      show (deleteCustomerStage sale ((u.company_id).getD 0)
          (cancelLoop ((u.company_id).getD 0) u (itemsOf db sale.sid) db)).history
        = db.history ++ rows1
      rw [deleteCustomerStage_history]
      exact hh1

theorem applyOps_rows (ops : List Op) :
    ∀ db : DB, ∃ rows, (applyOps db ops).history = db.history ++ rows ∧
      ∀ r ∈ rows, rowSelfOk r := by
  induction ops with
  | nil =>
    intro db
    exact ⟨[], by simp [applyOps], by simp⟩
  | cons op rest ih =>
    intro db
    obtain ⟨rows1, h1, hs1⟩ := applyOp_rows db op
    obtain ⟨rows2, h2, hs2⟩ := ih (applyOp db op)
    refine ⟨rows1 ++ rows2, ?_, ?_⟩
    · show (applyOps (applyOp db op) rest).history = db.history ++ (rows1 ++ rows2)
      rw [h2, h1, List.append_assoc]
    · intro r hr
      rcases List.mem_append.mp hr with h | h
      · exact hs1 r h
      · exact hs2 r h

/-- C2 (amended): every ledger row written by the three operations satisfies
`stock_after = stock_before + quantity_changed` unconditionally — for any
starting database and any operation sequence, duplicate-product creates
included; and starting from an empty ledger, provided no `create_sale` call
repeats a product id, each product's rows additionally chain in commit
order (`stock_before` of each row equals `stock_after` of the product's
previous row). -/
theorem C2_history_chain (db : DB) (ops : List Op) :
    (∀ r ∈ newRows db (applyOps db ops), rowSelfOk r) ∧
    (db.history = [] → PidsNodup db → (∀ op ∈ ops, GoodOp op) →
      ∀ pid, chainB (rowsFor (applyOps db ops) pid) = true) := by
  constructor
  · obtain ⟨rows, happ, hok⟩ := applyOps_rows ops db
    rw [newRows_of_append happ]
    exact hok
  · intro hemp hnd hgood pid
    obtain ⟨sig, ⟨rows, happ, hok, heq⟩, hinv⟩ := applyOps_ledger ops db hnd hgood
    exact ((hinv (histInv_of_empty db hemp)) pid).1

/-- Witness: the per-row equation holds for a concrete row of the
duplicate-id create (the very case that breaks the chain), and the chain
holds for the two-operation sequence on product 1. -/
theorem C2_history_chain_witness :
    rowSelfOk { product_id := 1
                transaction_type := "Sale"
                quantity_changed := -1
                stock_before := 2
                stock_after := 1
                unit_price := 800
                total_value := 800
                notes := "Sale of 1 units"
                created_by := 1
                company := 1 } ∧
    chainB (rowsFor (applyOps dbC2w opsC2w) 1) = true :=
  ⟨(C2_history_chain dbC2 opsC2).1 _ (by decide),
   (C2_history_chain dbC2w opsC2w).2 rfl (by decide) (by decide) 1⟩

end Shop

namespace Shop

/-- C4: atomicity under failure — whenever `create_sale` or `update_sale`
returns an error (insufficient stock, unknown product, missing tenant), the
committed database is exactly the caller's database: every partial debit,
reversal credit, history row, and aggregate change of the failed attempt is
rolled back with the transaction. -/
theorem C4_atomicity (req : SaleReq) (u : User) (db : DB) (sid : Nat)
    (e e' : SaleErr) :
    ((create_sale req u db).1 = .error e → (create_sale req u db).2 = db) ∧
    ((update_sale sid req u db).1 = .error e' → (update_sale sid req u db).2 = db) := by
  constructor
  · intro h
    unfold create_sale at *
    by_cases hc : idT u.company_id
    · rw [if_pos hc] at *
      cases hb : createSaleBody req ((u.company_id).getD 0) u db with
      | error e2 =>
        simp only [hb]
      | ok r =>
        obtain ⟨db', sid'⟩ := r
        rw [hb] at h
        simp at h
    · rw [if_neg hc]
  · intro h
    unfold update_sale at *
    by_cases hc : idT u.company_id
    · rw [if_pos hc] at *
      cases hb : updateSaleBody sid req ((u.company_id).getD 0) u db with
      | error e2 =>
        simp only [hb]
      | ok r =>
        obtain ⟨db', res⟩ := r
        rw [hb] at h
        simp at h
    · rw [if_neg hc]

/-- Witness: a create whose second item exceeds stock, and an update whose new
item list exceeds the restored stock, both leave the database untouched. -/
theorem C4_atomicity_witness :
    (create_sale reqC4 actor1 dbC4).2 = dbC4 ∧
    (update_sale 1 reqC4 actor1 dbC4b).2 = dbC4b :=
  ⟨(C4_atomicity reqC4 actor1 dbC4 1 (.insufficientStock ("P"))
      (.insufficientStock ("P"))).1 (by decide),
   (C4_atomicity reqC4 actor1 dbC4b 1 (.insufficientStock ("P"))
      (.insufficientStock ("P"))).2 (by decide)⟩

/-- C5: the concrete scenario — creating a three-unit sale of product P
(stock 10, buying price 5.00, selling price 8.00) leaves stock 7 with totals
24.00 / 15.00 / 9.00 and one "Sale" row 10→7; updating it to one unit leaves
stock 9, appends exactly the "Sale Update (Reversal)" row 7→10 and the
"Sale Update" row 10→9, and sets the total to 8.00; deleting it returns true
and restores stock 10.  Money is in cents. -/
theorem C5_concrete_scenario :
    (create_sale reqC5a actor1 dbC5).1 = .ok 1 ∧
    stockOf dbC5a 1 = 7 ∧
    dbC5a.sales.map (fun s => (s.sid, s.total_amount, s.total_cost, s.total_profit))
      = [(1, 2400, 1500, 900)] ∧
    dbC5a.history.map (fun r => (r.transaction_type, r.stock_before, r.stock_after,
      r.quantity_changed)) = [("Sale", 10, 7, -3)] ∧
    (update_sale 1 reqC5b actor1 dbC5a).1 = .ok (some 1) ∧
    stockOf dbC5b 1 = 9 ∧
    dbC5b.history.map (fun r => (r.transaction_type, r.stock_before, r.stock_after,
      r.quantity_changed))
      = [("Sale", 10, 7, -3), ("Sale Update (Reversal)", 7, 10, 3),
         ("Sale Update", 10, 9, -1)] ∧
    dbC5b.sales.map (fun s => (s.sid, s.total_amount)) = [(1, 800)] ∧
    (delete_sale 1 actor1 dbC5b).1 = .ok true ∧
    stockOf dbC5c 1 = 10 := by
  decide

end Shop

namespace Shop

theorem findCustomer_congr {db db' : DB} (h : db'.customers = db.customers) :
    findCustomer db' = findCustomer db := by
  funext cid comp
  unfold findCustomer
  rw [h]

theorem findSale_congr {db db' : DB} (h : db'.sales = db.sales) :
    findSale db' = findSale db := by
  funext sid comp
  unfold findSale
  rw [h]

/-- Frame of the new-item loop on the customer and sale tables (no
well-formedness needed). -/
theorem updateItemsLoop_frame (company : Nat) (u : User) (sid : Nat)
    (items : List ItemReq) :
    ∀ (db : DB) (t c : Int) (out : DB × Int × Int),
      updateItemsLoop company u sid items db t c = .ok out →
      out.1.customers = db.customers ∧
      out.1.sales = db.sales ∧
      out.1.next_sale_id = db.next_sale_id ∧
      out.1.now = db.now := by
  induction items with
  | nil =>
    intro db t c out h
    simp only [updateItemsLoop] at h
    cases h
    exact ⟨rfl, rfl, rfl, rfl⟩
  | cons i rest ih =>
    intro db t c out h
    simp only [updateItemsLoop] at h
    cases hf : findProduct db i.product_id company with
    | none => rw [hf] at h; exact absurd h (by simp)
    | some product =>
      simp only [hf] at h
      by_cases hs : product.current_stock < i.quantity
      · rw [if_pos hs] at h; exact absurd h (by simp)
      · rw [if_neg hs] at h
        obtain ⟨h1, h2, h3, h4⟩ := ih _ _ _ out h
        exact ⟨h1, h2, h3, h4⟩

/-- Overwriting the row found by `find?` with a row of the same key, under
unique keys, makes that row the new `find?` result. -/
theorem find?_update_by_key {α : Type} (key : α → Nat) (p : α → Bool)
    (l : List α) (a a' : α)
    (hnd : (l.map key).Nodup)
    (hfind : l.find? p = some a)
    (hpred : p a' = true) :
    (l.map (fun x => if key x == key a then a' else x)).find? p = some a' := by
  induction l with
  | nil => simp at hfind
  | cons x l ih =>
    simp only [List.map_cons, List.nodup_cons] at hnd
    cases hx : p x with
    | true =>
      have hax : a = x := by
        rw [List.find?_cons_of_pos _ hx] at hfind
        simpa using hfind.symm
      have hb : (key x == key a) = true := by simp [hax]
      rw [List.map_cons, if_pos hb]
      rw [List.find?_cons_of_pos _ hpred]
    | false =>
      rw [List.find?_cons_of_neg _ (by simp [hx])] at hfind
      have ham : a ∈ l := List.mem_of_find?_eq_some hfind
      have hkne : key x ≠ key a := by
        intro hc
        exact hnd.1 (hc ▸ List.mem_map.mpr ⟨a, ham, rfl⟩)
      have hb : (key x == key a) = false := by simp [hkne]
      rw [List.map_cons, if_neg (by simp [hkne])]
      rw [List.find?_cons_of_neg _ (by simp [hx])]
      exact ih hnd.2 hfind

/-- Success-case unfolding of `create_sale`. -/
theorem create_sale_ok_spec (req : SaleReq) (u : User) (db : DB) (sid : Nat)
    (db' : DB)
    (h : create_sale req u db = (.ok sid, db')) :
    idT u.company_id = true ∧
    ∃ db1 acc,
      createItemsLoop ((u.company_id).getD 0) u req.items db
        { total_amount := 0, total_cost := 0, items_data := [], product_updates := [] }
        = .ok (db1, acc) ∧
      db' = (createCommit req ((u.company_id).getD 0) u db1 acc).1 ∧
      sid = (createCommit req ((u.company_id).getD 0) u db1 acc).2 := by
  unfold create_sale at h
  by_cases hc : idT u.company_id
  · rw [if_pos hc] at h
    refine ⟨hc, ?_⟩
    unfold createSaleBody at h
    cases hloop : createItemsLoop ((u.company_id).getD 0) u req.items db
        { total_amount := 0, total_cost := 0, items_data := [], product_updates := [] } with
    | error e => rw [hloop] at h; exact absurd h (by simp)
    | ok lr =>
      obtain ⟨db1, acc⟩ := lr
      simp only [hloop] at h
      by_cases hfk : fkCustomerOk db1
          (mkSaleHeader req ((u.company_id).getD 0) u db1 acc).customer_id = true
      case neg =>
        rw [if_neg hfk] at h
        simp at h
      rw [if_pos hfk] at h
      simp only [Prod.mk.injEq] at h
      refine ⟨db1, acc, rfl, ?_, ?_⟩
      · exact h.2.symm
      · have := h.1
        simp only [Except.ok.injEq] at this
        exact this.symm
  · rw [if_neg hc] at h
    simp at h

/-- Success-case unfolding of `update_sale`. -/
theorem update_sale_ok_spec (sale_id : Nat) (req : SaleReq) (u : User) (db : DB)
    (res : Option Nat) (db' : DB)
    (h : update_sale sale_id req u db = (.ok res, db')) :
    idT u.company_id = true ∧
    ((res = none ∧ db' = db ∧ findSale db sale_id ((u.company_id).getD 0) = none) ∨
      ∃ sale db3 nt nc,
        findSale db sale_id ((u.company_id).getD 0) = some sale ∧
        updateItemsLoop ((u.company_id).getD 0) u sale.sid req.items
          (deleteItemsDB (reversalLoop ((u.company_id).getD 0) u
            (itemsOf db sale.sid) db) sale.sid) 0 0 = .ok (db3, nt, nc) ∧
        res = some sale.sid ∧
        db' = updateCommit sale sale.total_amount req ((u.company_id).getD 0) db3 nt nc) := by
  unfold update_sale at h
  by_cases hc : idT u.company_id
  · rw [if_pos hc] at h
    refine ⟨hc, ?_⟩
    unfold updateSaleBody at h
    cases hsale : findSale db sale_id ((u.company_id).getD 0) with
    | none =>
      rw [hsale] at h
      simp only [Prod.mk.injEq, Except.ok.injEq] at h
      exact Or.inl ⟨h.1.symm, h.2.symm, rfl⟩
    | some sale =>
      simp only [hsale] at h
      cases hloop : updateItemsLoop ((u.company_id).getD 0) u sale.sid req.items
          (deleteItemsDB (reversalLoop ((u.company_id).getD 0) u
            (itemsOf db sale.sid) db) sale.sid) 0 0 with
      | error e => rw [hloop] at h; exact absurd h (by simp)
      | ok out =>
        obtain ⟨db3, nt, nc⟩ := out
        rw [hloop] at h
        simp only [Prod.mk.injEq, Except.ok.injEq] at h
        exact Or.inr ⟨sale, db3, nt, nc, rfl, hloop, h.1.symm, h.2.symm⟩
  · rw [if_neg hc] at h
    simp at h

/-- Success-case unfolding of `delete_sale`. -/
theorem delete_sale_ok_spec (sale_id : Nat) (u : User) (db : DB)
    (res : Bool) (db' : DB)
    (h : delete_sale sale_id u db = (.ok res, db')) :
    idT u.company_id = true ∧
    ((res = false ∧ db' = db) ∨
      ∃ sale,
        findSale db sale_id ((u.company_id).getD 0) = some sale ∧ res = true ∧
        db' = deleteSaleRow (deleteItemsDB (deleteCustomerStage sale
          ((u.company_id).getD 0) (cancelLoop ((u.company_id).getD 0) u
            (itemsOf db sale.sid) db)) sale.sid) sale.sid) := by
  unfold delete_sale at h
  by_cases hc : idT u.company_id
  · rw [if_pos hc] at h
    refine ⟨hc, ?_⟩
    cases hsale : findSale db sale_id ((u.company_id).getD 0) with
    | none =>
      simp only [hsale] at h
      simp only [Prod.mk.injEq, Except.ok.injEq] at h
      exact Or.inl ⟨h.1.symm, h.2.symm⟩
    | some sale =>
      simp only [hsale] at h
      simp only [Prod.mk.injEq, Except.ok.injEq] at h
      exact Or.inr ⟨sale, rfl, h.1.symm, h.2.symm⟩
  · rw [if_neg hc] at h
    simp at h

end Shop

namespace Shop

/-- Frame of the `create_sale` item loop: only the history grows (no
well-formedness needed). -/
theorem createItemsLoop_frame (company : Nat) (u : User) (items : List ItemReq) :
    ∀ (db : DB) (acc : CreateAcc) (out : DB × CreateAcc),
      createItemsLoop company u items db acc = .ok out →
      out.1.products = db.products ∧
      out.1.customers = db.customers ∧
      out.1.sales = db.sales ∧
      out.1.sale_items = db.sale_items ∧
      out.1.next_sale_id = db.next_sale_id ∧
      out.1.now = db.now := by
  induction items with
  | nil =>
    intro db acc out h
    simp only [createItemsLoop] at h
    cases h
    exact ⟨rfl, rfl, rfl, rfl, rfl, rfl⟩
  | cons i rest ih =>
    intro db acc out h
    simp only [createItemsLoop] at h
    cases hf : findProduct db i.product_id company with
    | none => rw [hf] at h; exact absurd h (by simp)
    | some product =>
      simp only [hf] at h
      by_cases hs : product.current_stock < i.quantity
      · rw [if_pos hs] at h; exact absurd h (by simp)
      · rw [if_neg hs] at h
        obtain ⟨h1, h2, h3, h4, h5, h6⟩ := ih _ _ out h
        exact ⟨h1, h2, h3, h4, h5, h6⟩

/-- C7: the claim as stated is false — supplying a customer id that exists
only in another tenant does not fail with NotFound: the sale is created,
records that customer id, and no aggregate is touched. -/
theorem C7_counterexample :
    (create_sale reqC7 actor1 dbC7).1 = .ok 1 ∧
    (create_sale reqC7 actor1 dbC7).2.customers = dbC7.customers ∧
    (create_sale reqC7 actor1 dbC7).2.sales.map (fun s => (s.sid, s.customer_id))
      = [(1, some 7)] := by
  decide

/-- C7 (amended): a truthy `customer_id` that does not resolve within the
acting tenant never produces a NotFound error.  If the id exists in some
other tenant's rows the foreign key is satisfied: on success the customer
table is untouched and the created sale records the unresolvable id
verbatim.  If the id exists nowhere in the customer table the INSERT
violates the foreign key: the call never succeeds, the rollback leaves the
database unchanged, and whenever the item loop itself passes the failure
is exactly the `IntegrityError`, surfaced by the view as 500. -/
theorem C7_unresolved_customer (req : SaleReq) (u : User) (db : DB) (cid : Nat)
    (hcid : req.customer_id = some cid) (hcnz : cid ≠ 0)
    (hnone : findCustomer db cid ((u.company_id).getD 0) = none) :
    (∀ sid db', create_sale req u db = (.ok sid, db') →
      db'.customers = db.customers ∧
      ∃ s, db'.sales = db.sales ++ [s] ∧ s.customer_id = some cid) ∧
    ((∀ c ∈ db.customers, c.cid ≠ cid) → idT u.company_id = true →
      (∀ sid db', create_sale req u db ≠ (.ok sid, db')) ∧
      (create_sale req u db).2 = db ∧
      ((∃ out, createItemsLoop ((u.company_id).getD 0) u req.items db
          { total_amount := 0, total_cost := 0, items_data := [],
            product_updates := [] } = Except.ok out) →
        create_sale req u db = (.error .integrityError, db) ∧
        (saleCreateValid req = true →
          api_create_sale req u db = (.serverError, db)))) := by
  have htruthy : idT req.customer_id = true := by
    rw [hcid]
    simp [idT, hcnz]
  constructor
  · intro sid db' h
    obtain ⟨hc, db1, acc, hloop, hdb', hsid⟩ := create_sale_ok_spec req u db sid db' h
    obtain ⟨hfp, hfc, hfs, hfi, hfn, hfo⟩ := createItemsLoop_frame _ u req.items db _ _ hloop
    have hres : createResolved req ((u.company_id).getD 0) db1 = none := by
      unfold createResolved
      rw [if_pos htruthy, hcid]
      show findCustomer db1 cid ((u.company_id).getD 0) = none
      rw [congrFun (congrFun (findCustomer_congr hfc) cid) ((u.company_id).getD 0)]
      exact hnone
    constructor
    · rw [hdb', createCommit_customers, hres]
      exact hfc
    · refine ⟨mkSaleHeader req ((u.company_id).getD 0) u db1 acc, ?_, ?_⟩
      · rw [hdb', createCommit_sales, hfs]
      · show (if idT req.customer_id then req.customer_id else none) = some cid
        rw [if_pos htruthy, hcid]
  · intro habs hc
    have hbody : (∀ out, createSaleBody req ((u.company_id).getD 0) u db ≠ .ok out) ∧
        (∀ out, createItemsLoop ((u.company_id).getD 0) u req.items db
            { total_amount := 0, total_cost := 0, items_data := [],
              product_updates := [] } = Except.ok out →
          createSaleBody req ((u.company_id).getD 0) u db
            = .error .integrityError) := by
      cases hloop : createItemsLoop ((u.company_id).getD 0) u req.items db
          { total_amount := 0, total_cost := 0, items_data := [],
            product_updates := [] } with
      | error e0 =>
        constructor
        · intro out hcon
          unfold createSaleBody at hcon
          simp only [hloop] at hcon
          exact absurd hcon (by simp)
        · intro out hout
          exact absurd hout (by simp)
      | ok lr =>
        obtain ⟨db1, acc⟩ := lr
        have hfc := (createItemsLoop_frame ((u.company_id).getD 0) u req.items db
          { total_amount := 0, total_cost := 0, items_data := [],
            product_updates := [] } (db1, acc) hloop).2.1
        have hfkf : fkCustomerOk db1 (mkSaleHeader req ((u.company_id).getD 0) u db1
            acc).customer_id = false := by
          show fkCustomerOk db1 (if idT req.customer_id then req.customer_id else none)
            = false
          rw [if_pos htruthy, hcid]
          show db1.customers.any (fun c => c.cid == cid) = false
          rw [hfc]
          rw [List.any_eq_false]
          intro c hcm
          simp only [beq_iff_eq]
          exact habs c hcm
        have hbe : createSaleBody req ((u.company_id).getD 0) u db
            = .error .integrityError := by
          unfold createSaleBody
          simp only [hloop]
          rw [if_neg (by rw [hfkf]; exact Bool.false_ne_true)]
        constructor
        · intro out hcon
          rw [hbe] at hcon
          exact absurd hcon (by simp)
        · intro out hout
          exact hbe
    obtain ⟨hnotok, hinteg⟩ := hbody
    cases hb : createSaleBody req ((u.company_id).getD 0) u db with
    | ok out => exact absurd hb (hnotok out)
    | error e =>
      have hcseq : create_sale req u db = (.error e, db) := by
        unfold create_sale
        rw [if_pos hc]
        simp only [hb]
      refine ⟨?_, ?_, ?_⟩
      · intro sid db' hcon
        rw [hcseq] at hcon
        simp at hcon
      · rw [hcseq]
      · rintro ⟨out, hout⟩
        have he : e = SaleErr.integrityError := by
          have h2 := hinteg out hout
          rw [hb] at h2
          injection h2
        subst he
        refine ⟨hcseq, ?_⟩
        intro hvald
        simp [api_create_sale, hvald, hcseq]

/-- Witness for the amended C7: the cross-tenant id commits a dangling-link
sale on `dbC7`; the globally-absent id (same request against `dbC6`, whose
customer table is empty) hits the FK `IntegrityError` and surfaces 500. -/
theorem C7_unresolved_customer_witness :
    ((create_sale reqC7 actor1 dbC7).2.customers = dbC7.customers ∧
      ∃ s, (create_sale reqC7 actor1 dbC7).2.sales = dbC7.sales ++ [s] ∧
        s.customer_id = some 7) ∧
    create_sale reqC7 actor1 dbC6 = (.error .integrityError, dbC6) ∧
    api_create_sale reqC7 actor1 dbC6 = (.serverError, dbC6) := by
  refine ⟨(C7_unresolved_customer reqC7 actor1 dbC7 7 rfl (by decide) (by decide)).1
      1 (create_sale reqC7 actor1 dbC7).2 (by decide), ?_⟩
  have h := ((C7_unresolved_customer reqC7 actor1 dbC6 7 rfl (by decide) (by decide)).2
      (by decide) (by decide)).2.2 ⟨_, rfl⟩
  exact ⟨h.1, h.2 (by decide)⟩

end Shop

namespace Shop

theorem createCommit_products_of_nil (req : SaleReq) (comp : Nat) (u : User)
    (db : DB) (acc : CreateAcc) (h : acc.product_updates = []) :
    (createCommit req comp u db acc).1.products = db.products := by
  simp only [createCommit]
  rw [h]
  cases hres : createResolved req comp db with
  | none => simp only [hres]; rfl
  | some c => simp only [hres]; rfl

/-- C6: the claim as stated is false — an empty item list passes the
serializer (a `many=True` list field accepts the empty list) and the service
creates an empty sale, so the call succeeds instead of failing with a
validation error. -/
theorem C6_counterexample :
    (api_create_sale reqC6 actor1 dbC6).1 = .created 1 ∧
    (api_create_sale reqC6 actor1 dbC6).2.sales.length = dbC6.sales.length + 1 := by
  decide

/-- C6 (amended): for every actor with a tenant, `create_sale` with an empty
item list — and any supplied truthy customer id present in the customer
table, so the foreign-key check passes — succeeds, creating a sale with
zero totals while writing no sale item or history row and changing no
product stock; customer purchase totals are unchanged, and with no truthy
customer id supplied the customer table is untouched. -/
theorem C6_empty_items (req : SaleReq) (u : User) (db : DB)
    (hc : idT u.company_id = true)
    (hcnd : CidsNodup db)
    (hitems : req.items = [])
    (hfk : idT req.customer_id = true → fkCustomerOk db req.customer_id = true) :
    (create_sale req u db).1 = .ok db.next_sale_id ∧
    (create_sale req u db).2.products = db.products ∧
    (create_sale req u db).2.history = db.history ∧
    (create_sale req u db).2.sale_items = db.sale_items ∧
    (∃ s, (create_sale req u db).2.sales = db.sales ++ [s] ∧
      s.total_amount = 0 ∧ s.total_cost = 0 ∧ s.total_profit = 0) ∧
    (create_sale req u db).2.customers.map (fun c => (c.cid, c.total_purchases))
      = db.customers.map (fun c => (c.cid, c.total_purchases)) ∧
    (idT req.customer_id = false → (create_sale req u db).2.customers = db.customers) := by
  have hcall : create_sale req u db
      = (.ok (createCommit req ((u.company_id).getD 0) u db
            { total_amount := 0, total_cost := 0, items_data := [], product_updates := [] }).2,
         (createCommit req ((u.company_id).getD 0) u db
            { total_amount := 0, total_cost := 0, items_data := [], product_updates := [] }).1) := by
    have hfk2 : fkCustomerOk db (mkSaleHeader req ((u.company_id).getD 0) u db
        { total_amount := 0, total_cost := 0, items_data := [],
          product_updates := [] }).customer_id = true := by
      show fkCustomerOk db (if idT req.customer_id then req.customer_id else none) = true
      by_cases ht : idT req.customer_id = true
      · rw [if_pos ht]
        exact hfk ht
      · rw [if_neg ht]
        rfl
    unfold create_sale
    rw [if_pos hc]
    unfold createSaleBody
    rw [hitems]
    simp only [createItemsLoop]
    rw [if_pos hfk2]
  rw [hcall]
  refine ⟨?_, ?_, ?_, ?_, ?_, ?_, ?_⟩
  · rw [createCommit_sid]
  · exact createCommit_products_of_nil req _ u db _ rfl
  · exact createCommit_history req _ u db _
  · rw [createCommit_sale_items]
    simp
  · exact ⟨mkSaleHeader req ((u.company_id).getD 0) u db
      { total_amount := 0, total_cost := 0, items_data := [], product_updates := [] },
      createCommit_sales req _ u db _, rfl, rfl, rfl⟩
  · rw [createCommit_customers]
    cases hres : createResolved req ((u.company_id).getD 0) db with
    | none => rfl
    | some c =>
      have hcm : c ∈ db.customers := by
        unfold createResolved at hres
        by_cases ht : idT req.customer_id = true
        · rw [if_pos ht] at hres
          exact List.mem_of_find?_eq_some hres
        · rw [if_neg ht] at hres
          simp at hres
      rw [List.map_map]
      apply List.map_congr_left
      intro c0 hc0
      simp only [Function.comp_apply]
      by_cases hcc : (c0.cid == c.cid) = true
      · rw [if_pos hcc]
        have hceq : c0 = c := by
          have hinj := List.inj_on_of_nodup_map hcnd
          exact hinj hc0 hcm (by simpa using hcc)
        show (c.cid, c.total_purchases + 0) = (c0.cid, c0.total_purchases)
        rw [hceq]
        simp
      · rw [if_neg hcc]
  · intro hfalse
    rw [createCommit_customers]
    have hres : createResolved req ((u.company_id).getD 0) db = none := by
      unfold createResolved
      rw [if_neg (by simp [hfalse])]
    rw [hres]

/-- Witness: the empty item list on the concrete one-product database. -/
theorem C6_empty_items_witness :
    (create_sale reqC6 actor1 dbC6).1 = .ok dbC6.next_sale_id ∧
    (create_sale reqC6 actor1 dbC6).2.products = dbC6.products ∧
    (create_sale reqC6 actor1 dbC6).2.history = dbC6.history ∧
    (create_sale reqC6 actor1 dbC6).2.sale_items = dbC6.sale_items ∧
    (∃ s, (create_sale reqC6 actor1 dbC6).2.sales = dbC6.sales ++ [s] ∧
      s.total_amount = 0 ∧ s.total_cost = 0 ∧ s.total_profit = 0) ∧
    (create_sale reqC6 actor1 dbC6).2.customers.map (fun c => (c.cid, c.total_purchases))
      = dbC6.customers.map (fun c => (c.cid, c.total_purchases)) ∧
    (idT reqC6.customer_id = false → (create_sale reqC6 actor1 dbC6).2.customers = dbC6.customers) :=
  C6_empty_items reqC6 actor1 dbC6 (by decide) (by decide) rfl (by decide)

end Shop

namespace Shop

/-- C10: the claim as stated is false — when the request supplies no
customer id but a fresh customer name, the updated sale keeps the customer
link yet takes the new name instead of retaining the previous one. -/
theorem C10_counterexample :
    (update_sale 1 reqC10 actor1 dbC10).1 = .ok (some 1) ∧
    (update_sale 1 reqC10 actor1 dbC10).2.sales.map
        (fun s => (s.customer_id, s.customer_name))
      = [(some 7, some "New")] := by
  decide

theorem updateCommit_sales (sale : Sale) (prev : Int) (req : SaleReq)
    (company : Nat) (db : DB) (nt nc : Int) :
    (updateCommit sale prev req company db nt nc).sales
      = db.sales.map (fun s0 => if s0.sid == sale.sid then
          ({ sale with
            customer_id := pyOrId req.customer_id sale.customer_id
            customer_name := pyOrStr req.customer_name sale.customer_name
            customer_phone := pyOrStr req.customer_phone sale.customer_phone
            payment_method := pyOrStrD req.payment_method sale.payment_method
            total_amount := nt
            total_cost := nc
            total_profit := nt - nc }) else s0) := by
  simp only [updateCommit]
  repeat' split
  all_goals rfl

/-- C10 (amended): after any committed update of a sale whose customer link
resolves, the stored sale's `customer_id` is the supplied truthy id or the
previous one (Python `or` semantics) — never none, so no update input can
remove an existing customer link.  Each snapshot field (name, phone,
payment method) is kept exactly when the request does not supply a truthy
value for it.  When the request carries no truthy customer id, the link is
exactly the previous customer and that customer's purchases are reconciled
by the new total minus the previous one with the transaction count
unchanged. -/
theorem C10_customer_link_preserved (sale_id : Nat) (req : SaleReq) (u : User)
    (db : DB) (sale : Sale) (c0 : Nat) (C0 : Customer) (res : Option Nat) (db' : DB)
    (hsnd : SidsNodup db) (hcnd : CidsNodup db)
    (hsale : findSale db sale_id ((u.company_id).getD 0) = some sale)
    (hcust : sale.customer_id = some c0) (hc0 : c0 ≠ 0)
    (hfound : findCustomer db c0 ((u.company_id).getD 0) = some C0)
    (h : update_sale sale_id req u db = (.ok res, db')) :
    ∃ s', findSale db' sale.sid ((u.company_id).getD 0) = some s' ∧
      s'.customer_id = pyOrId req.customer_id sale.customer_id ∧
      s'.customer_id ≠ none ∧
      s'.customer_name = pyOrStr req.customer_name sale.customer_name ∧
      s'.customer_phone = pyOrStr req.customer_phone sale.customer_phone ∧
      s'.payment_method = pyOrStrD req.payment_method sale.payment_method ∧
      (idT req.customer_id = false →
        s'.customer_id = some c0 ∧
        ∃ C0', findCustomer db' c0 ((u.company_id).getD 0) = some C0' ∧
          C0'.total_purchases = C0.total_purchases - sale.total_amount + s'.total_amount ∧
          C0'.total_transactions = C0.total_transactions) := by
  obtain ⟨hc, hcases⟩ := update_sale_ok_spec sale_id req u db res db' h
  rcases hcases with ⟨hres, hdb', hnone⟩ | ⟨sale2, db3, nt, nc, hsale2, hloop, hres, hdb'⟩
  · exact absurd hsale (by rw [hnone]; simp)
  · have hsame : sale2 = sale := by
      rw [hsale2] at hsale
      simpa using hsale
    subst hsame
    have hfr1 := creditLoop_frame "Sale Update (Reversal)"
      "Reversal before sale update - restored " ((u.company_id).getD 0) u
      (itemsOf db sale2.sid) db
    obtain ⟨hl1, hl2, hl3, hl4⟩ := updateItemsLoop_frame ((u.company_id).getD 0) u
      sale2.sid req.items _ 0 0 (db3, nt, nc) hloop
    have hcust3 : db3.customers = db.customers := by
      rw [hl1]
      show (deleteItemsDB (reversalLoop ((u.company_id).getD 0) u
        (itemsOf db sale2.sid) db) sale2.sid).customers = db.customers
      exact hfr1.1
    have hsales3 : db3.sales = db.sales := by
      rw [hl2]
      show (deleteItemsDB (reversalLoop ((u.company_id).getD 0) u
        (itemsOf db sale2.sid) db) sale2.sid).sales = db.sales
      exact hfr1.2.1
    have hblock1 : idT sale2.customer_id = true := by
      rw [hcust]
      simp [idT, hc0]
    have hfind3 : findCustomer db3 ((sale2.customer_id).getD 0) ((u.company_id).getD 0)
        = some C0 := by
      rw [hcust]
      show findCustomer db3 c0 ((u.company_id).getD 0) = some C0
      rw [congrFun (congrFun (findCustomer_congr hcust3) c0) ((u.company_id).getD 0)]
      exact hfound
    have hsid : sale2.sid = sale_id := by
      have := List.find?_some hsale2
      simp only [Bool.and_eq_true, beq_iff_eq] at this
      exact this.1
    have hcomp : sale2.company = (u.company_id).getD 0 := by
      have := List.find?_some hsale2
      simp only [Bool.and_eq_true, beq_iff_eq] at this
      exact this.2
    have hsalesEq : db'.sales = db3.sales.map (fun s0 => if s0.sid == sale2.sid then
        ({ sale2 with
          customer_id := pyOrId req.customer_id sale2.customer_id
          customer_name := pyOrStr req.customer_name sale2.customer_name
          customer_phone := pyOrStr req.customer_phone sale2.customer_phone
          payment_method := pyOrStrD req.payment_method sale2.payment_method
          total_amount := nt
          total_cost := nc
          total_profit := nt - nc } : Sale) else s0) := by
      rw [hdb']
      exact updateCommit_sales sale2 sale2.total_amount req ((u.company_id).getD 0)
        db3 nt nc
    refine ⟨{ sale2 with
        customer_id := pyOrId req.customer_id sale2.customer_id
        customer_name := pyOrStr req.customer_name sale2.customer_name
        customer_phone := pyOrStr req.customer_phone sale2.customer_phone
        payment_method := pyOrStrD req.payment_method sale2.payment_method
        total_amount := nt
        total_cost := nc
        total_profit := nt - nc }, ?_, rfl, ?_, rfl, rfl, rfl, ?_⟩
    · have hfindX : db3.sales.find?
          (fun s => s.sid == sale2.sid && s.company == ((u.company_id).getD 0))
          = some sale2 := by
        rw [hsales3, hsid]
        exact hsale2
      have hndX : (db3.sales.map (fun s => s.sid)).Nodup := by
        rw [hsales3]
        exact hsnd
      have hpredX : ((fun s => s.sid == sale2.sid && s.company == ((u.company_id).getD 0))
          ({ sale2 with
            customer_id := pyOrId req.customer_id sale2.customer_id
            customer_name := pyOrStr req.customer_name sale2.customer_name
            customer_phone := pyOrStr req.customer_phone sale2.customer_phone
            payment_method := pyOrStrD req.payment_method sale2.payment_method
            total_amount := nt
            total_cost := nc
            total_profit := nt - nc } : Sale)) = true := by
        show (sale2.sid == sale2.sid && sale2.company == ((u.company_id).getD 0)) = true
        simp [hcomp]
      show db'.sales.find?
          (fun s => s.sid == sale2.sid && s.company == ((u.company_id).getD 0))
        = some ({ sale2 with
          customer_id := pyOrId req.customer_id sale2.customer_id
          customer_name := pyOrStr req.customer_name sale2.customer_name
          customer_phone := pyOrStr req.customer_phone sale2.customer_phone
          payment_method := pyOrStrD req.payment_method sale2.payment_method
          total_amount := nt
          total_cost := nc
          total_profit := nt - nc } : Sale)
      rw [hsalesEq]
      exact find?_update_by_key (fun s => s.sid)
        (fun s => s.sid == sale2.sid && s.company == ((u.company_id).getD 0))
        db3.sales sale2
        ({ sale2 with
          customer_id := pyOrId req.customer_id sale2.customer_id
          customer_name := pyOrStr req.customer_name sale2.customer_name
          customer_phone := pyOrStr req.customer_phone sale2.customer_phone
          payment_method := pyOrStrD req.payment_method sale2.payment_method
          total_amount := nt
          total_cost := nc
          total_profit := nt - nc } : Sale)
        hndX hfindX hpredX
    · show pyOrId req.customer_id sale2.customer_id ≠ none
      unfold pyOrId
      by_cases ht : idT req.customer_id = true
      · rw [if_pos ht]
        cases hq : req.customer_id with
        | none => rw [hq] at ht; exact absurd ht (by simp [idT])
        | some k => simp
      · rw [if_neg ht, hcust]
        simp
    · intro hreqid
      constructor
      · show pyOrId req.customer_id sale2.customer_id = some c0
        unfold pyOrId
        rw [if_neg (by simp [hreqid]), hcust]
      · have hblock2 : ¬ ((idT req.customer_id
            && (req.customer_id != sale2.customer_id)) = true) := by
          rw [hreqid]
          simp
        have hcommit : db' = saveSale (saveCustomer db3
            { C0 with
              total_purchases := C0.total_purchases - sale2.total_amount + nt
              last_purchase_date := some db3.now })
            { sale2 with
              customer_id := pyOrId req.customer_id sale2.customer_id
              customer_name := pyOrStr req.customer_name sale2.customer_name
              customer_phone := pyOrStr req.customer_phone sale2.customer_phone
              payment_method := pyOrStrD req.payment_method sale2.payment_method
              total_amount := nt
              total_cost := nc
              total_profit := nt - nc } := by
          rw [hdb']
          simp only [updateCommit]
          rw [if_pos hblock1, hfind3, if_neg hblock2]
          rw [if_pos hblock1]
        refine ⟨{ C0 with
          total_purchases := C0.total_purchases - sale2.total_amount + nt
          last_purchase_date := some db3.now }, ?_, rfl, rfl⟩
        rw [hcommit]
        have hfind3b : db3.customers.find?
            (fun c => c.cid == c0 && c.company == ((u.company_id).getD 0)) = some C0 := by
          show findCustomer db3 c0 ((u.company_id).getD 0) = some C0
          rw [congrFun (congrFun (findCustomer_congr hcust3) c0) ((u.company_id).getD 0)]
          exact hfound
        have hnd3 : (db3.customers.map (fun c => c.cid)).Nodup := by
          rw [hcust3]
          exact hcnd
        have hkey : C0.cid = c0 ∧ C0.company = (u.company_id).getD 0 := by
          have := List.find?_some hfind3b
          simp only [Bool.and_eq_true, beq_iff_eq] at this
          exact this
        have hpredC : ((fun c => c.cid == c0 && c.company == ((u.company_id).getD 0))
            ({ C0 with
              total_purchases := C0.total_purchases - sale2.total_amount + nt
              last_purchase_date := some db3.now } : Customer)) = true := by
          show (C0.cid == c0 && C0.company == ((u.company_id).getD 0)) = true
          simp [hkey.1, hkey.2]
        exact find?_update_by_key (fun c => c.cid)
          (fun c => c.cid == c0 && c.company == ((u.company_id).getD 0))
          db3.customers C0
          ({ C0 with
            total_purchases := C0.total_purchases - sale2.total_amount + nt
            last_purchase_date := some db3.now } : Customer)
          hnd3 hfind3b hpredC

/-- Witness: a no-customer-field update of the linked sale of `dbC10` keeps
the link, the snapshot fields and the transaction count and reconciles the
purchases; a truthy-id update of the same sale also leaves the stored link
non-null. -/
theorem C10_customer_link_preserved_witness :
    (∃ s', findSale (update_sale 1 reqC10w actor1 dbC10).2 1 1 = some s' ∧
      s'.customer_id = pyOrId reqC10w.customer_id (some 7) ∧
      s'.customer_id ≠ none ∧
      s'.customer_name = pyOrStr reqC10w.customer_name (some ("Old")) ∧
      s'.customer_phone = pyOrStr reqC10w.customer_phone (some ("123")) ∧
      s'.payment_method = pyOrStrD reqC10w.payment_method "cash" ∧
      (idT reqC10w.customer_id = false →
        s'.customer_id = some 7 ∧
        ∃ C0', findCustomer (update_sale 1 reqC10w actor1 dbC10).2 7 1 = some C0' ∧
          C0'.total_purchases = 800 - 800 + s'.total_amount ∧
          C0'.total_transactions = 1)) ∧
    (∃ s', findSale (update_sale 1 reqC10t actor1 dbC10).2 1 1 = some s' ∧
      s'.customer_id ≠ none) := by
  constructor
  · exact C10_customer_link_preserved 1 reqC10w actor1 dbC10
      { sid := 1
        company := 1
        customer_id := some 7
        customer_name := some ("Old")
        customer_phone := some ("123")
        payment_method := "cash"
        total_amount := 800
        total_cost := 500
        total_profit := 300
        created_by := 1
        sale_date := 0 }
      7
      { cid := 7
        company := 1
        name := "Old"
        phone := "x"
        total_purchases := 800
        total_transactions := 1
        last_purchase_date := none }
      (some 1) (update_sale 1 reqC10w actor1 dbC10).2
      (by decide) (by decide) (by decide) rfl (by decide) (by decide) (by decide)
  · obtain ⟨s', h1, h2, h3, h4⟩ := C10_customer_link_preserved 1 reqC10t actor1 dbC10
      { sid := 1
        company := 1
        customer_id := some 7
        customer_name := some ("Old")
        customer_phone := some ("123")
        payment_method := "cash"
        total_amount := 800
        total_cost := 500
        total_profit := 300
        created_by := 1
        sale_date := 0 }
      7
      { cid := 7
        company := 1
        name := "Old"
        phone := "x"
        total_purchases := 800
        total_transactions := 1
        last_purchase_date := none }
      (some 1) (update_sale 1 reqC10t actor1 dbC10).2
      (by decide) (by decide) (by decide) rfl (by decide) (by decide) (by decide)
    exact ⟨s', h1, h3⟩

/-- C9: `get_sales` returns exactly the tenant's sales whose sale_date lies
within the optional inclusive start/end bounds, ordered most-recent-first by
sale date (the embedding is a pure function of the database, so the read
modifies no state by construction). -/
theorem C9_listing (db : DB) (company : Nat) (st en : Option Nat) :
    List.Sorted saleDateGe (get_sales db company st en) ∧
    (get_sales db company st en).Perm (db.sales.filter (fun s =>
      s.company == company && (st.all (fun d => decide (d ≤ s.sale_date))) &&
      (en.all (fun d => decide (s.sale_date ≤ d))))) ∧
    ∀ s : Sale, s ∈ get_sales db company st en ↔
      (s ∈ db.sales ∧ s.company = company ∧
       (∀ d, st = some d → d ≤ s.sale_date) ∧
       (∀ d, en = some d → s.sale_date ≤ d)) := by
  refine ⟨List.sorted_insertionSort _ _, ?_, ?_⟩
  · refine (List.perm_insertionSort saleDateGe _).trans ?_
    cases st <;> cases en <;>
      · refine List.Perm.of_eq ?_
        simp [get_sales, List.filter_filter, Option.all, Bool.and_comm,
          Bool.and_left_comm, Bool.and_assoc]
  · intro s
    simp only [get_sales, List.mem_insertionSort]
    cases st <;> cases en <;> simp [List.mem_filter, and_assoc] <;> tauto

/-- Under unique keys, `find?` on a member's own key returns that member. -/
theorem find?_mem_key_nodup {A B : Type} [DecidableEq B] (key : A → B)
    (l : List A) (a : A) (hnd : (l.map key).Nodup) (ha : a ∈ l) :
    l.find? (fun x => key x == key a) = some a := by
  induction l with
  | nil => cases ha
  | cons b l ih =>
    simp only [List.map_cons, List.nodup_cons] at hnd
    rcases List.mem_cons.mp ha with hab | ha'
    · subst hab
      simp [List.find?]
    · by_cases hk : key b = key a
      · exact absurd (hk ▸ List.mem_map_of_mem key ha') hnd.1
      · have : (key b == key a) = false := beq_eq_false_iff_ne.mpr hk
        rw [List.find?_cons_of_neg _ (by simp [this])]
        exact ih hnd.2 ha'

theorem cids_of_sig {l1 l2 : List Customer}
    (h : l1.map (fun c => (c.cid, c.company)) = l2.map (fun c => (c.cid, c.company))) :
    l1.map (fun c => c.cid) = l2.map (fun c => c.cid) := by
  have hm := congrArg (List.map Prod.fst) h
  simpa [List.map_map, Function.comp] using hm

theorem tenantStep_refl (t : Nat) (db : DB) : TenantStep t db db where
  prodSig := rfl
  custSig := rfl
  otherProducts := fun p hp _ => hp
  otherCustomers := fun c hc _ => hc
  otherSales := fun s hs _ => hs
  hist := ⟨[], by simp, by simp⟩

theorem tenantStep_trans {t : Nat} {db db' db'' : DB}
    (h1 : TenantStep t db db') (h2 : TenantStep t db' db'') :
    TenantStep t db db'' where
  prodSig := h2.prodSig.trans h1.prodSig
  custSig := h2.custSig.trans h1.custSig
  otherProducts := fun p hp hc => h2.otherProducts p (h1.otherProducts p hp hc) hc
  otherCustomers := fun c hc hn => h2.otherCustomers c (h1.otherCustomers c hc hn) hn
  otherSales := fun s hs hn => h2.otherSales s (h1.otherSales s hs hn) hn
  hist := by
    obtain ⟨r1, he1, hc1⟩ := h1.hist
    obtain ⟨r2, he2, hc2⟩ := h2.hist
    refine ⟨r1 ++ r2, ?_, ?_⟩
    · rw [he2, he1, List.append_assoc]
    · intro r hr
      rcases List.mem_append.mp hr with h | h
      · exact hc1 r h
      · exact hc2 r h

/-- Steps that only append sales or rewrite sale items leave every
tenant-relevant component alone. -/
theorem tenantStep_of_components (t : Nat) (db db' : DB)
    (hp : db'.products = db.products) (hc : db'.customers = db.customers)
    (hs : ∀ s ∈ db.sales, s ∈ db'.sales) (hh : db'.history = db.history) :
    TenantStep t db db' where
  prodSig := by rw [hp]
  custSig := by rw [hc]
  otherProducts := fun p hpm _ => by rw [hp]; exact hpm
  otherCustomers := fun c hcm _ => by rw [hc]; exact hcm
  otherSales := fun s hsm _ => hs s hsm
  hist := ⟨[], by simp [hh], by simp⟩

/-- A product save touching a tenant-`t` product (or no product at all) is a
tenant-`t` step. -/
theorem tenantStep_save (t : Nat) (db : DB) (pid : Nat) (v : Int)
    (hnd : PidsNodup db)
    (hcomp : ∀ c, companyOfPid db.products pid = some c → c = t) :
    TenantStep t db (saveProductStock db pid v) where
  prodSig := updStock_sig pid v db.products
  custSig := rfl
  otherProducts := by
    intro p hp hpc
    by_cases hpe : p.pid = pid
    · exfalso
      have hfind : db.products.find? (fun x => x.pid == p.pid) = some p :=
        find?_mem_key_nodup (fun x : Product => x.pid) db.products p
          (show (db.products.map (fun x : Product => x.pid)).Nodup from hnd) hp
      have : companyOfPid db.products pid = some p.company := by
        unfold companyOfPid
        rw [← hpe, hfind]
        rfl
      exact hpc (hcomp p.company this)
    · show p ∈ updStock pid v db.products
      have hm := List.mem_map_of_mem
        (fun q => if q.pid == pid then { q with current_stock := v } else q) hp
      simpa [updStock, hpe] using hm
  otherCustomers := fun c hc _ => hc
  otherSales := fun s hs _ => hs
  hist := ⟨[], by simp [saveProductStock], by simp⟩

/-- Appending a tenant-`t` ledger row is a tenant-`t` step. -/
theorem tenantStep_add (t : Nat) (db : DB) (row : ProductHistory)
    (hrow : row.company = t) : TenantStep t db (addHistory db row) where
  prodSig := rfl
  custSig := rfl
  otherProducts := fun p hp _ => hp
  otherCustomers := fun c hc _ => hc
  otherSales := fun s hs _ => hs
  hist := ⟨[row], rfl, by simp [hrow]⟩

/-- Overwriting a tenant-`t` customer row with one carrying the same key and
tenant is a tenant-`t` step. -/
theorem saveCustomer_tenant (t : Nat) (db : DB) (C upd : Customer)
    (hcnd : CidsNodup db) (hC : C ∈ db.customers)
    (hcid : upd.cid = C.cid) (hcomp : upd.company = C.company)
    (ht : C.company = t) : TenantStep t db (saveCustomer db upd) where
  prodSig := rfl
  custSig := by
    show (db.customers.map (fun c0 => if c0.cid == upd.cid then upd else c0)).map _ = _
    rw [List.map_map]
    apply List.map_congr_left
    intro c0 hc0
    simp only [Function.comp_apply]
    by_cases h0 : c0.cid = upd.cid
    · have hceq : c0 = C :=
        List.inj_on_of_nodup_map hcnd hc0 hC (by rw [h0, hcid])
      rw [if_pos (by simp [h0])]
      rw [hceq, hcid, hcomp]
    · rw [if_neg (by simp [h0])]
  otherProducts := fun p hp _ => hp
  otherCustomers := by
    intro c0 hc0 hne
    have h0 : c0.cid ≠ upd.cid := by
      intro hcontra
      have hceq : c0 = C :=
        List.inj_on_of_nodup_map hcnd hc0 hC (by rw [hcontra, hcid])
      exact hne (by rw [hceq, ht])
    show c0 ∈ db.customers.map (fun x => if x.cid == upd.cid then upd else x)
    have hm := List.mem_map_of_mem (fun x => if x.cid == upd.cid then upd else x) hc0
    simpa [h0] using hm
  otherSales := fun s hs _ => hs
  hist := ⟨[], by simp [saveCustomer], by simp⟩

/-- Overwriting a tenant-`t` sale row in place is a tenant-`t` step. -/
theorem saveSale_tenant (t : Nat) (db : DB) (S upd : Sale)
    (hsnd : SidsNodup db) (hS : S ∈ db.sales)
    (hsid : upd.sid = S.sid) (ht : S.company = t) :
    TenantStep t db (saveSale db upd) where
  prodSig := rfl
  custSig := rfl
  otherProducts := fun p hp _ => hp
  otherCustomers := fun c hc _ => hc
  otherSales := by
    intro s hs hne
    have h0 : s.sid ≠ upd.sid := by
      intro hcontra
      have hseq : s = S :=
        List.inj_on_of_nodup_map hsnd hs hS (by rw [hcontra, hsid])
      exact hne (by rw [hseq, ht])
    show s ∈ db.sales.map (fun x => if x.sid == upd.sid then upd else x)
    have hm := List.mem_map_of_mem (fun x => if x.sid == upd.sid then upd else x) hs
    simpa [h0] using hm
  hist := ⟨[], by simp [saveSale], by simp⟩

/-- Removing a sale row whose key can only belong to tenant `t` is a
tenant-`t` step. -/
theorem deleteSaleRow_tenant (t : Nat) (db : DB) (sid : Nat)
    (hsid : ∀ s ∈ db.sales, s.sid = sid → s.company = t) :
    TenantStep t db (deleteSaleRow db sid) where
  prodSig := rfl
  custSig := rfl
  otherProducts := fun p hp _ => hp
  otherCustomers := fun c hc _ => hc
  otherSales := by
    intro s hs hne
    show s ∈ db.sales.filter _
    refine List.mem_filter.mpr ⟨hs, ?_⟩
    have : s.sid ≠ sid := fun hcontra => hne (hsid s hs hcontra)
    simp [this]
  hist := ⟨[], by simp [deleteSaleRow], by simp⟩

/-- A resolved product tenant is visible in the product signature. -/
theorem companyOfPid_mem_sig {db : DB} {pid c : Nat}
    (h : companyOfPid db.products pid = some c) : (pid, c) ∈ ProdSig db := by
  unfold companyOfPid at h
  cases hf : db.products.find? (fun p => p.pid == pid) with
  | none => rw [hf] at h; simp at h
  | some p =>
    rw [hf] at h
    simp only [Option.map_some', Option.some.injEq] at h
    have hmem := List.mem_of_find?_eq_some hf
    have hpid : p.pid = pid := by simpa using List.find?_some hf
    have : (p.pid, p.company) ∈ ProdSig db := List.mem_map_of_mem _ hmem
    rwa [hpid, h] at this

/-- The stock-restoring loops are tenant-`t` steps whenever every touched
product resolves inside tenant `t`. -/
theorem creditLoop_tenant (tag pre : String) (t : Nat) (u : User)
    (items : List SaleItem) :
    ∀ db : DB, PidsNodup db →
      (∀ i ∈ items, ∀ c, companyOfPid db.products i.product_id = some c → c = t) →
      TenantStep t db (creditLoop tag pre t u items db) := by
  induction items with
  | nil => intro db _ _; exact tenantStep_refl t db
  | cons i rest ih =>
    intro db hnd hOK
    cases hf : findProductByPk db i.product_id with
    | none =>
      simp only [creditLoop, hf]
      exact ih db hnd (fun j hj => hOK j (List.mem_cons_of_mem i hj))
    | some product =>
      simp only [creditLoop, hf]
      have hpe : product.pid = i.product_id := by simpa using List.find?_some hf
      have hcomp : ∀ c, companyOfPid db.products product.pid = some c → c = t := by
        intro c hc
        exact hOK i (List.mem_cons_self i rest) c (hpe ▸ hc)
      have s1 := tenantStep_save t db product.pid (product.current_stock + i.quantity)
        hnd hcomp
      have s2 := tenantStep_add t
        (saveProductStock db product.pid (product.current_stock + i.quantity))
        { product_id := product.pid
          transaction_type := tag
          quantity_changed := i.quantity
          stock_before := product.current_stock
          stock_after := product.current_stock + i.quantity
          unit_price := i.unit_selling_price
          total_value := i.total_amount
          notes := pre ++ toString i.quantity ++ " units"
          created_by := u.uid
          company := t } rfl
      refine tenantStep_trans (tenantStep_trans s1 s2) ?_
      apply ih
      · show ((updStock product.pid _ db.products).map (fun p => p.pid)).Nodup
        rw [updStock_map_pid]
        exact hnd
      · intro j hj c hc
        refine hOK j (List.mem_cons_of_mem i hj) c ?_
        rw [← hc]
        exact (companyOfPid_updStock product.pid _ j.product_id db.products).symm

/-- One iteration of the new-item loop: append a sale item, save the product,
append a tenant-`t` ledger row. -/
theorem tenantStep_update_body (t : Nat) (db : DB) (its : List SaleItem)
    (pid : Nat) (v : Int) (row : ProductHistory)
    (hnd : PidsNodup db)
    (hcomp : ∀ c, companyOfPid db.products pid = some c → c = t)
    (hrow : row.company = t) :
    TenantStep t db (addHistory (saveProductStock { db with sale_items := its } pid v) row) := by
  have s0 : TenantStep t db { db with sale_items := its } :=
    tenantStep_of_components t db _ rfl rfl (fun s hs => hs) rfl
  have s1 : TenantStep t { db with sale_items := its }
      (saveProductStock { db with sale_items := its } pid v) :=
    tenantStep_save t { db with sale_items := its } pid v hnd hcomp
  have s2 := tenantStep_add t (saveProductStock { db with sale_items := its } pid v) row hrow
  exact tenantStep_trans (tenantStep_trans s0 s1) s2

/-- The new-item loop of `update_sale` is a tenant-`t` step: its lookups are
tenant-filtered and its ledger rows carry the acting tenant. -/
theorem updateItemsLoop_tenant (t : Nat) (u : User) (sid : Nat)
    (items : List ItemReq) :
    ∀ (db : DB) (tt cc : Int) (out : DB × Int × Int), PidsNodup db →
      updateItemsLoop t u sid items db tt cc = .ok out →
      TenantStep t db out.1 := by
  induction items with
  | nil =>
    intro db tt cc out _ h
    simp only [updateItemsLoop] at h
    cases h
    exact tenantStep_refl t db
  | cons i rest ih =>
    intro db tt cc out hnd h
    simp only [updateItemsLoop] at h
    cases hf : findProduct db i.product_id t with
    | none => rw [hf] at h; exact absurd h (by simp)
    | some product =>
      simp only [hf] at h
      by_cases hq : product.current_stock < i.quantity
      · rw [if_pos hq] at h; exact absurd h (by simp)
      · rw [if_neg hq] at h
        have hkey := List.find?_some hf
        simp only [Bool.and_eq_true, beq_iff_eq] at hkey
        have hcomp : ∀ c, companyOfPid db.products product.pid = some c → c = t := by
          intro c hc
          have := companyOfPid_of_find hnd hf
          rw [hkey.1, this] at hc
          exact (Option.some.injEq _ _ ▸ hc).symm
        refine tenantStep_trans ?_ (ih _ _ _ out ?_ h)
        · exact tenantStep_update_body t db _ product.pid _ _ hnd hcomp rfl
        · show ((updStock product.pid _ db.products).map (fun p => p.pid)).Nodup
          rw [updStock_map_pid]
          exact hnd

/-- The deferred product saves of `create_sale` are a tenant-`t` step. -/
theorem foldl_save_tenant (t : Nat) (pus : List (Nat × Int)) :
    ∀ db : DB, PidsNodup db →
      (∀ pu ∈ pus, ∀ c, companyOfPid db.products pu.1 = some c → c = t) →
      TenantStep t db (pus.foldl (fun d pu => saveProductStock d pu.1 pu.2) db) := by
  induction pus with
  | nil => intro db _ _; exact tenantStep_refl t db
  | cons pu rest ih =>
    intro db hnd hOK
    simp only [List.foldl_cons]
    have s1 := tenantStep_save t db pu.1 pu.2 hnd
      (fun c hc => hOK pu (List.mem_cons_self pu rest) c hc)
    refine tenantStep_trans s1 ?_
    apply ih
    · show ((updStock pu.1 pu.2 db.products).map (fun p => p.pid)).Nodup
      rw [updStock_map_pid]
      exact hnd
    · intro q hq c hc
      refine hOK q (List.mem_cons_of_mem pu hq) c ?_
      rw [← hc]
      exact (companyOfPid_updStock pu.1 pu.2 q.1 db.products).symm

/-- Facts carried by a successful tenant-filtered customer lookup. -/
theorem findCustomer_facts {db : DB} {cid t : Nat} {c : Customer}
    (hf : findCustomer db cid t = some c) :
    c ∈ db.customers ∧ c.cid = cid ∧ c.company = t := by
  have h1 := List.mem_of_find?_eq_some hf
  have h2 := List.find?_some hf
  simp only [Bool.and_eq_true, beq_iff_eq] at h2
  exact ⟨h1, h2.1, h2.2⟩

/-- Saving a customer row never changes the list of customer primary keys. -/
theorem saveCustomer_cids (d : DB) (c : Customer) :
    (saveCustomer d c).customers.map (fun x => x.cid)
      = d.customers.map (fun x => x.cid) := by
  show (d.customers.map _).map _ = _
  rw [List.map_map]
  apply List.map_congr_left
  intro c0 _
  simp only [Function.comp_apply]
  by_cases h : c0.cid = c.cid
  · rw [if_pos (by simp [h]), h]
  · rw [if_neg (by simp [h])]

theorem cidsNodup_save (d : DB) (c : Customer) (h : CidsNodup d) :
    CidsNodup (saveCustomer d c) := by
  show ((saveCustomer d c).customers.map (fun x => x.cid)).Nodup
  rw [saveCustomer_cids]
  exact h

/-- The aggregate decrement of `delete_sale` touches only a tenant-`t`
customer. -/
theorem deleteCustomerStage_tenant (t : Nat) (sale : Sale) (db : DB)
    (hcnd : CidsNodup db) : TenantStep t db (deleteCustomerStage sale t db) := by
  unfold deleteCustomerStage
  split
  · split
    · rename_i customer hf
      obtain ⟨hmem, _, hct⟩ := findCustomer_facts hf
      exact saveCustomer_tenant t db customer _ hcnd hmem rfl rfl hct
    · exact tenantStep_refl t db
  · exact tenantStep_refl t db

/-- The commit phase of `create_sale` is a tenant-`t` step. -/
theorem createCommit_tenant (req : SaleReq) (t : Nat) (u : User) (db : DB)
    (acc : CreateAcc) (hnd : PidsNodup db) (hcnd : CidsNodup db)
    (hacc : ∀ pu ∈ acc.product_updates, ∀ c, companyOfPid db.products pu.1 = some c → c = t) :
    TenantStep t db (createCommit req t u db acc).1 := by
  simp only [createCommit]
  cases hres : createResolved req t db with
  | none =>
    simp only [hres]
    refine tenantStep_trans ?_ (foldl_save_tenant t acc.product_updates _ ?_ ?_)
    · exact tenantStep_of_components t db _ rfl rfl
        (fun s hs => List.mem_append_left _ hs) rfl
    · exact hnd
    · exact hacc
  | some c =>
    simp only [hres]
    have hf : findCustomer db ((req.customer_id).getD 0) t = some c := by
      unfold createResolved at hres
      by_cases hid : idT req.customer_id
      · rwa [if_pos hid] at hres
      · rw [if_neg hid] at hres
        exact absurd hres (by simp)
    obtain ⟨hmem, _, hct⟩ := findCustomer_facts hf
    refine tenantStep_trans (saveCustomer_tenant t db c
      ({ c with
        total_purchases := c.total_purchases + acc.total_amount
        total_transactions := c.total_transactions + 1
        last_purchase_date := some db.now }) hcnd hmem rfl rfl hct) ?_
    refine tenantStep_trans ?_ (foldl_save_tenant t acc.product_updates _ ?_ ?_)
    · exact tenantStep_of_components t _ _ rfl rfl
        (fun s hs => List.mem_append_left _ hs) rfl
    · exact hnd
    · exact hacc

/-- The commit phase of `update_sale` is a tenant-`t` step: every customer it
touches is fetched with the tenant filter and the overwritten sale keeps its
key and tenant. -/
theorem updateCommit_tenant (sale : Sale) (prev : Int) (req : SaleReq) (t : Nat)
    (db : DB) (nt nc : Int) (hcnd : CidsNodup db) (hsnd : SidsNodup db)
    (hS : sale ∈ db.sales) (ht : sale.company = t) :
    TenantStep t db (updateCommit sale prev req t db nt nc) := by
  have hfin : ∀ d : DB, d.sales = db.sales →
      TenantStep t d (saveSale d
        ({ sale with
          customer_id := pyOrId req.customer_id sale.customer_id
          customer_name := pyOrStr req.customer_name sale.customer_name
          customer_phone := pyOrStr req.customer_phone sale.customer_phone
          payment_method := pyOrStrD req.payment_method sale.payment_method
          total_amount := nt
          total_cost := nc
          total_profit := nt - nc })) := by
    intro d hd
    refine saveSale_tenant t d sale _ ?_ ?_ rfl ht
    · show (d.sales.map (fun s => s.sid)).Nodup
      rw [hd]
      exact hsnd
    · rw [hd]
      exact hS
  simp only [updateCommit]
  cases h1 : idT sale.customer_id with
  | false =>
    simp only [Bool.false_eq_true, if_false]
    cases h2 : idT req.customer_id && req.customer_id != sale.customer_id with
    | false =>
      simp only [Bool.false_eq_true, if_false]
      exact hfin db rfl
    | true =>
      simp only [eq_self_iff_true, if_true]
      cases hf3 : findCustomer db ((req.customer_id).getD 0) t with
      | none =>
        simp only [hf3]
        exact hfin db rfl
      | some n3 =>
        simp only [hf3]
        obtain ⟨hm3, _, hc3⟩ := findCustomer_facts hf3
        refine tenantStep_trans (saveCustomer_tenant t db n3
          ({ n3 with
            total_purchases := n3.total_purchases + nt
            total_transactions := n3.total_transactions + 1
            last_purchase_date := some db.now }) hcnd hm3 rfl rfl hc3) ?_
        exact hfin _ rfl
  | true =>
    simp only [eq_self_iff_true, if_true]
    cases hf1 : findCustomer db ((sale.customer_id).getD 0) t with
    | none =>
      simp only [hf1]
      cases h2 : idT req.customer_id && req.customer_id != sale.customer_id with
      | false =>
        simp only [Bool.false_eq_true, if_false]
        exact hfin db rfl
      | true =>
        simp only [eq_self_iff_true, if_true]
        cases hf3 : findCustomer db ((req.customer_id).getD 0) t with
        | none =>
          simp only [hf3]
          exact hfin db rfl
        | some n3 =>
          simp only [hf3]
          obtain ⟨hm3, _, hc3⟩ := findCustomer_facts hf3
          refine tenantStep_trans (saveCustomer_tenant t db n3
            ({ n3 with
              total_purchases := n3.total_purchases + nt
              total_transactions := n3.total_transactions + 1
              last_purchase_date := some db.now }) hcnd hm3 rfl rfl hc3) ?_
          exact hfin _ rfl
    | some o1 =>
      simp only [hf1]
      obtain ⟨hm1, _, hc1⟩ := findCustomer_facts hf1
      have s1 := saveCustomer_tenant t db o1
        ({ o1 with
          total_purchases := o1.total_purchases - prev + nt
          last_purchase_date := some db.now }) hcnd hm1 rfl rfl hc1
      cases h2 : idT req.customer_id && req.customer_id != sale.customer_id with
      | false =>
        simp only [Bool.false_eq_true, if_false]
        exact tenantStep_trans s1 (hfin _ rfl)
      | true =>
        simp only [eq_self_iff_true, if_true]
        cases hf2 : findCustomer (saveCustomer db
            ({ o1 with
              total_purchases := o1.total_purchases - prev + nt
              last_purchase_date := some db.now })) ((sale.customer_id).getD 0) t with
        | none =>
          simp only [hf2]
          cases hf3 : findCustomer (saveCustomer db
              ({ o1 with
                total_purchases := o1.total_purchases - prev + nt
                last_purchase_date := some db.now })) ((req.customer_id).getD 0) t with
          | none =>
            simp only [hf3]
            exact tenantStep_trans s1 (hfin _ rfl)
          | some n3 =>
            simp only [hf3]
            obtain ⟨hm3, _, hc3⟩ := findCustomer_facts hf3
            have s3 := saveCustomer_tenant t _ n3
              ({ n3 with
                total_purchases := n3.total_purchases + nt
                total_transactions := n3.total_transactions + 1
                last_purchase_date := some db.now })
              (cidsNodup_save db _ hcnd) hm3 rfl rfl hc3
            exact tenantStep_trans s1 (tenantStep_trans s3 (hfin _ rfl))
        | some o2 =>
          simp only [hf2]
          obtain ⟨hm2, _, hc2⟩ := findCustomer_facts hf2
          have s2 := saveCustomer_tenant t _ o2
            ({ o2 with
              total_purchases := o2.total_purchases - nt
              total_transactions := o2.total_transactions - 1 })
            (cidsNodup_save db _ hcnd) hm2 rfl rfl hc2
          cases hf3 : findCustomer (saveCustomer (saveCustomer db
              ({ o1 with
                total_purchases := o1.total_purchases - prev + nt
                last_purchase_date := some db.now }))
              ({ o2 with
                total_purchases := o2.total_purchases - nt
                total_transactions := o2.total_transactions - 1 }))
              ((req.customer_id).getD 0) t with
          | none =>
            simp only [hf3]
            exact tenantStep_trans s1 (tenantStep_trans s2 (hfin _ rfl))
          | some n3 =>
            simp only [hf3]
            obtain ⟨hm3, _, hc3⟩ := findCustomer_facts hf3
            have s3 := saveCustomer_tenant t _ n3
              ({ n3 with
                total_purchases := n3.total_purchases + nt
                total_transactions := n3.total_transactions + 1
                last_purchase_date := some db.now })
              (cidsNodup_save _ _ (cidsNodup_save db _ hcnd)) hm3 rfl rfl hc3
            exact tenantStep_trans s1 (tenantStep_trans s2
              (tenantStep_trans s3 (hfin _ rfl)))

theorem findSale_facts {db : DB} {sid t : Nat} {s : Sale}
    (hf : findSale db sid t = some s) :
    s ∈ db.sales ∧ s.sid = sid ∧ s.company = t := by
  have h1 := List.mem_of_find?_eq_some hf
  have h2 := List.find?_some hf
  simp only [Bool.and_eq_true, beq_iff_eq] at h2
  exact ⟨h1, h2.1, h2.2⟩

theorem tenantStep_pidsNodup {t : Nat} {db db' : DB} (h : TenantStep t db db')
    (hnd : PidsNodup db) : PidsNodup db' := by
  show (db'.products.map (fun p => p.pid)).Nodup
  rw [pids_of_sig h.prodSig]
  exact hnd

theorem tenantStep_cidsNodup {t : Nat} {db db' : DB} (h : TenantStep t db db')
    (hnd : CidsNodup db) : CidsNodup db' := by
  show (db'.customers.map (fun c => c.cid)).Nodup
  rw [cids_of_sig h.custSig]
  exact hnd

theorem deleteCustomerStage_sales (sale : Sale) (company : Nat) (db : DB) :
    (deleteCustomerStage sale company db).sales = db.sales := by
  unfold deleteCustomerStage
  repeat' split
  all_goals rfl

/-- Under `ItemsSameTenant`, every item of a stored sale resolves to a product
of that sale's tenant. -/
theorem itemsOf_company {db : DB} {sale : Sale} (hist : ItemsSameTenant db)
    (hS : sale ∈ db.sales) :
    ∀ i ∈ itemsOf db sale.sid, ∀ c,
      companyOfPid db.products i.product_id = some c → c = sale.company := by
  intro i hi c hc
  have hi' := List.mem_filter.mp hi
  have hsid : i.sale_id = sale.sid := by simpa using hi'.2
  exact hist i hi'.1 sale hS hsid.symm (i.product_id, c) (companyOfPid_mem_sig hc) rfl

/-- A committed `delete_sale` by a tenant-`t` actor is a tenant-`t` step. -/
theorem delete_sale_tenant (sid : Nat) (u : User) (t : Nat) (db : DB)
    (hinv : TenantInv db) (hu : u.company_id = some t) :
    TenantStep t db (delete_sale sid u db).2 := by
  simp only [delete_sale]
  by_cases hc : idT u.company_id
  · rw [if_pos hc]
    have hgd : (u.company_id).getD 0 = t := by rw [hu]; rfl
    rw [hgd]
    cases hf : findSale db sid t with
    | none =>
      simp only [hf]
      exact tenantStep_refl t db
    | some sale =>
      simp only [hf]
      obtain ⟨hSm, hsid2, hscomp⟩ := findSale_facts hf
      have s1 : TenantStep t db (cancelLoop t u (itemsOf db sale.sid) db) :=
        creditLoop_tenant "Sale Cancellation" "Sale cancellation - restored " t u
          (itemsOf db sale.sid) db hinv.pnd
          (fun i hi c hc2 => by
            rw [← hscomp]
            exact itemsOf_company hinv.ist hSm i hi c hc2)
      have hcnd1 : CidsNodup (cancelLoop t u (itemsOf db sale.sid) db) :=
        tenantStep_cidsNodup s1 hinv.cnd
      have s2 := deleteCustomerStage_tenant t sale _ hcnd1
      have s3 := tenantStep_of_components t
        (deleteCustomerStage sale t (cancelLoop t u (itemsOf db sale.sid) db))
        (deleteItemsDB (deleteCustomerStage sale t
          (cancelLoop t u (itemsOf db sale.sid) db)) sale.sid)
        rfl rfl (fun s hs => hs) rfl
      have hsales3 : (deleteItemsDB (deleteCustomerStage sale t
          (cancelLoop t u (itemsOf db sale.sid) db)) sale.sid).sales = db.sales := by
        show (deleteCustomerStage sale t
          (cancelLoop t u (itemsOf db sale.sid) db)).sales = db.sales
        rw [deleteCustomerStage_sales]
        exact (creditLoop_frame "Sale Cancellation" "Sale cancellation - restored " t u
          (itemsOf db sale.sid) db).2.1
      have s4 := deleteSaleRow_tenant t
        (deleteItemsDB (deleteCustomerStage sale t
          (cancelLoop t u (itemsOf db sale.sid) db)) sale.sid) sale.sid
        (by
          intro s hs hsidEq
          rw [hsales3] at hs
          have hseq : s = sale := List.inj_on_of_nodup_map hinv.snd hs hSm hsidEq
          rw [hseq]
          exact hscomp)
      exact tenantStep_trans s1 (tenantStep_trans s2 (tenantStep_trans s3 s4))
  · rw [if_neg hc]
    exact tenantStep_refl t db

/-- A committed `update_sale` by a tenant-`t` actor is a tenant-`t` step. -/
theorem update_sale_tenant (sid : Nat) (req : SaleReq) (u : User) (t : Nat)
    (db : DB) (hinv : TenantInv db) (hu : u.company_id = some t) :
    TenantStep t db (update_sale sid req u db).2 := by
  simp only [update_sale]
  by_cases hc : idT u.company_id
  · rw [if_pos hc]
    have hgd : (u.company_id).getD 0 = t := by rw [hu]; rfl
    rw [hgd]
    cases hb : updateSaleBody sid req t u db with
    | error e =>
      simp only [hb]
      exact tenantStep_refl t db
    | ok out =>
      obtain ⟨db', r⟩ := out
      simp only [hb]
      unfold updateSaleBody at hb
      cases hf : findSale db sid t with
      | none =>
        rw [hf] at hb
        simp only [Except.ok.injEq, Prod.mk.injEq] at hb
        show TenantStep t db db'
        rw [← hb.1]
        exact tenantStep_refl t db
      | some sale =>
        simp only [hf] at hb
        cases hloop : updateItemsLoop t u sale.sid req.items
            (deleteItemsDB (reversalLoop t u (itemsOf db sale.sid) db) sale.sid) 0 0 with
        | error e => rw [hloop] at hb; exact absurd hb (by simp)
        | ok out2 =>
          obtain ⟨db3, nt, nc⟩ := out2
          rw [hloop] at hb
          simp only [Except.ok.injEq, Prod.mk.injEq] at hb
          show TenantStep t db db'
          rw [← hb.1]
          obtain ⟨hSm, hsid2, hscomp⟩ := findSale_facts hf
          have s1 : TenantStep t db (reversalLoop t u (itemsOf db sale.sid) db) :=
            creditLoop_tenant "Sale Update (Reversal)"
              "Reversal before sale update - restored " t u
              (itemsOf db sale.sid) db hinv.pnd
              (fun i hi c hc2 => by
                rw [← hscomp]
                exact itemsOf_company hinv.ist hSm i hi c hc2)
          have s2 := tenantStep_of_components t
            (reversalLoop t u (itemsOf db sale.sid) db)
            (deleteItemsDB (reversalLoop t u (itemsOf db sale.sid) db) sale.sid)
            rfl rfl (fun s hs => hs) rfl
          have hnd2 : PidsNodup (deleteItemsDB (reversalLoop t u
              (itemsOf db sale.sid) db) sale.sid) :=
            tenantStep_pidsNodup (tenantStep_trans s1 s2) hinv.pnd
          have s3 : TenantStep t (deleteItemsDB (reversalLoop t u
              (itemsOf db sale.sid) db) sale.sid) db3 :=
            updateItemsLoop_tenant t u sale.sid req.items _ 0 0 (db3, nt, nc) hnd2 hloop
          have s123 := tenantStep_trans (tenantStep_trans s1 s2) s3
          have hup := updateItemsLoop_frame t u sale.sid req.items _ 0 0 (db3, nt, nc) hloop
          have hsales3 : db3.sales = db.sales := by
            have h2' : db3.sales = (reversalLoop t u (itemsOf db sale.sid) db).sales :=
              hup.2.1
            have h3' : (reversalLoop t u (itemsOf db sale.sid) db).sales = db.sales :=
              (creditLoop_frame "Sale Update (Reversal)"
                "Reversal before sale update - restored " t u
                (itemsOf db sale.sid) db).2.1
            exact h2'.trans h3'
          have hcnd3 : CidsNodup db3 := tenantStep_cidsNodup s123 hinv.cnd
          have hsnd3 : SidsNodup db3 := by
            show (db3.sales.map (fun s => s.sid)).Nodup
            rw [hsales3]
            exact hinv.snd
          have hSm3 : sale ∈ db3.sales := by
            rw [hsales3]
            exact hSm
          exact tenantStep_trans s123
            (updateCommit_tenant sale sale.total_amount req t db3 nt nc
              hcnd3 hsnd3 hSm3 hscomp)
  · rw [if_neg hc]
    exact tenantStep_refl t db

/-- A committed `create_sale` by a tenant-`t` actor is a tenant-`t` step. -/
theorem create_sale_tenant (req : SaleReq) (u : User) (t : Nat) (db : DB)
    (hinv : TenantInv db) (hu : u.company_id = some t) :
    TenantStep t db (create_sale req u db).2 := by
  simp only [create_sale]
  by_cases hc : idT u.company_id
  · rw [if_pos hc]
    have hgd : (u.company_id).getD 0 = t := by rw [hu]; rfl
    rw [hgd]
    cases hb : createSaleBody req t u db with
    | error e =>
      simp only [hb]
      exact tenantStep_refl t db
    | ok out =>
      obtain ⟨db', sid'⟩ := out
      simp only [hb]
      unfold createSaleBody at hb
      cases hloop : createItemsLoop t u req.items db
          { total_amount := 0, total_cost := 0, items_data := [], product_updates := [] } with
      | error e => rw [hloop] at hb; exact absurd hb (by simp)
      | ok lr =>
        obtain ⟨db1, acc⟩ := lr
        simp only [hloop] at hb
        by_cases hfk : fkCustomerOk db1 (mkSaleHeader req t u db1 acc).customer_id = true
        case neg => rw [if_neg hfk] at hb; exact absurd hb (by simp)
        rw [if_pos hfk] at hb
        simp only [Except.ok.injEq] at hb
        have hdb1 : (createCommit req t u db1 acc).1 = db' := by
          rw [hb]
        show TenantStep t db db'
        rw [← hdb1]
        obtain ⟨hp1, hc1, hs1, hsi1, hn1, hnow1, hh1, hid1, hpu1, hcof⟩ :=
          createItemsLoop_spec t u req.items db
            { total_amount := 0, total_cost := 0, items_data := [], product_updates := [] }
            (db1, acc) hinv.pnd hloop
        have s1 : TenantStep t db db1 :=
          { prodSig := by rw [hp1]
            custSig := by rw [hc1]
            otherProducts := fun p hp _ => by rw [hp1]; exact hp
            otherCustomers := fun c hcm _ => by rw [hc1]; exact hcm
            otherSales := fun s hsm _ => by rw [hs1]; exact hsm
            hist := by
              refine ⟨req.items.map (mkCreateRow db t u), hh1, ?_⟩
              intro r hr
              obtain ⟨i, _, hri⟩ := List.mem_map.mp hr
              rw [← hri]
              rfl }
        have hnd1 : PidsNodup db1 := by
          show (db1.products.map (fun p => p.pid)).Nodup
          rw [hp1]
          exact hinv.pnd
        have hcnd1 : CidsNodup db1 := by
          show (db1.customers.map (fun c => c.cid)).Nodup
          rw [hc1]
          exact hinv.cnd
        have hacc1 : ∀ pu ∈ acc.product_updates, ∀ c,
            companyOfPid db1.products pu.1 = some c → c = t := by
          intro pu hpu c hcomp'
          rw [hpu1] at hpu
          obtain ⟨i, hi, hpi⟩ := List.mem_map.mp (by simpa using hpu)
          rw [hp1] at hcomp'
          rw [← hpi] at hcomp'
          have := hcof i hi
          rw [this] at hcomp'
          exact (Option.some.injEq t c ▸ hcomp').symm
        exact tenantStep_trans s1 (createCommit_tenant req t u db1 acc hnd1 hcnd1 hacc1)
  · rw [if_neg hc]
    exact tenantStep_refl t db

/-- C8: false as stated — the stock-restoring loops of `update_sale` (line
138) and `delete_sale` (line 285) fetch products by bare primary key with no
company filter, so a tenant-1 delete credits stock back to a tenant-2 product
referenced by the sale's items. -/
theorem C8_counterexample :
    actor1.company_id = some 1 ∧
    companyOfPid dbC8.products 9 = some 2 ∧
    (delete_sale 1 actor1 dbC8).1 = .ok true ∧
    stockOf dbC8 9 = 5 ∧
    stockOf (delete_sale 1 actor1 dbC8).2 9 = 7 := by
  decide

/-- C8 (amended): under the well-formedness bundle `TenantInv` — unique
primary keys plus `ItemsSameTenant`, i.e. every stored sale item references a
product of its sale's own tenant — each of the three operations invoked by a
tenant-`t` actor is a tenant-`t` step: product and customer key/tenant
signatures are preserved, rows of other tenants survive untouched, and every
new history row carries tenant `t`.  The `ItemsSameTenant` hypothesis is
forced by the unfiltered reversal fetches exhibited in the counterexample. -/
theorem C8_tenant_isolation (u : User) (t : Nat) (db : DB)
    (hinv : TenantInv db) (hu : u.company_id = some t) :
    (∀ req, TenantStep t db (create_sale req u db).2) ∧
    (∀ sid req, TenantStep t db (update_sale sid req u db).2) ∧
    (∀ sid, TenantStep t db (delete_sale sid u db).2) :=
  ⟨fun req => create_sale_tenant req u t db hinv hu,
   fun sid req => update_sale_tenant sid req u t db hinv hu,
   fun sid => delete_sale_tenant sid u t db hinv hu⟩

/-- Witness: the tenant-isolation theorem applied to a concrete two-tenant
database satisfying the well-formedness bundle. -/
theorem C8_tenant_isolation_witness :
    TenantStep 1 dbC8w (create_sale reqC8w actor1 dbC8w).2 ∧
    TenantStep 1 dbC8w (delete_sale 1 actor1 dbC8w).2 :=
  have h := C8_tenant_isolation actor1 1 dbC8w
    ⟨by decide, by decide, by decide, by decide, by decide⟩ rfl
  ⟨h.1 reqC8w, h.2.2 1⟩

theorem filter_append_single (p : Sale → Bool) (m : List Sale) (x : Sale) :
    (m ++ [x]).filter p = m.filter p ++ (if p x then [x] else []) := by
  cases hx : p x <;> simp [List.filter_append, List.filter_cons, hx]

/-- Replacing the unique sale with a given key changes a filtered sum by
swapping that sale's contribution. -/
theorem replace_filter_agg (x x' : Sale) (p : Sale → Bool) :
    ∀ m : List Sale, (m.map (fun s => s.sid)).Nodup → x ∈ m → x'.sid = x.sid →
    ((((m.map (fun s0 => if s0.sid == x'.sid then x' else s0)).filter p).map
        (fun s => s.total_amount)).sum + (if p x then x.total_amount else 0)
      = ((m.filter p).map (fun s => s.total_amount)).sum
        + (if p x' then x'.total_amount else 0)) ∧
    (((m.map (fun s0 => if s0.sid == x'.sid then x' else s0)).filter p).length
        + (if p x then 1 else 0)
      = (m.filter p).length + (if p x' then 1 else 0)) := by
  intro m
  induction m with
  | nil => intro _ hx; cases hx
  | cons a l ih =>
    intro hnd hxm hsid
    simp only [List.map_cons, List.nodup_cons] at hnd
    obtain ⟨hnin, hnd'⟩ := hnd
    rcases List.mem_cons.mp hxm with hxa | hxl
    · subst hxa
      have hrepl : (x.sid == x'.sid) = true := by simp [hsid]
      have hmap : l.map (fun s0 => if s0.sid == x'.sid then x' else s0) = l := by
        have : ∀ s ∈ l, (fun s0 => if s0.sid == x'.sid then x' else s0) s = s := by
          intro s hs
          have hne : s.sid ≠ x'.sid := by
            rw [hsid]
            intro hcontra
            exact hnin (hcontra ▸ List.mem_map_of_mem (fun q => q.sid) hs)
          simp only [if_neg (show ¬ ((s.sid == x'.sid) = true) from by simp [hne])]
        exact (List.map_congr_left this).trans l.map_id
      simp only [List.map_cons, hrepl, if_true, hmap]
      cases hpx : p x <;> cases hpx' : p x' <;>
        simp [List.filter_cons, hpx, hpx'] <;> omega
    · have hne : a.sid ≠ x.sid := by
        intro hcontra
        exact hnin (hcontra ▸ List.mem_map_of_mem (fun q => q.sid) hxl)
      have hrepl : (a.sid == x'.sid) = false := by
        rw [hsid]
        simp [hne]
      obtain ⟨ihs, ihl⟩ := ih hnd' hxl hsid
      simp only [List.map_cons, hrepl, Bool.false_eq_true, if_false]
      cases hpa : p a <;>
        simp only [List.filter_cons, hpa, Bool.false_eq_true, if_true, if_false,
          List.map_cons, List.sum_cons, List.length_cons] <;> omega

/-- Removing the unique sale with a given key removes exactly its
contribution from a filtered sum. -/
theorem remove_filter_agg (x : Sale) (p : Sale → Bool) :
    ∀ m : List Sale, (m.map (fun s => s.sid)).Nodup → x ∈ m →
    ((((m.filter (fun s0 => !(s0.sid == x.sid))).filter p).map
        (fun s => s.total_amount)).sum + (if p x then x.total_amount else 0)
      = ((m.filter p).map (fun s => s.total_amount)).sum) ∧
    (((m.filter (fun s0 => !(s0.sid == x.sid))).filter p).length
        + (if p x then 1 else 0)
      = (m.filter p).length) := by
  intro m
  induction m with
  | nil => intro _ hx; cases hx
  | cons a l ih =>
    intro hnd hxm
    simp only [List.map_cons, List.nodup_cons] at hnd
    obtain ⟨hnin, hnd'⟩ := hnd
    rcases List.mem_cons.mp hxm with hxa | hxl
    · subst hxa
      have hkeep : l.filter (fun s0 => !(s0.sid == x.sid)) = l := by
        apply List.filter_eq_self.mpr
        intro s hs
        have hne : s.sid ≠ x.sid := by
          intro hcontra
          exact hnin (hcontra ▸ List.mem_map_of_mem (fun q => q.sid) hs)
        simp [hne]
      simp only [List.filter_cons, beq_self_eq_true, Bool.not_true, Bool.false_eq_true,
        if_false, hkeep]
      cases hpx : p x <;>
        simp only [hpx, Bool.false_eq_true, if_true, if_false, List.map_cons,
          List.sum_cons, List.length_cons] <;>
        exact ⟨by omega, by trivial⟩
    · have hne : a.sid ≠ x.sid := by
        intro hcontra
        exact hnin (hcontra ▸ List.mem_map_of_mem (fun q => q.sid) hxl)
      obtain ⟨ihs, ihl⟩ := ih hnd' hxl
      have hka : (!(a.sid == x.sid)) = true := by simp [hne]
      simp only [List.filter_cons, hka, if_true]
      cases hpa : p a <;>
        simp only [List.filter_cons, hpa, Bool.false_eq_true, if_true, if_false,
          List.map_cons, List.sum_cons, List.length_cons] <;> omega

theorem salesOf_append (db db' : DB) (x : Sale) (cid : Nat)
    (h : db'.sales = db.sales ++ [x]) :
    salesOf db' cid = salesOf db cid
      ++ (if (x.customer_id == some cid) then [x] else []) := by
  unfold salesOf
  rw [h, filter_append_single]

/-- Aggregate transfer for an operation that appends one sale and rewrites
each customer row by exactly the appended sale's contribution. -/
theorem agg_append (db db' : DB) (x : Sale) (F : Customer → Customer)
    (hagg : AggConsistent db)
    (hcust : db'.customers = db.customers.map F)
    (hsales : db'.sales = db.sales ++ [x])
    (hF : ∀ c ∈ db.customers, (F c).cid = c.cid ∧
      (F c).total_purchases = c.total_purchases
        + (if x.customer_id == some c.cid then x.total_amount else 0) ∧
      (F c).total_transactions = c.total_transactions
        + (if x.customer_id == some c.cid then 1 else 0)) :
    AggConsistent db' := by
  intro x' hx'
  rw [hcust] at hx'
  obtain ⟨c, hc, hce⟩ := List.mem_map.mp hx'
  obtain ⟨hcid, hp, ht⟩ := hF c hc
  obtain ⟨hps, hts⟩ := hagg c hc
  subst hce
  rw [hcid, salesOf_append db db' x c.cid hsales]
  cases hpx : (x.customer_id == some c.cid) <;>
    simp only [hpx, Bool.false_eq_true, eq_self_iff_true, if_true, if_false] at hp ht <;>
    simp only [hpx, Bool.false_eq_true, eq_self_iff_true, if_true, if_false,
      List.append_nil, List.map_append, List.sum_append, List.map_cons, List.map_nil,
      List.sum_cons, List.sum_nil, List.length_append, List.length_cons,
      List.length_nil] <;>
    exact ⟨by omega, by omega⟩

/-- Aggregate transfer for an operation that removes one sale (by its unique
key) and rewrites each customer row by exactly that sale's contribution. -/
theorem agg_remove (db db' : DB) (x : Sale) (F : Customer → Customer)
    (hsnd : SidsNodup db) (hagg : AggConsistent db) (hxm : x ∈ db.sales)
    (hcust : db'.customers = db.customers.map F)
    (hsales : db'.sales = db.sales.filter (fun s0 => !(s0.sid == x.sid)))
    (hF : ∀ c ∈ db.customers, (F c).cid = c.cid ∧
      (F c).total_purchases
        + (if x.customer_id == some c.cid then x.total_amount else 0)
        = c.total_purchases ∧
      (F c).total_transactions + (if x.customer_id == some c.cid then 1 else 0)
        = c.total_transactions) :
    AggConsistent db' := by
  intro x' hx'
  rw [hcust] at hx'
  obtain ⟨c, hc, hce⟩ := List.mem_map.mp hx'
  obtain ⟨hcid, hp, ht⟩ := hF c hc
  obtain ⟨hps, hts⟩ := hagg c hc
  subst hce
  obtain ⟨hsum, hlen⟩ := remove_filter_agg x (fun s => s.customer_id == some c.cid)
    db.sales hsnd hxm
  have hso : salesOf db' c.cid
      = (db.sales.filter (fun s0 => !(s0.sid == x.sid))).filter
          (fun s => s.customer_id == some c.cid) := by
    unfold salesOf
    rw [hsales]
  have hps' : c.total_purchases
      = ((db.sales.filter (fun s => s.customer_id == some c.cid)).map
          (fun s => s.total_amount)).sum := hps
  have hts' : c.total_transactions
      = ((db.sales.filter (fun s => s.customer_id == some c.cid)).length : Int) := hts
  constructor
  · show (F c).total_purchases = ((salesOf db' (F c).cid).map (fun s => s.total_amount)).sum
    rw [hcid, hso]
    cases hpx : (x.customer_id == some c.cid) <;>
      simp only [hpx, Bool.false_eq_true, eq_self_iff_true, if_true, if_false]
        at hp hsum <;> omega
  · show (F c).total_transactions = ((salesOf db' (F c).cid).length : Int)
    rw [hcid, hso]
    cases hpx : (x.customer_id == some c.cid) <;>
      simp only [hpx, Bool.false_eq_true, eq_self_iff_true, if_true, if_false]
        at ht hlen <;> omega

/-- Aggregate transfer for an operation that overwrites one sale in place (by
its unique key) and rewrites each customer row by exactly the swap of the two
sales' contributions. -/
theorem agg_replace (db db' : DB) (x x' : Sale) (F : Customer → Customer)
    (hsnd : SidsNodup db) (hagg : AggConsistent db) (hxm : x ∈ db.sales)
    (hsid : x'.sid = x.sid)
    (hcust : db'.customers = db.customers.map F)
    (hsales : db'.sales = db.sales.map (fun s0 => if s0.sid == x'.sid then x' else s0))
    (hF : ∀ c ∈ db.customers, (F c).cid = c.cid ∧
      (F c).total_purchases
          + (if x.customer_id == some c.cid then x.total_amount else 0)
        = c.total_purchases
          + (if x'.customer_id == some c.cid then x'.total_amount else 0) ∧
      (F c).total_transactions + (if x.customer_id == some c.cid then 1 else 0)
        = c.total_transactions
          + (if x'.customer_id == some c.cid then 1 else 0)) :
    AggConsistent db' := by
  intro y hy
  rw [hcust] at hy
  obtain ⟨c, hc, hce⟩ := List.mem_map.mp hy
  obtain ⟨hcid, hp, ht⟩ := hF c hc
  obtain ⟨hps, hts⟩ := hagg c hc
  subst hce
  obtain ⟨hsum, hlen⟩ := replace_filter_agg x x'
    (fun s => s.customer_id == some c.cid) db.sales hsnd hxm hsid
  have hso : salesOf db' c.cid
      = (db.sales.map (fun s0 => if s0.sid == x'.sid then x' else s0)).filter
          (fun s => s.customer_id == some c.cid) := by
    unfold salesOf
    rw [hsales]
  have hps' : c.total_purchases
      = ((db.sales.filter (fun s => s.customer_id == some c.cid)).map
          (fun s => s.total_amount)).sum := hps
  have hts' : c.total_transactions
      = ((db.sales.filter (fun s => s.customer_id == some c.cid)).length : Int) := hts
  constructor
  · show (F c).total_purchases = ((salesOf db' (F c).cid).map (fun s => s.total_amount)).sum
    rw [hcid, hso]
    cases hpx : (x.customer_id == some c.cid) <;>
      cases hpx' : (x'.customer_id == some c.cid) <;>
      simp only [hpx, hpx', Bool.false_eq_true, eq_self_iff_true, if_true, if_false]
        at hp hsum <;> omega
  · show (F c).total_transactions = ((salesOf db' (F c).cid).length : Int)
    rw [hcid, hso]
    cases hpx : (x.customer_id == some c.cid) <;>
      cases hpx' : (x'.customer_id == some c.cid) <;>
      simp only [hpx, hpx', Bool.false_eq_true, eq_self_iff_true, if_true, if_false]
        at ht hlen <;> omega

/-- Saving a customer row is invisible to lookups of a different key. -/
theorem find?_save_other_list (l : List Customer) (c : Customer) (cid t : Nat)
    (h : cid ≠ c.cid) :
    (l.map (fun c0 => if c0.cid == c.cid then c else c0)).find?
      (fun c0 => c0.cid == cid && c0.company == t)
      = l.find? (fun c0 => c0.cid == cid && c0.company == t) := by
  induction l with
  | nil => rfl
  | cons a l ih =>
    by_cases ha : a.cid = c.cid
    · have hpc : (c.cid == cid && c.company == t) = false := by
        simp [show c.cid ≠ cid from fun hcc => h hcc.symm]
      have hpa : (a.cid == cid && a.company == t) = false := by
        simp [show a.cid ≠ cid from by rw [ha]; exact fun hcc => h hcc.symm]
      rw [List.map_cons, if_pos (by simp [ha])]
      rw [List.find?_cons_of_neg _ (by simp [hpc]),
        List.find?_cons_of_neg _ (by simp [hpa])]
      exact ih
    · rw [List.map_cons, if_neg (by simp [ha])]
      cases hpa : (a.cid == cid && a.company == t) with
      | true =>
        rw [List.find?_cons_of_pos _ (by simp [hpa]),
          List.find?_cons_of_pos _ (by simp [hpa])]
      | false =>
        rw [List.find?_cons_of_neg _ (by simp [hpa]),
          List.find?_cons_of_neg _ (by simp [hpa])]
        exact ih

theorem findCustomer_save_other (db : DB) (c : Customer) (cid t : Nat)
    (h : cid ≠ c.cid) :
    findCustomer (saveCustomer db c) cid t = findCustomer db cid t :=
  find?_save_other_list db.customers c cid t h

/-- A key present in the customer signature resolves. -/
theorem findCustomer_of_sig {db : DB} {cid t : Nat} (h : (cid, t) ∈ CustSig db) :
    ∃ C, findCustomer db cid t = some C := by
  obtain ⟨c, hc, he⟩ := List.mem_map.mp h
  have h1 : c.cid = cid := congrArg Prod.fst he
  have h2 : c.company = t := congrArg Prod.snd he
  have hs : (findCustomer db cid t).isSome := by
    unfold findCustomer
    rw [List.find?_isSome]
    exact ⟨c, hc, by simp [h1, h2]⟩
  obtain ⟨C, hC⟩ := Option.isSome_iff_exists.mp hs
  exact ⟨C, hC⟩

/-- `delete_sale` keeps the customer aggregates consistent. -/
theorem delete_sale_agg (sid : Nat) (u : User) (db : DB)
    (hcnd : CidsNodup db) (hsnd : SidsNodup db) (hres : RefsResolve db)
    (hagg : AggConsistent db) :
    AggConsistent (delete_sale sid u db).2 := by
  simp only [delete_sale]
  by_cases hc : idT u.company_id
  case neg => rw [if_neg hc]; exact hagg
  case pos =>
    rw [if_pos hc]
    cases hf : findSale db sid ((u.company_id).getD 0) with
    | none => simp only [hf]; exact hagg
    | some sale =>
      simp only [hf]
      obtain ⟨hSm, hsid2, hscomp⟩ := findSale_facts hf
      have hfr := creditLoop_frame "Sale Cancellation" "Sale cancellation - restored "
        ((u.company_id).getD 0) u (itemsOf db sale.sid) db
      have hfrc : (cancelLoop ((u.company_id).getD 0) u
          (itemsOf db sale.sid) db).customers = db.customers := hfr.1
      have hfrs : (cancelLoop ((u.company_id).getD 0) u
          (itemsOf db sale.sid) db).sales = db.sales := hfr.2.1
      show AggConsistent (deleteSaleRow (deleteItemsDB (deleteCustomerStage sale
        ((u.company_id).getD 0) (cancelLoop ((u.company_id).getD 0) u
          (itemsOf db sale.sid) db)) sale.sid) sale.sid)
      cases hcust0 : sale.customer_id with
      | none =>
        have hstage : deleteCustomerStage sale ((u.company_id).getD 0)
            (cancelLoop ((u.company_id).getD 0) u (itemsOf db sale.sid) db)
            = cancelLoop ((u.company_id).getD 0) u (itemsOf db sale.sid) db := by
          unfold deleteCustomerStage
          rw [hcust0]
          rw [if_neg (show ¬ (idT none = true) from by simp [idT])]
        rw [hstage]
        refine agg_remove db _ sale (fun c => c) hsnd hagg hSm ?_ ?_ ?_
        · show (cancelLoop ((u.company_id).getD 0) u (itemsOf db sale.sid) db).customers
            = db.customers.map (fun c => c)
          rw [hfrc]
          simp
        · show (cancelLoop ((u.company_id).getD 0) u
              (itemsOf db sale.sid) db).sales.filter (fun s => !(s.sid == sale.sid))
            = db.sales.filter (fun s0 => !(s0.sid == sale.sid))
          rw [hfrs]
        · intro c hcm
          refine ⟨rfl, ?_, ?_⟩ <;> simp [hcust0]
      | some c0 =>
        have hc0 : c0 ≠ 0 := (hres sale hSm c0 hcust0).1
        have hsig : (c0, sale.company) ∈ CustSig db := (hres sale hSm c0 hcust0).2
        rw [hscomp] at hsig
        obtain ⟨C, hfC⟩ := findCustomer_of_sig hsig
        obtain ⟨hCm, hCcid, hCcomp⟩ := findCustomer_facts hfC
        have hfC1 : findCustomer (cancelLoop ((u.company_id).getD 0) u
            (itemsOf db sale.sid) db) c0 ((u.company_id).getD 0) = some C := by
          rw [congrFun (congrFun (findCustomer_congr hfrc) c0) ((u.company_id).getD 0)]
          exact hfC
        have hstage : deleteCustomerStage sale ((u.company_id).getD 0)
            (cancelLoop ((u.company_id).getD 0) u (itemsOf db sale.sid) db)
            = saveCustomer (cancelLoop ((u.company_id).getD 0) u
                (itemsOf db sale.sid) db)
                ({ C with
                  total_purchases := C.total_purchases - sale.total_amount
                  total_transactions := C.total_transactions - 1 }) := by
          unfold deleteCustomerStage
          rw [hcust0]
          rw [if_pos (show idT (some c0) = true from by simp [idT, hc0])]
          rw [show ((some c0).getD 0) = c0 from rfl]
          rw [hfC1]
        rw [hstage]
        refine agg_remove db _ sale
          (fun c => if c.cid == C.cid then
            ({ C with
              total_purchases := C.total_purchases - sale.total_amount
              total_transactions := C.total_transactions - 1 }) else c)
          hsnd hagg hSm ?_ ?_ ?_
        · show ((cancelLoop ((u.company_id).getD 0) u
              (itemsOf db sale.sid) db).customers).map _ = _
          rw [hfrc]
        · show (cancelLoop ((u.company_id).getD 0) u
              (itemsOf db sale.sid) db).sales.filter (fun s => !(s.sid == sale.sid))
            = db.sales.filter (fun s0 => !(s0.sid == sale.sid))
          rw [hfrs]
        · intro c hcm
          by_cases hcc : c.cid = C.cid
          · have hceq : c = C := List.inj_on_of_nodup_map hcnd hcm hCm hcc
            have hmatch : (sale.customer_id == some c.cid) = true := by
              rw [hcust0, hcc, hCcid]
              simp
            refine ⟨by simp [hcc], ?_, ?_⟩
            · simp only [show (c.cid == C.cid) = true from by simp [hcc], if_true,
                hmatch, eq_self_iff_true]
              rw [hceq]
              show C.total_purchases - sale.total_amount + sale.total_amount
                = C.total_purchases
              ring
            · simp only [show (c.cid == C.cid) = true from by simp [hcc], if_true,
                hmatch, eq_self_iff_true]
              rw [hceq]
              show C.total_transactions - 1 + 1 = C.total_transactions
              ring
          · have hmatch : (sale.customer_id == some c.cid) = false := by
              rw [hcust0]
              simp
              intro hcontra
              exact hcc (by rw [← hcontra, hCcid])
            refine ⟨by simp [hcc], ?_, ?_⟩ <;>
              simp only [show (c.cid == C.cid) = false from by simp [hcc],
                Bool.false_eq_true, if_false, hmatch] <;>
              simp

/-- `create_sale` keeps the customer aggregates consistent provided any
supplied customer reference resolves within the actor's tenant. -/
theorem create_sale_agg (req : SaleReq) (u : User) (db : DB)
    (hcnd : CidsNodup db) (hagg : AggConsistent db)
    (hok : CustOk db (.create u req)) :
    AggConsistent (create_sale req u db).2 := by
  simp only [create_sale]
  by_cases hc : idT u.company_id
  case neg => rw [if_neg hc]; exact hagg
  case pos =>
    rw [if_pos hc]
    cases hb : createSaleBody req ((u.company_id).getD 0) u db with
    | error e => simp only [hb]; exact hagg
    | ok out =>
      obtain ⟨db', sid'⟩ := out
      simp only [hb]
      show AggConsistent db'
      unfold createSaleBody at hb
      cases hloop : createItemsLoop ((u.company_id).getD 0) u req.items db
          { total_amount := 0, total_cost := 0, items_data := [], product_updates := [] } with
      | error e => rw [hloop] at hb; exact absurd hb (by simp)
      | ok lr =>
        obtain ⟨db1, acc⟩ := lr
        simp only [hloop] at hb
        by_cases hfk : fkCustomerOk db1
            (mkSaleHeader req ((u.company_id).getD 0) u db1 acc).customer_id = true
        case neg => rw [if_neg hfk] at hb; exact absurd hb (by simp)
        rw [if_pos hfk] at hb
        simp only [Except.ok.injEq] at hb
        have hdb' : db' = (createCommit req ((u.company_id).getD 0) u db1 acc).1 :=
          (congrArg Prod.fst hb).symm
        obtain ⟨hprod1, hcust1, hsales1, hitems1, hnext1, hnow1⟩ :=
          createItemsLoop_frame ((u.company_id).getD 0) u req.items db
            { total_amount := 0, total_cost := 0, items_data := [], product_updates := [] }
            (db1, acc) hloop
        rw [hdb']
        cases hres : createResolved req ((u.company_id).getD 0) db1 with
        | none =>
          have hreqf : idT req.customer_id = false := by
            by_cases hit : idT req.customer_id
            · exfalso
              obtain ⟨cid, hcid, comp, hcomp, hmem⟩ := hok hit
              have ht : (u.company_id).getD 0 = comp := by rw [hcomp]; rfl
              rw [← ht] at hmem
              obtain ⟨C, hfC⟩ := findCustomer_of_sig hmem
              unfold createResolved at hres
              rw [if_pos hit] at hres
              rw [congrFun (congrFun (findCustomer_congr hcust1)
                ((req.customer_id).getD 0)) ((u.company_id).getD 0)] at hres
              rw [hcid] at hres
              rw [show ((some cid).getD 0) = cid from rfl] at hres
              rw [hfC] at hres
              exact absurd hres (by simp)
            · simpa using hit
          have hhdr : (mkSaleHeader req ((u.company_id).getD 0) u db1 acc).customer_id
              = none := by
            unfold mkSaleHeader
            simp [hreqf]
          refine agg_append db _ (mkSaleHeader req ((u.company_id).getD 0) u db1 acc)
            (fun c => c) hagg ?_ ?_ ?_
          · rw [createCommit_customers]
            simp only [hres]
            rw [hcust1]
            simp
          · rw [createCommit_sales, hsales1]
          · intro c hcm
            refine ⟨rfl, ?_, ?_⟩ <;> simp [hhdr]
        | some cR =>
          have hit : idT req.customer_id = true := by
            by_cases hit : idT req.customer_id
            · exact hit
            · exfalso
              unfold createResolved at hres
              rw [if_neg hit] at hres
              exact absurd hres (by simp)
          have hfC : findCustomer db ((req.customer_id).getD 0) ((u.company_id).getD 0)
              = some cR := by
            unfold createResolved at hres
            rw [if_pos hit] at hres
            rw [congrFun (congrFun (findCustomer_congr hcust1)
              ((req.customer_id).getD 0)) ((u.company_id).getD 0)] at hres
            exact hres
          obtain ⟨hRm, hRcid, hRcomp⟩ := findCustomer_facts hfC
          obtain ⟨k, hk⟩ : ∃ k, req.customer_id = some k := by
            cases hq : req.customer_id with
            | none => rw [hq] at hit; exact absurd hit (by simp [idT])
            | some k => exact ⟨k, rfl⟩
          have hgd : (req.customer_id).getD 0 = k := by rw [hk]; rfl
          rw [hgd] at hfC hRcid
          have hhdr : (mkSaleHeader req ((u.company_id).getD 0) u db1 acc).customer_id
              = some k := by
            unfold mkSaleHeader
            simp [hk, show idT (some k) = true from by rw [← hk]; exact hit]
          have hamt : (mkSaleHeader req ((u.company_id).getD 0) u db1 acc).total_amount
              = acc.total_amount := rfl
          refine agg_append db _ (mkSaleHeader req ((u.company_id).getD 0) u db1 acc)
            (fun c => if c.cid == cR.cid then
              ({ cR with
                total_purchases := cR.total_purchases + acc.total_amount
                total_transactions := cR.total_transactions + 1
                last_purchase_date := some db1.now }) else c) hagg ?_ ?_ ?_
          · rw [createCommit_customers]
            simp only [hres]
            rw [hcust1]
          · rw [createCommit_sales, hsales1]
          · intro c hcm
            by_cases hcc : c.cid = cR.cid
            · have hceq : c = cR := List.inj_on_of_nodup_map hcnd hcm hRm hcc
              have hmatch : ((mkSaleHeader req ((u.company_id).getD 0) u db1
                  acc).customer_id == some c.cid) = true := by
                rw [hhdr, hcc, hRcid]
                simp
              refine ⟨by simp [hcc], ?_, ?_⟩
              · simp only [show (c.cid == cR.cid) = true from by simp [hcc], if_true,
                  hmatch, eq_self_iff_true, hamt]
                rw [hceq]
              · simp only [show (c.cid == cR.cid) = true from by simp [hcc], if_true,
                  hmatch, eq_self_iff_true]
                rw [hceq]
            · have hmatch : ((mkSaleHeader req ((u.company_id).getD 0) u db1
                  acc).customer_id == some c.cid) = false := by
                rw [hhdr]
                simp
                intro hcontra
                exact hcc (by rw [← hcontra, hRcid])
              refine ⟨by simp [hcc], ?_, ?_⟩ <;>
                simp only [show (c.cid == cR.cid) = false from by simp [hcc],
                  Bool.false_eq_true, if_false, hmatch] <;>
                simp

/-- The commit phase of `update_sale` keeps the customer aggregates
consistent when the overwritten sale carries its stored total as
`previous_total`, its reference resolves, and any supplied new reference
resolves. -/
theorem updateCommit_agg (sale : Sale) (req : SaleReq) (t : Nat) (db : DB)
    (nt nc : Int)
    (hcnd : CidsNodup db) (hsnd : SidsNodup db) (hagg : AggConsistent db)
    (hS : sale ∈ db.sales)
    (hres : ∀ cid, sale.customer_id = some cid → cid ≠ 0 ∧ (cid, t) ∈ CustSig db)
    (hok : idT req.customer_id = true →
      ∃ cid, req.customer_id = some cid ∧ (cid, t) ∈ CustSig db) :
    AggConsistent (updateCommit sale sale.total_amount req t db nt nc) := by
  simp only [updateCommit]
  cases h1 : idT sale.customer_id with
  | false =>
    have hnone : sale.customer_id = none := by
      cases hq : sale.customer_id with
      | none => rfl
      | some c0 =>
        have h0 := (hres c0 hq).1
        rw [hq] at h1
        exact absurd h1 (by simp [idT, h0])
    simp only [Bool.false_eq_true, if_false]
    cases h2 : idT req.customer_id && req.customer_id != sale.customer_id with
    | false =>
      simp only [Bool.false_eq_true, if_false]
      have hreqf : idT req.customer_id = false := by
        cases hq : idT req.customer_id with
        | false => rfl
        | true =>
          rcases Bool.and_eq_false_iff.mp h2 with ha | hb
          · rw [hq] at ha; exact ha
          · exfalso
            have heq : req.customer_id = sale.customer_id := by
              simpa using hb
            rw [heq, hnone] at hq
            exact absurd hq (by simp [idT])
      have hpy : pyOrId req.customer_id sale.customer_id = none := by
        unfold pyOrId
        rw [if_neg (by simp [hreqf]), hnone]
      refine agg_replace db _ sale
        ({ sale with
          customer_id := pyOrId req.customer_id sale.customer_id
          customer_name := pyOrStr req.customer_name sale.customer_name
          customer_phone := pyOrStr req.customer_phone sale.customer_phone
          payment_method := pyOrStrD req.payment_method sale.payment_method
          total_amount := nt
          total_cost := nc
          total_profit := nt - nc } : Sale) (fun c => c) hsnd hagg hS ?hsid1 ?hcust1
        ?hsales1 ?hF1
      case hsales1 => rfl
      case hsid1 => rfl
      case hcust1 =>
        show db.customers = db.customers.map (fun c => c)
        simp
      case hF1 =>
        intro c hcm
        have hpy2 : pyOrId req.customer_id none = none := by
          rw [hnone] at hpy
          exact hpy
        refine ⟨rfl, ?_, ?_⟩ <;> simp [hnone, hpy2]
    | true =>
      simp only [eq_self_iff_true, if_true]
      simp only [Bool.and_eq_true] at h2
      obtain ⟨hreqt, hdiff⟩ := h2
      obtain ⟨cid1, hcid1, hsig1⟩ := hok hreqt
      obtain ⟨N, hfN⟩ := findCustomer_of_sig hsig1
      obtain ⟨hNm, hNcid, hNcomp⟩ := findCustomer_facts hfN
      rw [show ((req.customer_id).getD 0) = cid1 from by rw [hcid1]; rfl]
      simp only [hfN]
      have hpy : pyOrId req.customer_id sale.customer_id = some cid1 := by
        unfold pyOrId
        rw [if_pos (by simp [hreqt])]
        exact hcid1
      refine agg_replace db _ sale
        ({ sale with
          customer_id := pyOrId req.customer_id sale.customer_id
          customer_name := pyOrStr req.customer_name sale.customer_name
          customer_phone := pyOrStr req.customer_phone sale.customer_phone
          payment_method := pyOrStrD req.payment_method sale.payment_method
          total_amount := nt
          total_cost := nc
          total_profit := nt - nc } : Sale)
        (fun c => if c.cid == N.cid then
          ({ N with
            total_purchases := N.total_purchases + nt
            total_transactions := N.total_transactions + 1
            last_purchase_date := some db.now }) else c) hsnd hagg hS ?hsid2 ?hcust2
        ?hsales2 ?hF2
      case hsales2 => rfl
      case hsid2 => rfl
      case hcust2 => rfl
      case hF2 =>
        intro c hcm
        by_cases hcc : c.cid = N.cid
        · have hceq : c = N := List.inj_on_of_nodup_map hcnd hcm hNm hcc
          have hm1 : (sale.customer_id == some c.cid) = false := by
            rw [hnone]
            simp
          have hm2 : (pyOrId req.customer_id sale.customer_id == some c.cid) = true := by
            rw [hpy, hcc, hNcid]
            simp
          refine ⟨by simp [hcc], ?_, ?_⟩ <;>
            simp only [show (c.cid == N.cid) = true from by simp [hcc], if_true,
              hm1, hm2, Bool.false_eq_true, if_false, eq_self_iff_true] <;>
            rw [hceq] <;> ring
        · have hm1 : (sale.customer_id == some c.cid) = false := by
            rw [hnone]
            simp
          have hm2 : (pyOrId req.customer_id sale.customer_id == some c.cid) = false := by
            rw [hpy]
            simp
            intro hcontra
            exact hcc (by rw [← hcontra, hNcid])
          refine ⟨by simp [hcc], ?_, ?_⟩ <;>
            simp only [show (c.cid == N.cid) = false from by simp [hcc],
              Bool.false_eq_true, if_false, hm1, hm2]
  | true =>
    obtain ⟨c0, hcust0⟩ : ∃ c0, sale.customer_id = some c0 := by
      cases hq : sale.customer_id with
      | none => rw [hq] at h1; exact absurd h1 (by simp [idT])
      | some c0 => exact ⟨c0, rfl⟩
    have hc00 := (hres c0 hcust0).1
    have hsig0 := (hres c0 hcust0).2
    obtain ⟨C0, hfC0⟩ := findCustomer_of_sig hsig0
    obtain ⟨hC0m, hC0cid, hC0comp⟩ := findCustomer_facts hfC0
    simp only [eq_self_iff_true, if_true]
    rw [show ((sale.customer_id).getD 0) = c0 from by rw [hcust0]; rfl]
    simp only [hfC0]
    cases h2 : idT req.customer_id && req.customer_id != sale.customer_id with
    | false =>
      simp only [Bool.false_eq_true, if_false]
      have hpy : pyOrId req.customer_id sale.customer_id = some c0 := by
        unfold pyOrId
        by_cases hq : idT req.customer_id
        · rw [if_pos hq]
          rcases Bool.and_eq_false_iff.mp h2 with ha | hb
          · rw [hq] at ha; exact absurd ha (by simp)
          · have heq : req.customer_id = sale.customer_id := by simpa using hb
            rw [heq, hcust0]
        · rw [if_neg hq]
          exact hcust0
      refine agg_replace db _ sale
        ({ sale with
          customer_id := pyOrId req.customer_id sale.customer_id
          customer_name := pyOrStr req.customer_name sale.customer_name
          customer_phone := pyOrStr req.customer_phone sale.customer_phone
          payment_method := pyOrStrD req.payment_method sale.payment_method
          total_amount := nt
          total_cost := nc
          total_profit := nt - nc } : Sale)
        (fun c => if c.cid == C0.cid then
          ({ C0 with
            total_purchases := C0.total_purchases - sale.total_amount + nt
            last_purchase_date := some db.now }) else c) hsnd hagg hS ?hsid3 ?hcust3
        ?hsales3 ?hF3
      case hsales3 => rfl
      case hsid3 => rfl
      case hcust3 => rfl
      case hF3 =>
        intro c hcm
        by_cases hcc : c.cid = C0.cid
        · have hceq : c = C0 := List.inj_on_of_nodup_map hcnd hcm hC0m hcc
          have hm1 : (sale.customer_id == some c.cid) = true := by
            rw [hcust0, hcc, hC0cid]
            simp
          have hm2 : (pyOrId req.customer_id sale.customer_id == some c.cid) = true := by
            rw [hpy, hcc, hC0cid]
            simp
          refine ⟨by simp [hcc], ?_, ?_⟩ <;>
            simp only [show (c.cid == C0.cid) = true from by simp [hcc], if_true,
              hm1, hm2, eq_self_iff_true] <;>
            rw [hceq] <;> ring
        · have hm1 : (sale.customer_id == some c.cid) = false := by
            rw [hcust0]
            simp
            intro hcontra
            exact hcc (by rw [← hcontra, hC0cid])
          have hm2 : (pyOrId req.customer_id sale.customer_id == some c.cid) = false := by
            rw [hpy]
            simp
            intro hcontra
            exact hcc (by rw [← hcontra, hC0cid])
          refine ⟨by simp [hcc], ?_, ?_⟩ <;>
            simp only [show (c.cid == C0.cid) = false from by simp [hcc],
              Bool.false_eq_true, if_false, hm1, hm2]
    | true =>
      simp only [eq_self_iff_true, if_true]
      simp only [Bool.and_eq_true] at h2
      obtain ⟨hreqt, hdiff⟩ := h2
      obtain ⟨cid1, hcid1, hsig1⟩ := hok hreqt
      have hne01 : cid1 ≠ c0 := by
        intro hcontra
        rw [hcid1, hcust0, hcontra] at hdiff
        simp at hdiff
      have hfr1 : findCustomer (saveCustomer db
          ({ C0 with
            total_purchases := C0.total_purchases - sale.total_amount + nt
            last_purchase_date := some db.now })) c0 t
          = some ({ C0 with
            total_purchases := C0.total_purchases - sale.total_amount + nt
            last_purchase_date := some db.now }) :=
        find?_update_by_key (fun c : Customer => c.cid)
          (fun c : Customer => c.cid == c0 && c.company == t) db.customers C0
          ({ C0 with
            total_purchases := C0.total_purchases - sale.total_amount + nt
            last_purchase_date := some db.now })
          (show (db.customers.map (fun c : Customer => c.cid)).Nodup from hcnd) hfC0
          (by
            show (C0.cid == c0 && C0.company == t) = true
            simp [hC0cid, hC0comp])
      simp only [hfr1]
      rw [show ((req.customer_id).getD 0) = cid1 from by rw [hcid1]; rfl]
      obtain ⟨N, hfN⟩ := findCustomer_of_sig hsig1
      obtain ⟨hNm, hNcid, hNcomp⟩ := findCustomer_facts hfN
      have hfN2 : findCustomer (saveCustomer (saveCustomer db
          ({ C0 with
            total_purchases := C0.total_purchases - sale.total_amount + nt
            last_purchase_date := some db.now }))
          ({ ({ C0 with
            total_purchases := C0.total_purchases - sale.total_amount + nt
            last_purchase_date := some db.now } : Customer) with
            total_purchases := C0.total_purchases - sale.total_amount + nt - nt
            total_transactions := C0.total_transactions - 1 })) cid1 t = some N := by
        rw [findCustomer_save_other (saveCustomer db
            ({ C0 with
              total_purchases := C0.total_purchases - sale.total_amount + nt
              last_purchase_date := some db.now }))
          ({ ({ C0 with
            total_purchases := C0.total_purchases - sale.total_amount + nt
            last_purchase_date := some db.now } : Customer) with
            total_purchases := C0.total_purchases - sale.total_amount + nt - nt
            total_transactions := C0.total_transactions - 1 }) cid1 t
          (show cid1 ≠ C0.cid from by rw [hC0cid]; exact hne01)]
        rw [findCustomer_save_other db
          ({ C0 with
            total_purchases := C0.total_purchases - sale.total_amount + nt
            last_purchase_date := some db.now }) cid1 t
          (show cid1 ≠ C0.cid from by rw [hC0cid]; exact hne01)]
        exact hfN
      simp only [hfN2]
      have hpy : pyOrId req.customer_id sale.customer_id = some cid1 := by
        unfold pyOrId
        rw [if_pos (by simp [hreqt])]
        exact hcid1
      refine agg_replace db _ sale
        ({ sale with
          customer_id := pyOrId req.customer_id sale.customer_id
          customer_name := pyOrStr req.customer_name sale.customer_name
          customer_phone := pyOrStr req.customer_phone sale.customer_phone
          payment_method := pyOrStrD req.payment_method sale.payment_method
          total_amount := nt
          total_cost := nc
          total_profit := nt - nc } : Sale)
        (fun c =>
          (fun c3 => if c3.cid == N.cid then
            ({ N with
              total_purchases := N.total_purchases + nt
              total_transactions := N.total_transactions + 1
              last_purchase_date := some db.now }) else c3)
          ((fun c2 => if c2.cid == C0.cid then
            ({ C0 with
              total_purchases := C0.total_purchases - sale.total_amount + nt - nt
              total_transactions := C0.total_transactions - 1
              last_purchase_date := some db.now }) else c2)
          ((fun c1 => if c1.cid == C0.cid then
            ({ C0 with
              total_purchases := C0.total_purchases - sale.total_amount + nt
              last_purchase_date := some db.now }) else c1) c)))
        hsnd hagg hS ?hsid4 ?hcust4 ?hsales4 ?hF4
      case hsales4 => rfl
      case hsid4 => rfl
      case hcust4 =>
        show ((db.customers.map _).map _).map _ = _
        rw [List.map_map, List.map_map]
        rfl
      case hF4 =>
        intro c hcm
        by_cases hcc0 : c.cid = C0.cid
        · have hceq : c = C0 := List.inj_on_of_nodup_map hcnd hcm hC0m hcc0
          have hm1 : (sale.customer_id == some c.cid) = true := by
            rw [hcust0, hcc0, hC0cid]
            simp
          have hm2 : (pyOrId req.customer_id sale.customer_id == some c.cid) = false := by
            rw [hpy, hcc0, hC0cid]
            simp
            exact hne01
          have hnN : (c.cid == N.cid) = false := by
            rw [hcc0, hC0cid, hNcid]
            simp only [beq_eq_false_iff_ne]
            exact fun hcontra => hne01 hcontra.symm
          have hCN : (C0.cid == N.cid) = false := by
            rw [hC0cid, hNcid]
            simp only [beq_eq_false_iff_ne]
            exact fun hcontra => hne01 hcontra.symm
          refine ⟨?_, ?_, ?_⟩ <;>
            simp only [show (c.cid == C0.cid) = true from by simp [hcc0], if_true,
              hnN, hCN, beq_self_eq_true, Bool.false_eq_true, if_false, hm1, hm2,
              eq_self_iff_true] <;>
            rw [hceq] <;> ring
        · by_cases hcc1 : c.cid = N.cid
          · have hceq : c = N := List.inj_on_of_nodup_map hcnd hcm hNm hcc1
            have hm1 : (sale.customer_id == some c.cid) = false := by
              rw [hcust0]
              simp
              intro hcontra
              exact hcc0 (by rw [← hcontra, hC0cid])
            have hm2 : (pyOrId req.customer_id sale.customer_id == some c.cid) = true := by
              rw [hpy, hcc1, hNcid]
              simp
            refine ⟨?_, ?_, ?_⟩ <;>
              simp only [show (c.cid == C0.cid) = false from by simp [hcc0],
                show (c.cid == N.cid) = true from by simp [hcc1],
                Bool.false_eq_true, if_false, if_true, hm1, hm2, eq_self_iff_true] <;>
              rw [hceq] <;> ring
          · have hm1 : (sale.customer_id == some c.cid) = false := by
              rw [hcust0]
              simp
              intro hcontra
              exact hcc0 (by rw [← hcontra, hC0cid])
            have hm2 : (pyOrId req.customer_id sale.customer_id == some c.cid) = false := by
              rw [hpy]
              simp
              intro hcontra
              exact hcc1 (by rw [← hcontra, hNcid])
            refine ⟨?_, ?_, ?_⟩ <;>
              simp only [show (c.cid == C0.cid) = false from by simp [hcc0],
                show (c.cid == N.cid) = false from by simp [hcc1],
                Bool.false_eq_true, if_false, hm1, hm2]

/-- `update_sale` keeps the customer aggregates consistent under resolvable
references. -/
theorem update_sale_agg (sid : Nat) (req : SaleReq) (u : User) (db : DB)
    (hcnd : CidsNodup db) (hsnd : SidsNodup db) (hres : RefsResolve db)
    (hagg : AggConsistent db) (hok : CustOk db (.update u sid req)) :
    AggConsistent (update_sale sid req u db).2 := by
  simp only [update_sale]
  by_cases hc : idT u.company_id
  case neg => rw [if_neg hc]; exact hagg
  case pos =>
    rw [if_pos hc]
    cases hb : updateSaleBody sid req ((u.company_id).getD 0) u db with
    | error e => simp only [hb]; exact hagg
    | ok out =>
      obtain ⟨db', r⟩ := out
      simp only [hb]
      show AggConsistent db'
      unfold updateSaleBody at hb
      cases hf : findSale db sid ((u.company_id).getD 0) with
      | none =>
        rw [hf] at hb
        simp only [Except.ok.injEq, Prod.mk.injEq] at hb
        rw [← hb.1]
        exact hagg
      | some sale =>
        simp only [hf] at hb
        cases hloop : updateItemsLoop ((u.company_id).getD 0) u sale.sid req.items
            (deleteItemsDB (reversalLoop ((u.company_id).getD 0) u
              (itemsOf db sale.sid) db) sale.sid) 0 0 with
        | error e => rw [hloop] at hb; exact absurd hb (by simp)
        | ok out2 =>
          obtain ⟨db3, nt, nc⟩ := out2
          rw [hloop] at hb
          simp only [Except.ok.injEq, Prod.mk.injEq] at hb
          rw [← hb.1]
          obtain ⟨hSm, hsid2, hscomp⟩ := findSale_facts hf
          have hfr := creditLoop_frame "Sale Update (Reversal)"
            "Reversal before sale update - restored " ((u.company_id).getD 0) u
            (itemsOf db sale.sid) db
          obtain ⟨hl1, hl2, hl3, hl4⟩ := updateItemsLoop_frame ((u.company_id).getD 0)
            u sale.sid req.items _ 0 0 (db3, nt, nc) hloop
          have hcust3 : db3.customers = db.customers := by
            have h1' : db3.customers = (reversalLoop ((u.company_id).getD 0) u
                (itemsOf db sale.sid) db).customers := hl1
            have h2' : (reversalLoop ((u.company_id).getD 0) u
                (itemsOf db sale.sid) db).customers = db.customers := hfr.1
            exact h1'.trans h2'
          have hsales3 : db3.sales = db.sales := by
            have h1' : db3.sales = (reversalLoop ((u.company_id).getD 0) u
                (itemsOf db sale.sid) db).sales := hl2
            have h2' : (reversalLoop ((u.company_id).getD 0) u
                (itemsOf db sale.sid) db).sales = db.sales := hfr.2.1
            exact h1'.trans h2'
          have hsig3 : CustSig db3 = CustSig db := by
            unfold CustSig
            rw [hcust3]
          have hcnd3 : CidsNodup db3 := by
            show (db3.customers.map (fun c => c.cid)).Nodup
            rw [hcust3]
            exact hcnd
          have hsnd3 : SidsNodup db3 := by
            show (db3.sales.map (fun s => s.sid)).Nodup
            rw [hsales3]
            exact hsnd
          have hagg3 : AggConsistent db3 := by
            intro c hcm
            rw [hcust3] at hcm
            have hsOf : salesOf db3 c.cid = salesOf db c.cid := by
              unfold salesOf
              rw [hsales3]
            rw [hsOf]
            exact hagg c hcm
          have hS3 : sale ∈ db3.sales := by
            rw [hsales3]
            exact hSm
          have hres3 : ∀ cid, sale.customer_id = some cid →
              cid ≠ 0 ∧ (cid, (u.company_id).getD 0) ∈ CustSig db3 := by
            intro cid hcid
            refine ⟨(hres sale hSm cid hcid).1, ?_⟩
            rw [hsig3, ← hscomp]
            exact (hres sale hSm cid hcid).2
          have hok3 : idT req.customer_id = true →
              ∃ cid, req.customer_id = some cid ∧
                (cid, (u.company_id).getD 0) ∈ CustSig db3 := by
            intro hit
            obtain ⟨cid, hcid, comp, hcomp, hmem⟩ := hok hit
            refine ⟨cid, hcid, ?_⟩
            rw [hsig3]
            rw [show (u.company_id).getD 0 = comp from by rw [hcomp]; rfl]
            exact hmem
          exact updateCommit_agg sale req ((u.company_id).getD 0) db3 nt nc
            hcnd3 hsnd3 hagg3 hS3 hres3 hok3

theorem saveSale_sids (d : DB) (x : Sale) :
    (saveSale d x).sales.map (fun s => s.sid) = d.sales.map (fun s => s.sid) := by
  show (d.sales.map _).map _ = _
  rw [List.map_map]
  apply List.map_congr_left
  intro s0 _
  simp only [Function.comp_apply]
  by_cases h : s0.sid = x.sid
  · rw [if_pos (by simp [h]), h]
  · rw [if_neg (by simp [h])]

/-- Signature-preserving overwrite of one found customer row. -/
theorem custSig_save (db : DB) (C upd : Customer) (hcnd : CidsNodup db)
    (hC : C ∈ db.customers) (hcid : upd.cid = C.cid)
    (hcomp : upd.company = C.company) :
    CustSig (saveCustomer db upd) = CustSig db := by
  show (db.customers.map (fun c0 => if c0.cid == upd.cid then upd else c0)).map _ = _
  rw [List.map_map]
  apply List.map_congr_left
  intro c0 hc0
  simp only [Function.comp_apply]
  by_cases h0 : c0.cid = upd.cid
  · have hceq : c0 = C := List.inj_on_of_nodup_map hcnd hc0 hC (by rw [h0, hcid])
    rw [if_pos (by simp [h0])]
    rw [hceq, hcid, hcomp]
  · rw [if_neg (by simp [h0])]

theorem cidsNodup_of_sig {db db' : DB} (h : CustSig db' = CustSig db)
    (hnd : CidsNodup db) : CidsNodup db' := by
  show (db'.customers.map (fun c => c.cid)).Nodup
  rw [cids_of_sig h]
  exact hnd

theorem cidsNonzero_of_sig {db db' : DB} (h : CustSig db' = CustSig db)
    (hnz : CidsNonzero db) : CidsNonzero db' := by
  intro c' hc'
  have hmem : c'.cid ∈ db'.customers.map (fun c => c.cid) :=
    List.mem_map_of_mem (fun c => c.cid) hc'
  rw [cids_of_sig h] at hmem
  obtain ⟨c, hc, hce⟩ := List.mem_map.mp hmem
  rw [← hce]
  exact hnz c hc

/-- `delete_sale` preserves the aggregate invariant bundle and the customer
signature. -/
theorem delete_sale_inv (sid : Nat) (u : User) (db : DB) (hinv : AggInv db) :
    AggInv (delete_sale sid u db).2 ∧
    CustSig (delete_sale sid u db).2 = CustSig db := by
  have hagg' := delete_sale_agg sid u db hinv.cnd hinv.snd hinv.res hinv.agg
  simp only [delete_sale] at hagg' ⊢
  by_cases hc : idT u.company_id
  case neg =>
    rw [if_neg hc] at hagg' ⊢
    exact ⟨hinv, rfl⟩
  case pos =>
    rw [if_pos hc] at hagg' ⊢
    cases hf : findSale db sid ((u.company_id).getD 0) with
    | none =>
      simp only [hf] at hagg' ⊢
      exact ⟨hinv, trivial⟩
    | some sale =>
      simp only [hf] at hagg' ⊢
      obtain ⟨hSm, hsid2, hscomp⟩ := findSale_facts hf
      have hfr := creditLoop_frame "Sale Cancellation" "Sale cancellation - restored "
        ((u.company_id).getD 0) u (itemsOf db sale.sid) db
      have hfrc : (cancelLoop ((u.company_id).getD 0) u
          (itemsOf db sale.sid) db).customers = db.customers := hfr.1
      have hfrs : (cancelLoop ((u.company_id).getD 0) u
          (itemsOf db sale.sid) db).sales = db.sales := hfr.2.1
      have hfrn : (cancelLoop ((u.company_id).getD 0) u
          (itemsOf db sale.sid) db).next_sale_id = db.next_sale_id := hfr.2.2.2.1
      have hstep := deleteCustomerStage_tenant ((u.company_id).getD 0) sale
        (cancelLoop ((u.company_id).getD 0) u (itemsOf db sale.sid) db)
        (cidsNodup_of_sig (show CustSig _ = CustSig db from by
          unfold CustSig; rw [hfrc]) hinv.cnd)
      have hsig : CustSig (deleteSaleRow (deleteItemsDB (deleteCustomerStage sale
          ((u.company_id).getD 0) (cancelLoop ((u.company_id).getD 0) u
            (itemsOf db sale.sid) db)) sale.sid) sale.sid) = CustSig db := by
        show CustSig (deleteCustomerStage sale ((u.company_id).getD 0)
          (cancelLoop ((u.company_id).getD 0) u (itemsOf db sale.sid) db)) = CustSig db
        have h1' := hstep.custSig
        show (deleteCustomerStage sale ((u.company_id).getD 0)
          (cancelLoop ((u.company_id).getD 0) u
            (itemsOf db sale.sid) db)).customers.map (fun c => (c.cid, c.company))
          = db.customers.map (fun c => (c.cid, c.company))
        rw [h1', hfrc]
      have hsales' : (deleteSaleRow (deleteItemsDB (deleteCustomerStage sale
          ((u.company_id).getD 0) (cancelLoop ((u.company_id).getD 0) u
            (itemsOf db sale.sid) db)) sale.sid) sale.sid).sales
          = db.sales.filter (fun s0 => !(s0.sid == sale.sid)) := by
        show (deleteCustomerStage sale ((u.company_id).getD 0)
          (cancelLoop ((u.company_id).getD 0) u
            (itemsOf db sale.sid) db)).sales.filter (fun s0 => !(s0.sid == sale.sid))
          = db.sales.filter (fun s0 => !(s0.sid == sale.sid))
        rw [deleteCustomerStage_sales, hfrs]
      have hnext' : (deleteSaleRow (deleteItemsDB (deleteCustomerStage sale
          ((u.company_id).getD 0) (cancelLoop ((u.company_id).getD 0) u
            (itemsOf db sale.sid) db)) sale.sid) sale.sid).next_sale_id
          = db.next_sale_id := by
        show (deleteCustomerStage sale ((u.company_id).getD 0)
          (cancelLoop ((u.company_id).getD 0) u
            (itemsOf db sale.sid) db)).next_sale_id = db.next_sale_id
        have : ∀ (s : Sale) (co : Nat) (d : DB),
            (deleteCustomerStage s co d).next_sale_id = d.next_sale_id := by
          intro s co d
          unfold deleteCustomerStage
          repeat' split
          all_goals rfl
        rw [this]
        exact hfrn
      refine ⟨⟨cidsNodup_of_sig hsig hinv.cnd, cidsNonzero_of_sig hsig hinv.cnz,
        ?_, ?_, ?_, hagg'⟩, hsig⟩
      · show ((deleteSaleRow (deleteItemsDB (deleteCustomerStage sale
          ((u.company_id).getD 0) (cancelLoop ((u.company_id).getD 0) u
            (itemsOf db sale.sid) db)) sale.sid) sale.sid).sales.map
            (fun s => s.sid)).Nodup
        rw [hsales']
        exact List.Sublist.nodup
          (List.Sublist.map (fun s : Sale => s.sid) (List.filter_sublist db.sales))
          (show (db.sales.map (fun s : Sale => s.sid)).Nodup from hinv.snd)
      · intro s hs
        rw [hsales'] at hs
        rw [hnext']
        exact hinv.sbd s (List.mem_of_mem_filter hs)
      · intro s hs cid hcid
        rw [hsales'] at hs
        rw [hsig]
        exact hinv.res s (List.mem_of_mem_filter hs) cid hcid

/-- `create_sale` preserves the aggregate invariant bundle and the customer
signature, provided any supplied customer reference resolves. -/
theorem create_sale_inv (req : SaleReq) (u : User) (db : DB) (hinv : AggInv db)
    (hok : CustOk db (.create u req)) :
    AggInv (create_sale req u db).2 ∧
    CustSig (create_sale req u db).2 = CustSig db := by
  have hagg' := create_sale_agg req u db hinv.cnd hinv.agg hok
  simp only [create_sale] at hagg' ⊢
  by_cases hc : idT u.company_id
  case neg =>
    rw [if_neg hc] at hagg' ⊢
    exact ⟨hinv, rfl⟩
  case pos =>
    rw [if_pos hc] at hagg' ⊢
    cases hb : createSaleBody req ((u.company_id).getD 0) u db with
    | error e =>
      simp only [hb] at hagg' ⊢
      exact ⟨hinv, trivial⟩
    | ok out =>
      obtain ⟨db', sid'⟩ := out
      simp only [hb] at hagg' ⊢
      unfold createSaleBody at hb
      cases hloop : createItemsLoop ((u.company_id).getD 0) u req.items db
          { total_amount := 0, total_cost := 0, items_data := [], product_updates := [] } with
      | error e => rw [hloop] at hb; exact absurd hb (by simp)
      | ok lr =>
        obtain ⟨db1, acc⟩ := lr
        simp only [hloop] at hb
        by_cases hfk : fkCustomerOk db1
            (mkSaleHeader req ((u.company_id).getD 0) u db1 acc).customer_id = true
        case neg => rw [if_neg hfk] at hb; exact absurd hb (by simp)
        rw [if_pos hfk] at hb
        simp only [Except.ok.injEq] at hb
        have hdb' : db' = (createCommit req ((u.company_id).getD 0) u db1 acc).1 :=
          (congrArg Prod.fst hb).symm
        obtain ⟨hprod1, hcust1, hsales1, hitems1, hnext1, hnow1⟩ :=
          createItemsLoop_frame ((u.company_id).getD 0) u req.items db
            { total_amount := 0, total_cost := 0, items_data := [], product_updates := [] }
            (db1, acc) hloop
        have hsig : CustSig db' = CustSig db := by
          rw [hdb']
          show (createCommit req ((u.company_id).getD 0) u db1 acc).1.customers.map
            (fun c => (c.cid, c.company)) = CustSig db
          rw [createCommit_customers]
          cases hres : createResolved req ((u.company_id).getD 0) db1 with
          | none =>
            show db1.customers.map (fun c => (c.cid, c.company)) = CustSig db
            rw [hcust1]
            rfl
          | some cR =>
            have hfC : findCustomer db1 ((req.customer_id).getD 0)
                ((u.company_id).getD 0) = some cR := by
              unfold createResolved at hres
              by_cases hit : idT req.customer_id
              · rwa [if_pos hit] at hres
              · rw [if_neg hit] at hres
                exact absurd hres (by simp)
            have hRm : cR ∈ db1.customers := List.mem_of_find?_eq_some hfC
            have hcnd1 : CidsNodup db1 := by
              show (db1.customers.map (fun c => c.cid)).Nodup
              rw [hcust1]
              exact hinv.cnd
            have hsave := custSig_save db1 cR
              ({ cR with
                total_purchases := cR.total_purchases + acc.total_amount
                total_transactions := cR.total_transactions + 1
                last_purchase_date := some db1.now }) hcnd1 hRm rfl rfl
            have h2' : CustSig db1 = CustSig db := by
              unfold CustSig
              rw [hcust1]
            exact hsave.trans h2'
        have hsales' : db'.sales
            = db.sales ++ [mkSaleHeader req ((u.company_id).getD 0) u db1 acc] := by
          rw [hdb', createCommit_sales, hsales1]
        have hnext' : db'.next_sale_id = db.next_sale_id + 1 := by
          rw [hdb', createCommit_next, hnext1]
        have hhsid : (mkSaleHeader req ((u.company_id).getD 0) u db1 acc).sid
            = db.next_sale_id := by
          show db1.next_sale_id = db.next_sale_id
          exact hnext1
        have hhcomp : (mkSaleHeader req ((u.company_id).getD 0) u db1 acc).company
            = (u.company_id).getD 0 := rfl
        refine ⟨⟨cidsNodup_of_sig hsig hinv.cnd, cidsNonzero_of_sig hsig hinv.cnz,
          ?_, ?_, ?_, hagg'⟩, hsig⟩
        · show (db'.sales.map (fun s => s.sid)).Nodup
          rw [hsales', List.map_append]
          rw [List.nodup_append]
          refine ⟨hinv.snd, by simp, ?_⟩
          intro a ha
          simp only [List.map_cons, List.map_nil, List.mem_cons, List.not_mem_nil,
            or_false]
          intro hae
          obtain ⟨s, hs, hse⟩ := List.mem_map.mp ha
          have := hinv.sbd s hs
          rw [hse, hae, hhsid] at this
          exact absurd this (by omega)
        · intro s hs
          rw [hsales'] at hs
          rw [hnext']
          rcases List.mem_append.mp hs with h | h
          · have := hinv.sbd s h
            omega
          · have hse : s = mkSaleHeader req ((u.company_id).getD 0) u db1 acc := by
              simpa using h
            rw [hse, hhsid]
            omega
        · intro s hs cid hcid
          rw [hsales'] at hs
          rw [hsig]
          rcases List.mem_append.mp hs with h | h
          · exact hinv.res s h cid hcid
          · have hse : s = mkSaleHeader req ((u.company_id).getD 0) u db1 acc := by
              simpa using h
            rw [hse] at hcid
            have hcid' : (if idT req.customer_id then req.customer_id else none)
                = some cid := hcid
            by_cases hit : idT req.customer_id
            · rw [if_pos hit] at hcid'
              obtain ⟨cid2, hcid2, comp, hcomp, hmem⟩ := hok hit
              have hceq : cid2 = cid := by
                rw [hcid2] at hcid'
                simpa using hcid'
              have hnz : cid ≠ 0 := by
                rw [hcid2] at hit
                rw [← hceq]
                simpa [idT] using hit
              refine ⟨hnz, ?_⟩
              rw [hse, hhcomp]
              rw [show (u.company_id).getD 0 = comp from by rw [hcomp]; rfl]
              rw [← hceq]
              exact hmem
            · rw [if_neg hit] at hcid'
              exact absurd hcid' (by simp)

theorem updateCommit_next (sale : Sale) (prev : Int) (req : SaleReq)
    (company : Nat) (db : DB) (nt nc : Int) :
    (updateCommit sale prev req company db nt nc).next_sale_id
      = db.next_sale_id := by
  simp only [updateCommit]
  repeat' split
  all_goals rfl

theorem map_sids_replace (l : List Sale) (k : Nat) (x : Sale) (hx : x.sid = k) :
    (l.map (fun s0 => if s0.sid == k then x else s0)).map (fun s => s.sid)
      = l.map (fun s => s.sid) := by
  rw [List.map_map]
  apply List.map_congr_left
  intro s0 _
  simp only [Function.comp_apply]
  by_cases h : s0.sid = k
  · rw [if_pos (by simp [h]), hx, h]
  · rw [if_neg (by simp [h])]

/-- `update_sale` preserves the aggregate invariant bundle and the customer
signature, provided any supplied customer reference resolves. -/
theorem update_sale_inv (sid : Nat) (req : SaleReq) (u : User) (db : DB)
    (hinv : AggInv db) (hok : CustOk db (.update u sid req)) :
    AggInv (update_sale sid req u db).2 ∧
    CustSig (update_sale sid req u db).2 = CustSig db := by
  have hagg' := update_sale_agg sid req u db hinv.cnd hinv.snd hinv.res hinv.agg hok
  simp only [update_sale] at hagg' ⊢
  by_cases hc : idT u.company_id
  case neg =>
    rw [if_neg hc] at hagg' ⊢
    exact ⟨hinv, rfl⟩
  case pos =>
    rw [if_pos hc] at hagg' ⊢
    cases hb : updateSaleBody sid req ((u.company_id).getD 0) u db with
    | error e =>
      simp only [hb] at hagg' ⊢
      exact ⟨hinv, trivial⟩
    | ok out =>
      obtain ⟨db', r⟩ := out
      simp only [hb] at hagg' ⊢
      unfold updateSaleBody at hb
      cases hf : findSale db sid ((u.company_id).getD 0) with
      | none =>
        rw [hf] at hb
        simp only [Except.ok.injEq, Prod.mk.injEq] at hb
        rw [← hb.1]
        exact ⟨hinv, rfl⟩
      | some sale =>
        simp only [hf] at hb
        cases hloop : updateItemsLoop ((u.company_id).getD 0) u sale.sid req.items
            (deleteItemsDB (reversalLoop ((u.company_id).getD 0) u
              (itemsOf db sale.sid) db) sale.sid) 0 0 with
        | error e => rw [hloop] at hb; exact absurd hb (by simp)
        | ok out2 =>
          obtain ⟨db3, nt, nc⟩ := out2
          rw [hloop] at hb
          simp only [Except.ok.injEq, Prod.mk.injEq] at hb
          rw [← hb.1] at hagg' ⊢
          obtain ⟨hSm, hsid2, hscomp⟩ := findSale_facts hf
          have hfr := creditLoop_frame "Sale Update (Reversal)"
            "Reversal before sale update - restored " ((u.company_id).getD 0) u
            (itemsOf db sale.sid) db
          obtain ⟨hl1, hl2, hl3, hl4⟩ := updateItemsLoop_frame ((u.company_id).getD 0)
            u sale.sid req.items _ 0 0 (db3, nt, nc) hloop
          have hcust3 : db3.customers = db.customers := by
            have h1' : db3.customers = (reversalLoop ((u.company_id).getD 0) u
                (itemsOf db sale.sid) db).customers := hl1
            exact h1'.trans hfr.1
          have hsales3 : db3.sales = db.sales := by
            have h1' : db3.sales = (reversalLoop ((u.company_id).getD 0) u
                (itemsOf db sale.sid) db).sales := hl2
            exact h1'.trans hfr.2.1
          have hnext3 : db3.next_sale_id = db.next_sale_id := by
            have h1' : db3.next_sale_id = (reversalLoop ((u.company_id).getD 0) u
                (itemsOf db sale.sid) db).next_sale_id := hl3
            exact h1'.trans hfr.2.2.2.1
          have hcnd3 : CidsNodup db3 := by
            show (db3.customers.map (fun c => c.cid)).Nodup
            rw [hcust3]
            exact hinv.cnd
          have hsnd3 : SidsNodup db3 := by
            show (db3.sales.map (fun s => s.sid)).Nodup
            rw [hsales3]
            exact hinv.snd
          have hS3 : sale ∈ db3.sales := by
            rw [hsales3]
            exact hSm
          have hsig : CustSig (updateCommit sale sale.total_amount req
              ((u.company_id).getD 0) db3 nt nc) = CustSig db := by
            have hstep := updateCommit_tenant sale sale.total_amount req
              ((u.company_id).getD 0) db3 nt nc hcnd3 hsnd3 hS3 hscomp
            have h1' : CustSig (updateCommit sale sale.total_amount req
                ((u.company_id).getD 0) db3 nt nc) = CustSig db3 := hstep.custSig
            have h2' : CustSig db3 = CustSig db := by
              unfold CustSig
              rw [hcust3]
            exact h1'.trans h2'
          have hsales' := updateCommit_sales sale sale.total_amount req
            ((u.company_id).getD 0) db3 nt nc
          rw [hsales3] at hsales'
          have hnext' : (updateCommit sale sale.total_amount req
              ((u.company_id).getD 0) db3 nt nc).next_sale_id = db.next_sale_id := by
            rw [updateCommit_next]
            exact hnext3
          refine ⟨⟨cidsNodup_of_sig hsig hinv.cnd, cidsNonzero_of_sig hsig hinv.cnz,
            ?_, ?_, ?_, hagg'⟩, hsig⟩
          · show ((updateCommit sale sale.total_amount req
              ((u.company_id).getD 0) db3 nt nc).sales.map (fun s => s.sid)).Nodup
            rw [hsales', map_sids_replace db.sales sale.sid
              ({ sale with
                customer_id := pyOrId req.customer_id sale.customer_id
                customer_name := pyOrStr req.customer_name sale.customer_name
                customer_phone := pyOrStr req.customer_phone sale.customer_phone
                payment_method := pyOrStrD req.payment_method sale.payment_method
                total_amount := nt
                total_cost := nc
                total_profit := nt - nc }) rfl]
            exact hinv.snd
          · intro s hs
            rw [hsales'] at hs
            rw [hnext']
            obtain ⟨s0, hs0, hse⟩ := List.mem_map.mp hs
            by_cases h0 : s0.sid = sale.sid
            · rw [if_pos (by simp [h0])] at hse
              rw [← hse]
              show sale.sid < db.next_sale_id
              exact hinv.sbd sale hSm
            · rw [if_neg (by simp [h0])] at hse
              rw [← hse]
              exact hinv.sbd s0 hs0
          · intro s hs cid hcid
            rw [hsales'] at hs
            rw [hsig]
            obtain ⟨s0, hs0, hse⟩ := List.mem_map.mp hs
            by_cases h0 : s0.sid = sale.sid
            · rw [if_pos (by simp [h0])] at hse
              rw [← hse] at hcid
              have hcid' : pyOrId req.customer_id sale.customer_id = some cid := hcid
              by_cases hit : idT req.customer_id
              · unfold pyOrId at hcid'
                rw [if_pos hit] at hcid'
                obtain ⟨cid2, hcid2, comp, hcomp, hmem⟩ := hok hit
                have hceq : cid2 = cid := by
                  rw [hcid2] at hcid'
                  simpa using hcid'
                have hnz : cid ≠ 0 := by
                  rw [hcid2] at hit
                  rw [← hceq]
                  simpa [idT] using hit
                refine ⟨hnz, ?_⟩
                have hscomp2 : s.company = (u.company_id).getD 0 := by
                  rw [← hse]
                  exact hscomp
                rw [hscomp2]
                rw [show (u.company_id).getD 0 = comp from by rw [hcomp]; rfl]
                rw [← hceq]
                exact hmem
              · unfold pyOrId at hcid'
                rw [if_neg hit] at hcid'
                have hold := hinv.res sale hSm cid hcid'
                refine ⟨hold.1, ?_⟩
                have hscomp2 : s.company = sale.company := by
                  rw [← hse]
                rw [hscomp2]
                exact hold.2
            · rw [if_neg (by simp [h0])] at hse
              rw [← hse]
              rw [← hse] at hcid
              exact hinv.res s0 hs0 cid hcid

theorem custOk_congr {db db' : DB} (h : CustSig db' = CustSig db) :
    ∀ op, CustOk db op → CustOk db' op := by
  intro op hok
  cases op with
  | create u req =>
    intro hit
    obtain ⟨cid, h1, comp, h2, h3⟩ := hok hit
    exact ⟨cid, h1, comp, h2, by rw [h]; exact h3⟩
  | update u sid req =>
    intro hit
    obtain ⟨cid, h1, comp, h2, h3⟩ := hok hit
    exact ⟨cid, h1, comp, h2, by rw [h]; exact h3⟩
  | delete u sid => exact trivial

theorem applyOp_inv (db : DB) (op : Op) (hinv : AggInv db) (hok : CustOk db op) :
    AggInv (applyOp db op) ∧ CustSig (applyOp db op) = CustSig db := by
  cases op with
  | create u req => exact create_sale_inv req u db hinv hok
  | update u sid req => exact update_sale_inv sid req u db hinv hok
  | delete u sid => exact delete_sale_inv sid u db hinv

theorem applyOps_inv (ops : List Op) : ∀ db : DB, AggInv db →
    (∀ op ∈ ops, CustOk db op) →
    AggInv (applyOps db ops) ∧ CustSig (applyOps db ops) = CustSig db := by
  induction ops with
  | nil => intro db hinv _; exact ⟨hinv, rfl⟩
  | cons op rest ih =>
    intro db hinv hok
    have hstep := applyOp_inv db op hinv (hok op (List.mem_cons_self op rest))
    have hrest := ih (applyOp db op) hstep.1
      (fun op2 hop2 => custOk_congr hstep.2 op2 (hok op2 (List.mem_cons_of_mem op hop2)))
    refine ⟨?_, ?_⟩
    · show AggInv (applyOps (applyOp db op) rest)
      exact hrest.1
    · show CustSig (applyOps (applyOp db op) rest) = CustSig db
      exact hrest.2.trans hstep.2

/-- C3: false as stated — `create_sale` with a customer id that only exists in
another tenant does not raise: it creates the sale carrying that customer id
while skipping the aggregate bump, so the cross-tenant customer's stored
totals no longer match its linked sales. -/
theorem C3_counterexample :
    AggConsistent dbC3 ∧
    ¬ CustOk dbC3 (Op.create actor1 reqC3) ∧
    (create_sale reqC3 actor1 dbC3).1 = .ok 1 ∧
    ¬ AggConsistent (applyOps dbC3 opsC3) := by
  decide

/-- C3 (amended): starting from a well-formed state whose aggregates match
(`AggInv`: unique nonzero customer keys, unique bounded sale keys, every sale
reference resolving in its own tenant, and consistent aggregates), any
sequence of the three operations in which every supplied customer reference
resolves within the acting tenant (`CustOk`, read against the initial
customer signature, which all three operations preserve) leaves every
customer's `total_purchases` equal to the sum of `total_amount` over its
currently-existing sales and `total_transactions` equal to their count.  The
resolution hypothesis is forced: an unresolvable reference on create is
silently recorded on the sale while the bump is skipped. -/
theorem C3_aggregate_consistency (db : DB) (ops : List Op)
    (hinv : AggInv db) (hok : ∀ op ∈ ops, CustOk db op) :
    AggConsistent (applyOps db ops) :=
  (applyOps_inv ops db hinv hok).1.agg

/-- Witness: a create linked to one customer, an update relinking the sale to
a second customer, and a delete, all on a two-customer tenant. -/
theorem C3_aggregate_consistency_witness :
    AggConsistent (applyOps dbC3w opsC3w) :=
  C3_aggregate_consistency dbC3w opsC3w
    ⟨by decide, by decide, by decide, by decide, by decide, by decide⟩
    (by decide)

end Shop
